import Mathlib

/-!
Verification of house-of-neural-networks: tensor codec and message orchestration.

Shallow embedding of `internal/triton/grpc_simple_client.go` (the tensor codec
`Preprocess`, `BytesToInt32`, `readInt32`, `Postprocess` and the engine request
helpers), of `internal/service/message.go` (`MessageService.ProcessMessage` and
`GetMessages`), of `internal/service/model.go` (`ModelService.CreateModel`, `GetModel`,
`DeleteModel`), of `internal/repository/model.go` (`ModelRepository.GetModel`), of the
model service's transport (`internal/transport/grpc/model/modelservice.go`), of the
login path (`internal/service/auth.go`, `internal/transport/grpc/auth/authservice.go`)
and of the gateway (`Router.authMiddleware`, the handlers `SendMessage` and
`GetMessages` of `internal/transport/gateway/handlers/message_handlers.go`).

Conventions of the embedding
* an `int32` is an `Int` in the range `[-2^31, 2^31)` (`isInt32`); a `uint32`
  is a `Nat` below `2^32`; a `byte` is a `Nat` below `256`; `int` and `int64`
  values (identifiers, version numbers) are `Int`;
* a Go slice of `int32` is a `List Int` (only indexing and `len` are used on it);
* a Go `[]byte` that is *read* through a slice expression is a `ByteBuf`: the
  visible elements (`len`) and the elements of the backing array between `len`
  and `cap`, because `s[lo:hi]` is checked against `cap(s)`, not `len(s)`;
  a `[]byte` that is only built and handed on is the `List Nat` of its elements;
* a run-time panic and `log.Fatalf` are explicit results (`Abort`), so that a
  call which does not return is distinguished from one that returns;
* a Go `error` is the text of its `Error()`; `nil` is `none`;
* the collaborators reached through interfaces (the repositories and the engine's
  gRPC client) are arbitrary state transformers over a state `σ`; every call made on
  them is appended, with its arguments, to a trace;
* functions of libraries outside the repository (`bcrypt.CompareHashAndPassword`, the
  signing of a JWT, the file operations of package `os`, the database query, the clients
  generated from the API definitions) are parameters; `strconv.ParseInt` and
  `strings.Split` are written out for base 10 and for a separator of one character;
  writing a log entry and setting a response header are not modelled;
* what a handler writes to the HTTP response (an error, a redirect, a cookie, a JSON
  document) and its hand-over to the next handler are recorded in the trace as well.
-/

namespace Go

/-- Ways in which a Go call does not return to its caller. -/
inductive Abort where
  /-- run-time panic `index out of range [i] with length n` -/
  | indexOutOfRange (i n : Nat)
  /-- run-time panic `slice bounds out of range [:hi] with capacity c` -/
  | sliceBoundsOutOfRange (hi c : Nat)
  /-- the process is terminated by `log.Fatalf` (prints, then `os.Exit(1)`) -/
  | fatal (msg : String)
  /-- run-time panic `invalid memory address or nil pointer dereference` -/
  | nilDereference
  /-- run-time panic `interface conversion: interface {} is nil, not string` -/
  | interfaceConversion
  deriving DecidableEq, Repr

deriving instance DecidableEq for Except

/-- Range of the Go type `int32`. -/
def isInt32 (x : Int) : Prop := -2147483648 ≤ x ∧ x < 2147483648

instance (x : Int) : Decidable (isInt32 x) := by unfold isInt32; infer_instance

/-- The Go conversion `uint32(x)` of an `int32`: the two's-complement reinterpretation. -/
def uint32 (x : Int) : Nat := (x % 4294967296).toNat

/-- The Go conversion `int32(u)` of a `uint32`. -/
def int32 (u : Nat) : Int :=
  if u % 4294967296 < 2147483648 then ((u % 4294967296 : Nat) : Int)
  else ((u % 4294967296 : Nat) : Int) - 4294967296

/-- The Go conversion `byte(v)` of an unsigned integer. -/
def byte (v : Nat) : Nat := v % 256

/-- A Go `[]byte` value: `vis` are the `len` elements that indexing can reach,
`spare` the elements of the backing array from `len` up to `cap`. -/
structure ByteBuf where
  vis : List Nat
  spare : List Nat
  deriving DecidableEq, Repr

/-- The Go builtin `len`. -/
def ByteBuf.len (s : ByteBuf) : Nat := s.vis.length

/-- The Go builtin `cap`. -/
def ByteBuf.cap (s : ByteBuf) : Nat := s.vis.length + s.spare.length

/-- The Go slice expression `s[lo:hi]` for the bounds `lo ≤ hi` used by the decoding
loops: it panics when `hi > cap(s)` and otherwise yields the `hi - lo` elements
from `lo`, the rest of the backing array staying reachable as capacity. -/
def ByteBuf.slice (s : ByteBuf) (lo hi : Nat) : Except Abort ByteBuf :=
  if hi > s.cap then .error (.sliceBoundsOutOfRange hi s.cap)
  else .ok { vis := ((s.vis ++ s.spare).drop lo).take (hi - lo),
             spare := (s.vis ++ s.spare).drop hi }

/-- A byte slice holding exactly the bytes `bs`, with `spare` as unused capacity
(how much capacity `append` leaves behind is not fixed by the language). -/
def ByteBuf.ofBytes (bs spare : List Nat) : ByteBuf := { vis := bs, spare := spare }

/-- The Go index expression `l[i]` on a slice: a run-time panic when `i ≥ len(l)`. -/
def index {α : Type} (l : List α) (i : Nat) : Except Abort α :=
  match l[i]? with
  | some a => .ok a
  | none => .error (.indexOutOfRange i l.length)

/-- The rendering of an integer by the verb `%d` and by `fmt.Sprint`: signed decimal. -/
def Sprintd (x : Int) : String :=
  if x < 0 then "-" ++ Nat.repr x.natAbs else Nat.repr x.toNat

/-- The relation tested by `strings.Contains(s, substr)` (and by `assert.Contains` on an
error message): `substr` occurs in `s`. -/
def Contains (s substr : String) : Prop := ∃ pre post : String, s = pre ++ substr ++ post

/-- What the code can observe of a `context.Context`: whether it is already
cancelled and the timeout, in seconds, set by `context.WithTimeout`. -/
structure Context where
  cancelled : Bool
  timeoutSec : Option Nat
  deriving DecidableEq, Repr

/-- The Go call `context.Background()`: never cancelled, no deadline. -/
def Context.Background : Context := { cancelled := false, timeoutSec := none }

/-- The Go call `context.WithTimeout(parent, sec * time.Second)`: inherits the parent's
cancellation and takes the earlier of the two deadlines. -/
def Context.WithTimeout (parent : Context) (sec : Nat) : Context :=
  { cancelled := parent.cancelled,
    timeoutSec := match parent.timeoutSec with
      | none => some sec
      | some t => some (min t sec) }

end Go

namespace Binary

open Go

/-- The four bytes written by `binary.LittleEndian.PutUint32(bs, v)`:
`b[0] = byte(v)`, `b[1] = byte(v >> 8)`, `b[2] = byte(v >> 16)`, `b[3] = byte(v >> 24)`. -/
def PutUint32 (v : Nat) : List Nat :=
  [byte v, byte (v >>> 8), byte (v >>> 16), byte (v >>> 24)]

/-- The value of `binary.LittleEndian.Uint32(b)` on four bytes:
`uint32(b[0]) | uint32(b[1])<<8 | uint32(b[2])<<16 | uint32(b[3])<<24`. -/
def Uint32 (b0 b1 b2 b3 : Nat) : Nat :=
  b0 ||| (b1 <<< 8) ||| (b2 <<< 16) ||| (b3 <<< 24)

end Binary

namespace Status

/-- The gRPC status codes that the repository uses. -/
inductive Code where
  | Unknown | InvalidArgument | NotFound | Internal | Unauthenticated
  deriving DecidableEq, Repr

/-- The error built by `status.Errorf(code, format, args...)`, with its formatted
description. -/
structure StatusError where
  code : Code
  desc : String
  deriving DecidableEq, Repr

/-- The call `status.Errorf(c, "<fn>: %s", err)` with the text already formatted. -/
def Errorf (c : Code) (desc : String) : StatusError := { code := c, desc := desc }

/-- The name printed for a status code (`codes.Code.String`). -/
def Code.String : Code → String
  | .Unknown => "Unknown"
  | .InvalidArgument => "InvalidArgument"
  | .NotFound => "NotFound"
  | .Internal => "Internal"
  | .Unauthenticated => "Unauthenticated"

/-- The text of a status error (`(*status.Error).Error`):
`rpc error: code = <code> desc = <description>`. -/
def StatusError.Error (e : StatusError) : String :=
  "rpc error: code = " ++ e.code.String ++ " desc = " ++ e.desc

end Status

namespace Triton2

open Go

/-- The message `ModelReadyRequest` of the engine's API. -/
structure ModelReadyRequest where
  Name : String
  Version : String
  deriving DecidableEq, Repr

/-- The message `RepositoryModelLoadRequest` of the engine's API. -/
structure RepositoryModelLoadRequest where
  ModelName : String
  deriving DecidableEq, Repr

/-- The message `RepositoryModelUnloadRequest` of the engine's API. -/
structure RepositoryModelUnloadRequest where
  ModelName : String
  deriving DecidableEq, Repr

/-- The message `ModelInferRequest_InferInputTensor`. -/
structure InferInputTensor where
  Name : String
  Datatype : String
  Shape : List Int
  deriving DecidableEq, Repr

/-- The message `ModelInferRequest_InferRequestedOutputTensor`. -/
structure InferRequestedOutputTensor where
  Name : String
  deriving DecidableEq, Repr

/-- The message `ModelInferRequest`. -/
structure ModelInferRequest where
  ModelName : String
  ModelVersion : String
  Inputs : List InferInputTensor
  Outputs : List InferRequestedOutputTensor
  RawInputContents : List (List Nat)
  deriving DecidableEq, Repr

/-- The part of a `ModelInferResponse` that the client reads. -/
structure ModelInferResponse where
  RawOutputContents : List ByteBuf
  deriving DecidableEq, Repr

end Triton2

namespace Models

/-- The struct `models.Message`; `CreatedAt` is a clock reading. -/
structure Message where
  ID : Int
  UserID : Int
  ModelID : Int
  VersionID : Int
  Input1 : List Nat
  Input2 : List Nat
  Results : List String
  CreatedAt : Nat
  deriving DecidableEq, Repr

/-- A `models.Message` as the repository hands it to `GetMessages`: its two buffers are
read there through slice expressions, so they are kept as Go slices (bytes and spare
capacity). -/
structure StoredMessage where
  ID : Int
  UserID : Int
  ModelID : Int
  VersionID : Int
  Input1 : Go.ByteBuf
  Input2 : Go.ByteBuf
  Results : List String
  CreatedAt : Nat
  deriving DecidableEq, Repr

/-- The struct `models.Version`. -/
structure Version where
  ID : Int
  Number : Int
  ModelID : Int
  deriving DecidableEq, Repr

/-- The struct `models.Model`. -/
structure Model where
  ID : Int
  Name : String
  UserID : Int
  Versions : List Version
  deriving DecidableEq, Repr

/-- The struct `models.SendMessageRequest`: the JSON body of a send-message request. -/
structure SendMessageRequest where
  Input1 : List Int
  Input2 : List Int
  deriving DecidableEq, Repr

/-- The struct `models.User`. -/
structure User where
  ID : Int
  Username : String
  Password : String
  Email : String
  deriving DecidableEq, Repr

/-- The struct `CustomClaims` of the auth service: the user ID and the registered claims
that `GenerateToken` sets (times in seconds). -/
structure CustomClaims where
  UserID : Int
  IssuedAt : Nat
  ExpiresAt : Nat
  Issuer : String
  deriving DecidableEq, Repr

end Models

namespace MessagePb

/-- The message `Input` of the message service's API. -/
structure Input where
  Values : List Int
  deriving DecidableEq, Repr

/-- The message `Message` of the message service's API. -/
structure Message where
  Id : Int
  UserId : Int
  ModelId : Int
  VersionId : Int
  Inputs : List Input
  Results : List String
  CreatedAt : Nat
  deriving DecidableEq, Repr

/-- The message `SendMessageRequest` of the message service's API. -/
structure SendMessageRequest where
  UserId : Int
  VersionId : Int
  ModelId : Int
  RequestId : String
  Inputs : List Input
  deriving DecidableEq, Repr

/-- The message `SendMessageResponse` of the message service's API. -/
structure SendMessageResponse where
  Results : List String
  deriving DecidableEq, Repr

/-- The message `GetMessagesRequest` of the message service's API. -/
structure GetMessagesRequest where
  ModelId : Int
  UserId : Int
  RequestId : String
  deriving DecidableEq, Repr

/-- The message `GetMessagesResponse` of the message service's API. -/
structure GetMessagesResponse where
  Messages : List Message
  deriving DecidableEq, Repr

end MessagePb

namespace AuthPb

/-- The message `LogInRequest` of the auth service's API. -/
structure LogInRequest where
  Username : String
  Password : String
  deriving DecidableEq, Repr

/-- The message `LogInResponse` of the auth service's API. -/
structure LogInResponse where
  Jwt : String
  UserId : Int
  deriving DecidableEq, Repr

/-- The message `ValidateTokenRequest` of the auth service's API. -/
structure ValidateTokenRequest where
  Jwt : String
  deriving DecidableEq, Repr

/-- The message `ValidateTokenResponse` of the auth service's API. -/
structure ValidateTokenResponse where
  Valid : Bool
  deriving DecidableEq, Repr

/-- The generated getter `GetValid`: `false` on a `nil` response. -/
def GetValid : Option ValidateTokenResponse → Bool
  | some r => r.Valid
  | none => false

end AuthPb

namespace ModelPb

/-- The message `File` of the model service's API. -/
structure File where
  Filename : String
  Content : List Nat
  deriving DecidableEq, Repr

/-- The message `UploadModelRequest` of the model service's API; `Config` is a pointer
to a `File`, `nil` when the field is not set. -/
structure UploadModelRequest where
  Name : String
  UserId : Int
  Config : Option File
  deriving DecidableEq, Repr

/-- The generated getter `GetFilename`: the empty string on a `nil` file. -/
def GetFilename : Option File → String
  | some f => f.Filename
  | none => ""

/-- The generated getter `GetContent`: the `nil` slice on a `nil` file. -/
def GetContent : Option File → List Nat
  | some f => f.Content
  | none => []

/-- The message `UploadModelResponse` of the model service's API. -/
structure UploadModelResponse where
  Id : Int
  deriving DecidableEq, Repr

/-- The message `GetModelRequest` of the model service's API. -/
structure GetModelRequest where
  Id : Int
  deriving DecidableEq, Repr

/-- The message `Version` of the model service's API. -/
structure Version where
  Id : Int
  Number : Int
  ModelId : Int
  deriving DecidableEq, Repr

/-- The message `Model` of the model service's API. -/
structure Model where
  Id : Int
  Name : String
  UserId : Int
  Versions : List Version
  deriving DecidableEq, Repr

/-- The message `GetModelResponse` of the model service's API. -/
structure GetModelResponse where
  Model : Model
  deriving DecidableEq, Repr

/-- The message `UnloadModelRequest` of the model service's API. -/
structure UnloadModelRequest where
  Id : Int
  deriving DecidableEq, Repr

/-- The message `UnloadModelResponse` of the model service's API. -/
structure UnloadModelResponse where
  Success : Bool
  deriving DecidableEq, Repr

end ModelPb

namespace Env

open Go

/-- A call made on a collaborator, with the arguments it was given. -/
inductive Call where
  | SaveMessage (ctx : Context) (msg : Models.Message)
  | GetMessages (ctx : Context) (userID modelID : Int)
  | GetModelName (ctx : Context) (modelID : Int)
  | GetVersionNumber (ctx : Context) (versionID : Int)
  | ModelReady (ctx : Context) (req : Triton2.ModelReadyRequest)
  | RepositoryModelLoad (ctx : Context) (req : Triton2.RepositoryModelLoadRequest)
  | RepositoryModelUnload (ctx : Context) (req : Triton2.RepositoryModelUnloadRequest)
  | ModelInfer (ctx : Context) (req : Triton2.ModelInferRequest)
  | CreateModel (ctx : Context) (model : Models.Model)
  | GetModel (ctx : Context) (model : Models.Model)
  | DeleteModel (ctx : Context) (model : Models.Model)
  | CreateVersion (ctx : Context) (version : Models.Version)
  | ListModels (ctx : Context) (userID : Int)
  | CreateUser (ctx : Context) (user : Models.User)
  | GetUser (ctx : Context) (user : Models.User)
  | SignedString (claims : Models.CustomClaims) (key : String)
  | MkdirAll (path : String)
  | WriteFile (path : String) (content : List Nat)
  | ValidateToken (ctx : Context) (req : AuthPb.ValidateTokenRequest)
  | ClientSendMessage (ctx : Context) (req : MessagePb.SendMessageRequest)
  | ClientGetMessages (ctx : Context) (req : MessagePb.GetMessagesRequest)
  | NextServeHTTP
  | HttpError (error : String) (code : Nat)
  | HttpRedirect (url : String) (code : Nat)
  | HttpSetCookie (name value : String) (maxAge : Int) (httpOnly : Bool) (path : String)
  | EncodeResults (results : List String)
  | EncodeMessages (resp : Option MessagePb.GetMessagesResponse)
  deriving DecidableEq, Repr

/-- The state of the collaborators together with the calls made so far, oldest first. -/
structure World (σ : Type) where
  st : σ
  trace : List Call

/-- Performs the collaborator call `f` on the current state and records it as `c`. -/
def World.call {σ α : Type} (w : World σ) (c : Call) (f : σ → α × σ) : α × World σ :=
  ((f w.st).1, { st := (f w.st).2, trace := w.trace ++ [c] })

/-- Whether a call is addressed to the inference engine. -/
def Call.isEngine : Call → Bool
  | .ModelReady _ _ => true
  | .RepositoryModelLoad _ _ => true
  | .RepositoryModelUnload _ _ => true
  | .ModelInfer _ _ => true
  | _ => false

/-- Whether a call is the engine's load call. -/
def Call.isLoad : Call → Bool
  | .RepositoryModelLoad _ _ => true
  | _ => false

/-- Whether a call is the engine's infer call. -/
def Call.isInfer : Call → Bool
  | .ModelInfer _ _ => true
  | _ => false

/-- Whether a call is the repository's `SaveMessage`. -/
def Call.isSave : Call → Bool
  | .SaveMessage _ _ => true
  | _ => false

/-- The context under which a call was issued; a call that takes no context (the
signing of a token, a file operation, a write to the HTTP response, the hand-over to the
next HTTP handler) counts as issued under `context.Background()`. -/
def Call.ctx : Call → Context
  | .SaveMessage ctx _ => ctx
  | .GetMessages ctx _ _ => ctx
  | .GetModelName ctx _ => ctx
  | .GetVersionNumber ctx _ => ctx
  | .ModelReady ctx _ => ctx
  | .RepositoryModelLoad ctx _ => ctx
  | .RepositoryModelUnload ctx _ => ctx
  | .ModelInfer ctx _ => ctx
  | .CreateModel ctx _ => ctx
  | .GetModel ctx _ => ctx
  | .DeleteModel ctx _ => ctx
  | .CreateVersion ctx _ => ctx
  | .ListModels ctx _ => ctx
  | .CreateUser ctx _ => ctx
  | .GetUser ctx _ => ctx
  | .SignedString _ _ => Context.Background
  | .MkdirAll _ => Context.Background
  | .WriteFile _ _ => Context.Background
  | .ValidateToken ctx _ => ctx
  | .ClientSendMessage ctx _ => ctx
  | .ClientGetMessages ctx _ => ctx
  | .NextServeHTTP => Context.Background
  | .HttpError _ _ => Context.Background
  | .HttpRedirect _ _ => Context.Background
  | .HttpSetCookie _ _ _ _ _ => Context.Background
  | .EncodeResults _ => Context.Background
  | .EncodeMessages _ => Context.Background

/-- Records the effect `c`, which leaves the collaborators' state as it is. -/
def World.emit {σ : Type} (w : World σ) (c : Call) : World σ :=
  { st := w.st, trace := w.trace ++ [c] }

/-- The calls recorded in `w2` after those of `w`. -/
def newCalls {σ : Type} (w w2 : World σ) : List Call := w2.trace.drop w.trace.length

/-- The user identifier carried by a request forwarded to the message service. -/
def Call.forwardedUser : Call → Option Int
  | .ClientSendMessage _ req => some req.UserId
  | .ClientGetMessages _ req => some req.UserId
  | _ => none

/-- Whether a call is the hand-over to the next HTTP handler. -/
def Call.isNext : Call → Bool
  | .NextServeHTTP => true
  | _ => false

/-- Whether a call forwards a request to the message service. -/
def Call.isForward : Call → Bool
  | .ClientSendMessage _ _ => true
  | .ClientGetMessages _ _ => true
  | _ => false

/-- Whether a call is the engine's unload call. -/
def Call.isUnload : Call → Bool
  | .RepositoryModelUnload _ _ => true
  | _ => false

/-- Whether a call is the model repository's `DeleteModel`. -/
def Call.isDeleteModel : Call → Bool
  | .DeleteModel _ _ => true
  | _ => false

end Env

namespace Triton

open Go Binary Env

/-- The constant `inputSize` of `grpc_simple_client.go`. -/
def inputSize : Nat := 16

/-- The constant `outputSize` of `grpc_simple_client.go`. -/
def outputSize : Nat := 16

/-- The methods of the interface `triton.GRPCInferenceServiceClient` that the
repository calls; `ModelReady` yields the response's `Ready` field. -/
structure GRPCInferenceServiceClient (σ : Type) where
  ModelReady : Context → Triton2.ModelReadyRequest → σ → Except String Bool × σ
  RepositoryModelLoad : Context → Triton2.RepositoryModelLoadRequest → σ → Option String × σ
  RepositoryModelUnload : Context → Triton2.RepositoryModelUnloadRequest → σ → Option String × σ
  ModelInfer : Context → Triton2.ModelInferRequest → σ →
    Except String Triton2.ModelInferResponse × σ

/-- The function `ModelInferRequest`: builds the infer request and submits it; a
transport error ends the process through `log.Fatalf`. -/
def ModelInferRequest {σ : Type} (client : GRPCInferenceServiceClient σ)
    (rawInput : List (List Nat)) (modelName modelVersion : String) (w : World σ) :
    Except Abort Triton2.ModelInferResponse × World σ :=
  let ctx := Context.WithTimeout Context.Background 10
  let inferInputs : List Triton2.InferInputTensor :=
    [{ Name := "INPUT0", Datatype := "INT32", Shape := [1, 16] },
     { Name := "INPUT1", Datatype := "INT32", Shape := [1, 16] }]
  let inferOutputs : List Triton2.InferRequestedOutputTensor :=
    [{ Name := "OUTPUT0" }, { Name := "OUTPUT1" }]
  match index rawInput 0 with
  | .error e => (.error e, w)
  | .ok raw0 =>
    match index rawInput 1 with
    | .error e => (.error e, w)
    | .ok raw1 =>
      let modelInferRequest : Triton2.ModelInferRequest :=
        { ModelName := modelName, ModelVersion := modelVersion,
          Inputs := inferInputs, Outputs := inferOutputs,
          RawInputContents := ([] ++ [raw0]) ++ [raw1] }
      match w.call (.ModelInfer ctx modelInferRequest) (client.ModelInfer ctx modelInferRequest) with
      | (.error err, w1) => (.error (.fatal ("Error processing InferRequest: " ++ err)), w1)
      | (.ok modelInferResponse, w1) => (.ok modelInferResponse, w1)

/-- The function `ModelReadyRequest`: returns `(false, err)` or `(ready, nil)`. -/
def ModelReadyRequest {σ : Type} (client : GRPCInferenceServiceClient σ)
    (modelName modelVersion : String) (w : World σ) : (Bool × Option String) × World σ :=
  let ctx := Context.WithTimeout Context.Background 10
  let modelReadyRequest : Triton2.ModelReadyRequest :=
    { Name := modelName, Version := modelVersion }
  match w.call (.ModelReady ctx modelReadyRequest) (client.ModelReady ctx modelReadyRequest) with
  | (.error err, w1) => ((false, some err), w1)
  | (.ok ready, w1) => ((ready, none), w1)

/-- The function `LoadModelRequest`: returns the transport error, or `nil`. -/
def LoadModelRequest {σ : Type} (client : GRPCInferenceServiceClient σ)
    (modelName : String) (w : World σ) : Option String × World σ :=
  let ctx := Context.WithTimeout Context.Background 10
  w.call (.RepositoryModelLoad ctx { ModelName := modelName })
    (client.RepositoryModelLoad ctx { ModelName := modelName })

/-- The function `UnloadModelRequest`: returns the transport error, or `nil`. -/
def UnloadModelRequest {σ : Type} (client : GRPCInferenceServiceClient σ)
    (modelName : String) (w : World σ) : Option String × World σ :=
  let ctx := Context.WithTimeout Context.Background 10
  w.call (.RepositoryModelUnload ctx { ModelName := modelName })
    (client.RepositoryModelUnload ctx { ModelName := modelName })

/-- The loop of `Preprocess`: `n` iterations remain and the loop counter is `i`;
`b0`, `b1` are `inputBytes0`, `inputBytes1` as built so far. -/
def PreprocessLoop : Nat → Nat → List Int → List Int → List Nat → List Nat →
    Except Abort (List Nat × List Nat)
  | 0, _, _, _, b0, b1 => .ok (b0, b1)
  | n + 1, i, inputData0, inputData1, b0, b1 =>
    match index inputData0 i with
    | .error e => .error e
    | .ok x0 =>
      match index inputData1 i with
      | .error e => .error e
      | .ok x1 =>
        PreprocessLoop n (i + 1) inputData0 inputData1
          (b0 ++ PutUint32 (uint32 x0)) (b1 ++ PutUint32 (uint32 x1))

/-- The function `Preprocess`: converts `int32` input data into raw bytes.
`inputs[0]` and `inputs[1]` are indexed first, then the loop runs `inputSize` times. -/
def Preprocess (inputs : List (List Int)) : Except Abort (List (List Nat)) :=
  match index inputs 0 with
  | .error e => .error e
  | .ok inputData0 =>
    match index inputs 1 with
    | .error e => .error e
    | .ok inputData1 =>
      match PreprocessLoop inputSize 0 inputData0 inputData1 [] [] with
      | .error e => .error e
      | .ok (inputBytes0, inputBytes1) => .ok [inputBytes0, inputBytes1]

/-- The function `readInt32`: `binary.Read` of an `int32` from a buffer over `fourBytes`.
With fewer than four readable bytes `binary.Read` returns an error, which the
source ignores, and `retval` keeps its zero value. -/
def readInt32 (fourBytes : ByteBuf) : Int :=
  match fourBytes.vis with
  | b0 :: b1 :: b2 :: b3 :: _ => int32 (Uint32 b0 b1 b2 b3)
  | _ => 0

/-- The decoding loop, written twice in the source with the same body (in
`BytesToInt32` and in `Postprocess`): `n` iterations remain, the loop counter is
`i`, `out0`/`out1` are `outputData0`/`outputData1`. -/
def DecodeLoop : Nat → Nat → ByteBuf → ByteBuf → List Int → List Int →
    Except Abort (List Int × List Int)
  | 0, _, _, _, out0, out1 => .ok (out0, out1)
  | n + 1, i, bytes0, bytes1, out0, out1 =>
    match bytes0.slice (i * 4) (i * 4 + 4) with
    | .error e => .error e
    | .ok s0 =>
      match bytes1.slice (i * 4) (i * 4 + 4) with
      | .error e => .error e
      | .ok s1 =>
        DecodeLoop n (i + 1) bytes0 bytes1
          (out0.set i (readInt32 s0)) (out1.set i (readInt32 s1))

/-- The function `BytesToInt32`. -/
def BytesToInt32 (rawInputs : List ByteBuf) : Except Abort (List (List Int)) :=
  match index rawInputs 0 with
  | .error e => .error e
  | .ok inputBytes0 =>
    match index rawInputs 1 with
    | .error e => .error e
    | .ok inputBytes1 =>
      match DecodeLoop outputSize 0 inputBytes0 inputBytes1
          (List.replicate outputSize 0) (List.replicate outputSize 0) with
      | .error e => .error e
      | .ok (outputData0, outputData1) => .ok [outputData0, outputData1]

/-- The function `Postprocess`: converts the response's raw output bytes into `int32` data. -/
def Postprocess (inferResponse : Triton2.ModelInferResponse) : Except Abort (List (List Int)) :=
  match index inferResponse.RawOutputContents 0 with
  | .error e => .error e
  | .ok outputBytes0 =>
    match index inferResponse.RawOutputContents 1 with
    | .error e => .error e
    | .ok outputBytes1 =>
      match DecodeLoop outputSize 0 outputBytes0 outputBytes1
          (List.replicate outputSize 0) (List.replicate outputSize 0) with
      | .error e => .error e
      | .ok (outputData0, outputData1) => .ok [outputData0, outputData1]

/-- Little-endian bytes of a vector: the four bytes of each element, in index order. -/
def leBytes (v : List Int) : List Nat := v.flatMap (fun x => PutUint32 (uint32 x))

/-- The `int32` held in the four bytes at offset `4 * i` of a buffer's backing array. -/
def leWordAt (s : ByteBuf) (i : Nat) : Int :=
  readInt32 { vis := ((s.vis ++ s.spare).drop (i * 4)).take 4,
              spare := (s.vis ++ s.spare).drop (i * 4 + 4) }

/-- The sixteen `int32` values held in the first 64 bytes of a buffer's backing array. -/
def leWords (s : ByteBuf) : List Int := (List.range outputSize).map (leWordAt s)

end Triton

namespace Service

open Go Env Status

/-- The interface `MessageRepo`; `GetModelName` and `GetVersionNumber` receive the
`ID` of the `models.Model` / `models.Version` literal they are called with. -/
structure MessageRepo (σ : Type) where
  SaveMessage : Context → Models.Message → σ → Option String × σ
  GetMessages : Context → Int → Int → σ → Except String (List Models.StoredMessage) × σ
  GetModelName : Context → Int → σ → Except String String × σ
  GetVersionNumber : Context → Int → σ → Except String Int × σ

/-- The struct `MessageService`, with the system clock read by `time.Now()`. -/
structure MessageService (σ : Type) where
  Repo : MessageRepo σ
  triton : Triton.GRPCInferenceServiceClient σ
  Now : σ → Nat

/-- The copy of the request's inputs into `inputsInt` (lines 54-60): one row per
input, each row built by appending the input's values one by one. -/
def copyInputs (inputs : List (List Int)) : List (List Int) :=
  inputs.foldl (fun inputsInt input =>
    inputsInt ++ [input.foldl (fun row val => row ++ [val]) []]) []

/-- The call `fmt.Sprintf("%d + %d = %d", a, b, c)`. -/
def SprintfSum (a b c : Int) : String :=
  Sprintd a ++ " + " ++ Sprintd b ++ " = " ++ Sprintd c

/-- The call `fmt.Sprintf("%d - %d = %d", a, b, c)`. -/
def SprintfDiff (a b c : Int) : String :=
  Sprintd a ++ " - " ++ Sprintd b ++ " = " ++ Sprintd c

/-- The formatting loop of `ProcessMessage` (lines 67-70): `n` iterations remain, the
loop counter is `i`, `resultsStr` is the slice built so far. -/
def formatLoop : Nat → Nat → List (List Int) → List Int → List Int → List String →
    Except Abort (List String)
  | 0, _, _, _, _, resultsStr => .ok resultsStr
  | n + 1, i, inputsInt, outputData0, outputData1, resultsStr =>
    match index inputsInt 0 with
    | .error e => .error e
    | .ok in0 =>
      match index in0 i with
      | .error e => .error e
      | .ok a =>
        match index inputsInt 1 with
        | .error e => .error e
        | .ok in1 =>
          match index in1 i with
          | .error e => .error e
          | .ok b =>
            match index outputData0 i with
            | .error e => .error e
            | .ok s =>
              match index outputData1 i with
              | .error e => .error e
              | .ok d =>
                formatLoop n (i + 1) inputsInt outputData0 outputData1
                  ((resultsStr ++ [SprintfSum a b s]) ++ [SprintfDiff a b d])

/-- The result-building block of `ProcessMessage` (lines 66-70), started with an
empty `resultsStr` and running `len(outputData0)` times. -/
def formatResults (inputsInt : List (List Int)) (outputData0 outputData1 : List Int) :
    Except Abort (List String) :=
  formatLoop outputData0.length 0 inputsInt outputData0 outputData1 []

/-- Lines 54-84 of `ProcessMessage`, reached once the model is known to be ready or
has been loaded: copy the inputs, encode, infer, decode, format, save. -/
def inferAndSave {σ : Type} (s : MessageService σ) (ctx : Context)
    (userID modelID versionID : Int) (inputs : List (List Int))
    (modelName : String) (versionNumber : Int) (w4 : World σ) :
    Except Abort (List String × Option StatusError) × World σ :=
  let inputsInt := copyInputs inputs
  match Triton.Preprocess inputsInt with
  | .error e => (.error e, w4)
  | .ok rawInput =>
    match Triton.ModelInferRequest s.triton rawInput modelName (Sprintd versionNumber) w4 with
    | (.error e, w5) => (.error e, w5)
    | (.ok inferResponse, w5) =>
      match Triton.Postprocess inferResponse with
      | .error e => (.error e, w5)
      | .ok outputs =>
        match index outputs 0 with
        | .error e => (.error e, w5)
        | .ok outputData0 =>
          match index outputs 1 with
          | .error e => (.error e, w5)
          | .ok outputData1 =>
            match formatResults inputsInt outputData0 outputData1 with
            | .error e => (.error e, w5)
            | .ok resultsStr =>
              match index rawInput 0 with
              | .error e => (.error e, w5)
              | .ok raw0 =>
                match index rawInput 1 with
                | .error e => (.error e, w5)
                | .ok raw1 =>
                  let msg : Models.Message :=
                    { ID := 0, UserID := userID, ModelID := modelID,
                      VersionID := versionID, Input1 := raw0, Input2 := raw1,
                      Results := resultsStr, CreatedAt := s.Now w5.st }
                  match w5.call (.SaveMessage ctx msg) (s.Repo.SaveMessage ctx msg) with
                  | (some err, w6) =>
                    (.ok ([], some (Errorf .Internal ("SendMessage: " ++ err))), w6)
                  | (none, w6) => (.ok (resultsStr, none), w6)

/-- The method `MessageService.ProcessMessage`: lines 36-53 (resolve the model name and
the version number, query readiness, load when not ready), then `inferAndSave`. The
result is what the call returns (`([]string, error)`), or the way it fails to return,
together with the world it leaves behind. -/
def ProcessMessage {σ : Type} (s : MessageService σ) (ctx : Context)
    (userID modelID versionID : Int) (inputs : List (List Int)) (w : World σ) :
    Except Abort (List String × Option StatusError) × World σ :=
  match w.call (.GetModelName ctx modelID) (s.Repo.GetModelName ctx modelID) with
  | (.error err, w1) => (.ok ([], some (Errorf .Internal ("SendMessage: " ++ err))), w1)
  | (.ok modelName, w1) =>
    match w1.call (.GetVersionNumber ctx versionID) (s.Repo.GetVersionNumber ctx versionID) with
    | (.error err, w2) => (.ok ([], some (Errorf .Internal ("SendMessage: " ++ err))), w2)
    | (.ok versionNumber, w2) =>
      match Triton.ModelReadyRequest s.triton modelName (Sprintd versionNumber) w2 with
      | ((_, some err), w3) => (.ok ([], some (Errorf .Internal ("SendMessage: " ++ err))), w3)
      | ((ready, none), w3) =>
        match (if !ready then Triton.LoadModelRequest s.triton modelName w3 else (none, w3)) with
        | (some err, w4) => (.ok ([], some (Errorf .Internal ("SendMessage: " ++ err))), w4)
        | (none, w4) =>
          inferAndSave s ctx userID modelID versionID inputs modelName versionNumber w4

/-- The two strings produced for index `i`: the sum line, then the difference line. -/
def linesAt (a b s d : List Int) (i : Nat) : List String :=
  [SprintfSum (a.getD i 0) (b.getD i 0) (s.getD i 0),
   SprintfDiff (a.getD i 0) (b.getD i 0) (d.getD i 0)]

/-- The strings that the formatting loop yields for inputs `a`, `b` and the outputs
decoded from the buffers `o0`, `o1`. -/
def resultsOf (a b : List Int) (o0 o1 : ByteBuf) : List String :=
  (List.range' 0 Triton.outputSize).flatMap
    (linesAt a b (Triton.leWords o0) (Triton.leWords o1))

/-- The context under which every engine request helper issues its call:
`context.WithTimeout(context.Background(), 10*time.Second)`. -/
def engineCtx : Context := Context.WithTimeout Context.Background 10

/-- The infer request that `ModelInferRequest` builds for two raw buffers. -/
def inferRequestOf (modelName modelVersion : String) (raw0 raw1 : List Nat) :
    Triton2.ModelInferRequest :=
  { ModelName := modelName, ModelVersion := modelVersion,
    Inputs := [{ Name := "INPUT0", Datatype := "INT32", Shape := [1, 16] },
               { Name := "INPUT1", Datatype := "INT32", Shape := [1, 16] }],
    Outputs := [{ Name := "OUTPUT0" }, { Name := "OUTPUT1" }],
    RawInputContents := [raw0, raw1] }

/-- The message handed to `SaveMessage` for inputs `a`, `b`, the formatted `results` and
the clock reading `now`. -/
def messageOf (userID modelID versionID : Int) (a b : List Int) (results : List String)
    (now : Nat) : Models.Message :=
  { ID := 0, UserID := userID, ModelID := modelID, VersionID := versionID,
    Input1 := Triton.leBytes (a.take Triton.inputSize),
    Input2 := Triton.leBytes (b.take Triton.inputSize),
    Results := results, CreatedAt := now }

/-- The calls of a run that reaches `SaveMessage`, in order; the load call is present
exactly when the readiness answer was `false`. -/
def callsOf (ctx : Context) (modelID versionID : Int) (name : String) (ver : Int)
    (ready : Bool) (a b : List Int) (msg : Models.Message) : List Call :=
  [.GetModelName ctx modelID, .GetVersionNumber ctx versionID,
    .ModelReady engineCtx { Name := name, Version := Sprintd ver }] ++
  (if ready then [] else [.RepositoryModelLoad engineCtx { ModelName := name }]) ++
  [.ModelInfer engineCtx (inferRequestOf name (Sprintd ver)
      (Triton.leBytes (a.take Triton.inputSize)) (Triton.leBytes (b.take Triton.inputSize))),
    .SaveMessage ctx msg]

/-- The entry that `GetMessages` builds for one stored message whose buffers decode
to `in0` and `in1`. -/
def toPbMessage (msg : Models.StoredMessage) (in0 in1 : List Int) : MessagePb.Message :=
  { Id := msg.ID, UserId := msg.UserID, ModelId := msg.ModelID, VersionId := msg.VersionID,
    Inputs := [{ Values := in0 }, { Values := in1 }],
    Results := msg.Results, CreatedAt := msg.CreatedAt }

/-- The loop of `GetMessages` (lines 94-113) over the remaining `dialog`, with the
slice `messages` built so far. -/
def GetMessagesLoop : List Models.StoredMessage → List MessagePb.Message →
    Except Abort (List MessagePb.Message)
  | [], messages => .ok messages
  | msg :: dialog, messages =>
    match Triton.BytesToInt32 [msg.Input1, msg.Input2] with
    | .error e => .error e
    | .ok inputsInt =>
      match index inputsInt 0 with
      | .error e => .error e
      | .ok in0 =>
        match index inputsInt 1 with
        | .error e => .error e
        | .ok in1 => GetMessagesLoop dialog (messages ++ [toPbMessage msg in0 in1])

/-- The method `MessageService.GetMessages`; a `nil` slice is the empty list. -/
def GetMessages {σ : Type} (s : MessageService σ) (ctx : Context) (userID modelID : Int)
    (w : World σ) : Except Abort (List MessagePb.Message × Option StatusError) × World σ :=
  match w.call (.GetMessages ctx userID modelID) (s.Repo.GetMessages ctx userID modelID) with
  | (.error err, w1) => (.ok ([], some (Errorf .Unknown ("GetMessages: " ++ err))), w1)
  | (.ok dialog, w1) =>
    match GetMessagesLoop dialog [] with
    | .error e => (.error e, w1)
    | .ok messages => (.ok (messages, none), w1)

/-- The interface `ModelRepo`; a `nil` pointer result is `none`. -/
structure ModelRepo (σ : Type) where
  CreateModel : Context → Models.Model → σ → Except String (Option Models.Model) × σ
  GetModel : Context → Models.Model → σ → Except String (Option Models.Model) × σ
  DeleteModel : Context → Models.Model → σ → (Bool × Option String) × σ
  CreateVersion : Context → Models.Version → σ → Except String (Option Models.Version) × σ
  ListModels : Context → Int → σ → Except String (List Models.Model) × σ

/-- The struct `ModelService`. -/
structure ModelService (σ : Type) where
  Repo : ModelRepo σ
  TritonClient : Triton.GRPCInferenceServiceClient σ

/-- The method `ModelService.DeleteModel`: returns `(bool, error)`, the errors of the
collaborators being handed back as they are. -/
def DeleteModel {σ : Type} (s : ModelService σ) (ctx : Context) (model : Models.Model)
    (w : World σ) : Except Abort (Bool × Option String) × World σ :=
  match w.call (.GetModel ctx model) (s.Repo.GetModel ctx model) with
  | (.error err, w1) => (.ok (false, some err), w1)
  | (.ok none, w1) => (.error .nilDereference, w1)
  | (.ok (some respModel), w1) =>
    match Triton.ModelReadyRequest s.TritonClient respModel.Name "" w1 with
    | ((_, some err), w2) => (.ok (false, some err), w2)
    | ((ready, none), w2) =>
      match (if ready then Triton.UnloadModelRequest s.TritonClient respModel.Name w2
             else (none, w2)) with
      | (some err, w3) => (.ok (false, some err), w3)
      | (none, w3) =>
        match w3.call (.DeleteModel ctx model) (s.Repo.DeleteModel ctx model) with
        | (r, w4) => (.ok r, w4)

/-- The interface `AuthRepo`. -/
structure AuthRepo (σ : Type) where
  CreateUser : Context → Models.User → σ → (Bool × Option String) × σ
  GetUser : Context → Models.User → σ → Except String Models.User × σ

/-- The struct `AuthService`, together with what it takes from outside the repository:
`bcrypt.CompareHashAndPassword` (`nil` when the password matches the hash), the HS256
signing of a token (`token.SignedString`) and the clock read by `time.Now()`, in
seconds. -/
structure AuthService (σ : Type) where
  Repo : AuthRepo σ
  JWTSecret : String
  CompareHashAndPassword : String → String → Option String
  SignedString : Models.CustomClaims → String → σ → Except String String × σ
  Now : σ → Nat

/-- The method `AuthService.GenerateToken`: returns `(string, error)`. -/
def GenerateToken {σ : Type} (s : AuthService σ) (user : Models.User) (w : World σ) :
    (String × Option StatusError) × World σ :=
  let claims : Models.CustomClaims :=
    { UserID := user.ID, IssuedAt := s.Now w.st, ExpiresAt := s.Now w.st + 3600,
      Issuer := "auth-service" }
  match w.call (.SignedString claims s.JWTSecret) (s.SignedString claims s.JWTSecret) with
  | (.error err, w1) => (("", some (Errorf .Internal ("service.GenerateToken: " ++ err))), w1)
  | (.ok signedToken, w1) => ((signedToken, none), w1)

/-- The method `AuthService.LogIn` of the service layer: returns `(string, int64, error)`. -/
def LogIn {σ : Type} (s : AuthService σ) (ctx : Context) (user : Models.User)
    (w : World σ) : (String × Int × Option StatusError) × World σ :=
  if user.Password = "" ∨ user.Username = "" then
    (("", 0, some (Errorf .InvalidArgument "username or password is empty")), w)
  else
    match w.call (.GetUser ctx user) (s.Repo.GetUser ctx user) with
    | (.error err, w1) => (("", 0, some (Errorf .Internal ("service.LogIn: " ++ err))), w1)
    | (.ok result, w1) =>
      match s.CompareHashAndPassword result.Password user.Password with
      | some _ => (("", 0, some (Errorf .Unauthenticated "password does not match")), w1)
      | none =>
        match GenerateToken s result w1 with
        | ((_, some err), w2) =>
          (("", 0, some (Errorf .Internal ("service.LogIn: " ++ err.Error))), w2)
        | ((token, none), w2) => ((token, result.ID, none), w2)

end Service

namespace GrpcAuth

open Go Env Status

/-- The method `AuthService.LogIn` of the gRPC transport (`internal/transport/grpc/auth`),
over the service layer's `LogIn`: returns `(*LogInResponse, error)`, the error being
`fmt.Errorf("ValidateUser: %w", err)`. The log entry written on the error path is not
part of the result. -/
def LogIn {σ : Type} (s : Service.AuthService σ) (ctx : Context) (req : AuthPb.LogInRequest)
    (w : World σ) : (Option AuthPb.LogInResponse × Option String) × World σ :=
  match Service.LogIn s ctx
      { ID := 0, Username := req.Username, Password := req.Password, Email := "" } w with
  | ((_, _, some err), w1) => ((none, some ("ValidateUser: " ++ err.Error)), w1)
  | ((token, userId, none), w1) => ((some { Jwt := token, UserId := userId }, none), w1)

end GrpcAuth

namespace Service

open Go Env Status

/-- The two functions of package `os` that the model service calls; an error is its
text. -/
structure Os (σ : Type) where
  MkdirAll : String → σ → Option String × σ
  WriteFile : String → List Nat → σ → Option String × σ

/-- The method `ModelService.CreateModel`: returns `(*models.Model, error)`; the
directory is `fmt.Sprintf("/models/%s", res.Name)` and the file
`fmt.Sprintf("/models/%s/%s", res.Name, filename)`. -/
def CreateModel {σ : Type} (s : ModelService σ) (os : Os σ) (ctx : Context)
    (model : Models.Model) (filename : String) (content : List Nat) (w : World σ) :
    Except Abort (Option Models.Model × Option String) × World σ :=
  match w.call (.CreateModel ctx model) (s.Repo.CreateModel ctx model) with
  | (.error err, w1) => (.ok (none, some err), w1)
  | (.ok none, w1) => (.error .nilDereference, w1)
  | (.ok (some res), w1) =>
    match w1.call (.MkdirAll ("/models/" ++ res.Name)) (os.MkdirAll ("/models/" ++ res.Name)) with
    | (some err, w2) =>
      (.ok (none, some (Errorf .Internal ("service.UploadModel: " ++ err)).Error), w2)
    | (none, w2) =>
      match w2.call (.WriteFile ("/models/" ++ res.Name ++ "/" ++ filename) content)
          (os.WriteFile ("/models/" ++ res.Name ++ "/" ++ filename) content) with
      | (some err, w3) =>
        (.ok (none, some (Errorf .Internal
          ("service.UploadModel: failed to save config " ++ filename ++ ": " ++ err)).Error), w3)
      | (none, w3) => (.ok (some res, none), w3)

/-- The method `ModelService.GetModel` of the service layer: the repository's answer. -/
def GetModel {σ : Type} (s : ModelService σ) (ctx : Context) (model : Models.Model)
    (w : World σ) : Except String (Option Models.Model) × World σ :=
  w.call (.GetModel ctx model) (s.Repo.GetModel ctx model)

end Service

namespace Repository

open Go Env Status

/-- One row of the query of `ModelRepository.GetModel` as `rows.Scan` stores it: the
three columns of the model and the three columns of the left-joined version, each of
which is `NULL` (`none`) when the model has no version. -/
structure ModelRow where
  ID : Int
  Name : String
  UserID : Int
  versionID : Option Int
  versionNumber : Option Int
  VersionModelId : Option Int
  deriving DecidableEq, Repr

/-- The result set of a query (`*sql.Rows`): for every row that `rows.Next()` yields,
the outcome of its `rows.Scan`, and the value of `rows.Err()` after the last row. -/
structure Rows where
  rows : List (Except String ModelRow)
  err : Option String

/-- The database handle as `ModelRepository.GetModel` uses it: the query for the
model with a given identifier, joined with its versions. -/
structure DB (σ : Type) where
  QueryContext : Context → Int → σ → Except String Rows × σ

/-- The zero value of `models.Model` (`var result models.Model`). -/
def zeroModel : Models.Model := { ID := 0, Name := "", UserID := 0, Versions := [] }

/-- The loop `for rows.Next()` of `ModelRepository.GetModel` (lines 55-68) over the
remaining rows, with the `result` built so far; an error is the text of the status
error returned. -/
def scanRows : List (Except String ModelRow) → Models.Model → Except String Models.Model
  | [], result => .ok result
  | .error err :: _, _ => .error (Errorf .Internal ("repository.GetModel: " ++ err)).Error
  | .ok row :: rest, result =>
    match row.versionID, row.versionNumber, row.VersionModelId with
    | some versionID, some versionNumber, some versionModelId =>
      scanRows rest
        { ID := row.ID, Name := row.Name, UserID := row.UserID,
          Versions := result.Versions ++
            [{ ID := versionID, Number := versionNumber, ModelID := versionModelId }] }
    | _, _, _ =>
      scanRows rest
        { ID := row.ID, Name := row.Name, UserID := row.UserID, Versions := result.Versions }

/-- The method `ModelRepository.GetModel`: returns `(*models.Model, error)`, the error
being the text of `status.Error(codes.Internal, "repository.GetModel: ...")`. -/
def GetModel {σ : Type} (db : DB σ) (ctx : Context) (model : Models.Model) (st : σ) :
    Except String (Option Models.Model) × σ :=
  match db.QueryContext ctx model.ID st with
  | (.error err, st1) => (.error (Errorf .Internal ("repository.GetModel: " ++ err)).Error, st1)
  | (.ok rows, st1) =>
    match scanRows rows.rows zeroModel with
    | .error e => (.error e, st1)
    | .ok result =>
      match rows.err with
      | some err => (.error (Errorf .Internal ("repository.GetModel: " ++ err)).Error, st1)
      | none => (.ok (some result), st1)

/-- The version that a scanned row contributes: one when its three version columns are
all non-null, none otherwise. -/
def versionOf (row : ModelRow) : Option Models.Version :=
  match row.versionID, row.versionNumber, row.VersionModelId with
  | some versionID, some versionNumber, some versionModelId =>
    some { ID := versionID, Number := versionNumber, ModelID := versionModelId }
  | _, _, _ => none

end Repository

namespace GrpcModel

open Go Env Status

/-- The call `pointer.Get(resp)` on a `*models.Model`: the zero value for `nil`. -/
def pointerGet : Option Models.Model → Models.Model
  | some m => m
  | none => { ID := 0, Name := "", UserID := 0, Versions := [] }

/-- The method `ModelService.UploadModel` of the gRPC transport
(`internal/transport/grpc/model`): returns `(*UploadModelResponse, error)`. -/
def UploadModel {σ : Type} (s : Service.ModelService σ) (os : Service.Os σ) (ctx : Context)
    (req : ModelPb.UploadModelRequest) (w : World σ) :
    Except Abort (Option ModelPb.UploadModelResponse × Option StatusError) × World σ :=
  match Service.CreateModel s os ctx
      { ID := 0, Name := req.Name, UserID := req.UserId, Versions := [] }
      (ModelPb.GetFilename req.Config) (ModelPb.GetContent req.Config) w with
  | (.error e, w1) => (.error e, w1)
  | (.ok (_, some err), w1) => (.ok (none, some (Errorf .Internal ("UploadModel: " ++ err))), w1)
  | (.ok (resp, none), w1) => (.ok (some { Id := (pointerGet resp).ID }, none), w1)

/-- The loop of the transport's `GetModel` (lines 96-104) over the remaining versions,
with the slice `versions` built so far. -/
def versionsLoop : List Models.Version → List ModelPb.Version → List ModelPb.Version
  | [], versions => versions
  | v :: rest, versions =>
    versionsLoop rest (versions ++ [{ Id := v.ID, Number := v.Number, ModelId := v.ModelID }])

/-- The method `ModelService.GetModel` of the gRPC transport: returns
`(*GetModelResponse, error)`; the pointers in `resp.Versions` are taken to be non-nil,
as the repository builds them. -/
def GetModel {σ : Type} (s : Service.ModelService σ) (ctx : Context)
    (req : ModelPb.GetModelRequest) (w : World σ) :
    Except Abort (Option ModelPb.GetModelResponse × Option StatusError) × World σ :=
  match Service.GetModel s ctx { ID := req.Id, Name := "", UserID := 0, Versions := [] } w with
  | (.error err, w1) => (.ok (none, some (Errorf .NotFound ("GetModel: " ++ err))), w1)
  | (.ok none, w1) => (.error .nilDereference, w1)
  | (.ok (some resp), w1) =>
    (.ok (some { Model := { Id := resp.ID, Name := resp.Name, UserId := resp.UserID,
                            Versions := versionsLoop resp.Versions [] } }, none), w1)

/-- The method `ModelService.UnloadModel` of the gRPC transport: returns
`(*UnloadModelResponse, error)`. -/
def UnloadModel {σ : Type} (s : Service.ModelService σ) (ctx : Context)
    (req : ModelPb.UnloadModelRequest) (w : World σ) :
    Except Abort (Option ModelPb.UnloadModelResponse × Option StatusError) × World σ :=
  match Service.DeleteModel s ctx { ID := req.Id, Name := "", UserID := 0, Versions := [] } w with
  | (.error e, w1) => (.error e, w1)
  | (.ok (_, some err), w1) => (.ok (none, some (Errorf .NotFound ("UnloadModel: " ++ err))), w1)
  | (.ok (resp, none), w1) => (.ok (some { Success := resp }, none), w1)

end GrpcModel

namespace Strconv

/-- The two errors of package `strconv`. -/
inductive NumError where
  | ErrSyntax
  | ErrRange
  deriving DecidableEq, Repr

/-- The value of a decimal digit, `none` for every other character. -/
def digit (c : Char) : Option Nat :=
  if 48 ≤ c.toNat ∧ c.toNat ≤ 57 then some (c.toNat - 48) else none

/-- The digit loop of `strconv.ParseUint(s, 10, bitSize)` over the remaining
characters, with the value `n` read so far: a character that is no digit is a syntax
error with the value `0`, a value above `maxVal` a range error with the value `maxVal`. -/
def ParseUintLoop (maxVal : Nat) : List Char → Nat → Nat × Option NumError
  | [], n => (n, none)
  | c :: cs, n =>
    match digit c with
    | none => (0, some .ErrSyntax)
    | some d =>
      if n * 10 + d > maxVal then (maxVal, some .ErrRange)
      else ParseUintLoop maxVal cs (n * 10 + d)

/-- The call `strconv.ParseUint(s, 10, bitSize)`. -/
def ParseUint (s : List Char) (bitSize : Nat) : Nat × Option NumError :=
  match s with
  | [] => (0, some .ErrSyntax)
  | _ :: _ => ParseUintLoop (2 ^ bitSize - 1) s 0

/-- The value and the error of `ParseInt` for the magnitude `un` read after the sign. -/
def signedOf (neg : Bool) (un : Nat) (bitSize : Nat) : Int × Option NumError :=
  if neg = false ∧ un ≥ 2 ^ (bitSize - 1) then ((2 ^ (bitSize - 1) : Nat) - 1, some .ErrRange)
  else if neg = true ∧ un > 2 ^ (bitSize - 1) then (-((2 ^ (bitSize - 1) : Nat) : Int), some .ErrRange)
  else if neg = true then (-(un : Int), none)
  else ((un : Int), none)

/-- The call `strconv.ParseInt(s, 10, bitSize)`: an optional sign, then decimal digits;
the value is `0` on a syntax error and the nearest bound on a range error. -/
def ParseInt (s : String) (bitSize : Nat) : Int × Option NumError :=
  match s.data with
  | [] => (0, some .ErrSyntax)
  | c :: cs =>
    let neg : Bool := decide (c = '-')
    let digits : List Char := if c = '+' ∨ c = '-' then cs else c :: cs
    match ParseUint digits bitSize with
    | (_, some .ErrSyntax) => (0, some .ErrSyntax)
    | (un, _) => signedOf neg un bitSize

end Strconv

namespace Strings

/-- The pieces of a character sequence between the occurrences of `sep`. -/
def splitChars (sep : Char) : List Char → List (List Char)
  | [] => [[]]
  | c :: cs =>
    if c = sep then [] :: splitChars sep cs
    else
      match splitChars sep cs with
      | [] => [[c]]
      | piece :: pieces => (c :: piece) :: pieces

/-- The call `strings.Split(s, sep)` for a separator of one character. -/
def Split (s : String) (sep : Char) : List String :=
  (splitChars sep s.data).map String.mk

end Strings

namespace Http

open Go Env

/-- What the gateway reads of a `*http.Request`: the path of the URL, the outcome of
decoding the JSON body into a `models.SendMessageRequest`, the variables of the matched
route (`mux.Vars`), the cookies, the value stored in the request's context under
`logger.RequestID`, and the request's context. -/
structure Request where
  Path : String
  Body : Except String Models.SendMessageRequest
  Vars : List (String × String)
  Cookies : List (String × String)
  RequestID : Option String
  ctx : Context

/-- The method `Request.Cookie`: the value of the first cookie with the given name,
`none` for `http.ErrNoCookie`. -/
def Request.Cookie (r : Request) (name : String) : Option String :=
  r.Cookies.lookup name

/-- A handler (`http.Handler`): what it does to the world for a request, or the way it
fails to return. -/
abbrev Handler (σ : Type) : Type := Request → World σ → Except Abort Unit × World σ

/-- A handler that does nothing. -/
def idle {σ : Type} : Handler σ := fun _ w => (.ok (), w)

end Http

namespace GrpcClients

open Go Env

/-- The interface `pb.AuthServiceClient` as far as the gateway uses it. The client is
built by `pb.NewAuthServiceClient`, generated from the definition of the API: a call
that fails hands back a `nil` response together with its error, a call that succeeds
the response and a `nil` error. -/
structure AuthServiceClient (σ : Type) where
  ValidateToken : Context → AuthPb.ValidateTokenRequest → σ →
    Except String AuthPb.ValidateTokenResponse × σ

/-- The interface `pb.MessageServiceClient` as far as the gateway uses it, generated
in the same way. -/
structure MessageServiceClient (σ : Type) where
  SendMessage : Context → MessagePb.SendMessageRequest → σ →
    Except String MessagePb.SendMessageResponse × σ
  GetMessages : Context → MessagePb.GetMessagesRequest → σ →
    Except String MessagePb.GetMessagesResponse × σ

/-- The method `AuthClient.ValidateToken`: returns `(response, err)` as the generated
client gives them. -/
def ValidateToken {σ : Type} (c : AuthServiceClient σ) (ctx : Context)
    (req : AuthPb.ValidateTokenRequest) (w : World σ) :
    (Option AuthPb.ValidateTokenResponse × Option String) × World σ :=
  match w.call (.ValidateToken ctx req) (c.ValidateToken ctx req) with
  | (.error err, w1) => ((none, some err), w1)
  | (.ok response, w1) => ((some response, none), w1)

/-- The method `MessageClient.SendMessage`: returns `(resp, err)` as the generated
client gives them. -/
def SendMessage {σ : Type} (c : MessageServiceClient σ) (ctx : Context)
    (req : MessagePb.SendMessageRequest) (w : World σ) :
    (Option MessagePb.SendMessageResponse × Option String) × World σ :=
  match w.call (.ClientSendMessage ctx req) (c.SendMessage ctx req) with
  | (.error err, w1) => ((none, some err), w1)
  | (.ok resp, w1) => ((some resp, none), w1)

/-- The method `MessageClient.GetMessages`: returns `(resp, err)` as the generated
client gives them. -/
def GetMessages {σ : Type} (c : MessageServiceClient σ) (ctx : Context)
    (req : MessagePb.GetMessagesRequest) (w : World σ) :
    (Option MessagePb.GetMessagesResponse × Option String) × World σ :=
  match w.call (.ClientGetMessages ctx req) (c.GetMessages ctx req) with
  | (.error err, w1) => ((none, some err), w1)
  | (.ok resp, w1) => ((some resp, none), w1)

end GrpcClients

namespace Handlers

open Go Env Http

/-- The generated getter `GetResults`: the `nil` slice on a `nil` response. -/
def GetResults : Option MessagePb.SendMessageResponse → List String
  | some resp => resp.Results
  | none => []

/-- The part of the handler `MessageHandlers.SendMessage` from line 79 on, reached with
the decoded body and the parsed identifiers: read the `user_id` cookie, build the
request, forward it, write the answer. -/
def forwardMessage {σ : Type} (client : GrpcClients.MessageServiceClient σ) (r : Request)
    (reqJson : Models.SendMessageRequest) (modelId versionId : Int) (w : World σ) :
    Except Abort Unit × World σ :=
  match r.Cookie "user_id" with
  | none => (.error .nilDereference, w)
  | some value =>
    let userId := (Strconv.ParseInt value 32).1
    match r.RequestID with
    | none => (.error .interfaceConversion, w)
    | some requestID =>
      let req : MessagePb.SendMessageRequest :=
        { UserId := userId, VersionId := versionId, ModelId := modelId,
          RequestId := requestID,
          Inputs := [{ Values := reqJson.Input1 }, { Values := reqJson.Input2 }] }
      match GrpcClients.SendMessage client r.ctx req w with
      | ((_, some _), w1) =>
        (.ok (), w1.emit (.HttpError "Error calling Message-Service" 500))
      | ((respTriton, none), w1) => (.ok (), w1.emit (.EncodeResults (GetResults respTriton)))

/-- The part of the handler `MessageHandlers.SendMessage` from line 57 to line 77,
reached with a body whose two vectors have 16 values each: read and parse the route's
`model_id` and `version_id`. -/
def parseRoute {σ : Type} (client : GrpcClients.MessageServiceClient σ) (r : Request)
    (reqJson : Models.SendMessageRequest) (w : World σ) : Except Abort Unit × World σ :=
  match r.Vars.lookup "model_id" with
  | none => (.ok (), w.emit (.HttpError "Missing model_id parameter" 400))
  | some modelIdStr =>
    if modelIdStr = "" then (.ok (), w.emit (.HttpError "Missing model_id parameter" 400))
    else
      match r.Vars.lookup "version_id" with
      | none => (.ok (), w.emit (.HttpError "Missing version_id parameter" 400))
      | some versionIdStr =>
        if versionIdStr = "" then
          (.ok (), w.emit (.HttpError "Missing version_id parameter" 400))
        else
          match Strconv.ParseInt modelIdStr 64 with
          | (_, some _) => (.ok (), w.emit (.HttpError "Invalid model_id" 400))
          | (modelId, none) =>
            match Strconv.ParseInt versionIdStr 64 with
            | (_, some _) => (.ok (), w.emit (.HttpError "Invalid version_id" 400))
            | (versionId, none) => forwardMessage client r reqJson modelId versionId w

/-- The handler `MessageHandlers.SendMessage`: lines 36-55 (decode the body, check the
two lengths), then `parseRoute`. -/
def SendMessage {σ : Type} (client : GrpcClients.MessageServiceClient σ) (r : Request)
    (w : World σ) : Except Abort Unit × World σ :=
  match r.Body with
  | .error _ => (.ok (), w.emit (.HttpError "Invalid request" 400))
  | .ok reqJson =>
    if reqJson.Input1.length ≠ 16 then
      (.ok (), w.emit (.HttpError "The number of values in Input1 is not equal to 16" 400))
    else if reqJson.Input2.length ≠ 16 then
      (.ok (), w.emit (.HttpError "The number of values in Input1 is not equal to 16" 400))
    else parseRoute client r reqJson w

/-- The handler `MessageHandlers.GetMessages`. -/
def GetMessages {σ : Type} (client : GrpcClients.MessageServiceClient σ) (r : Request)
    (w : World σ) : Except Abort Unit × World σ :=
  match r.Vars.lookup "model_id" with
  | none => (.ok (), w.emit (.HttpError "Missing id parameter" 400))
  | some idStr =>
    if idStr = "" then (.ok (), w.emit (.HttpError "Missing id parameter" 400))
    else
      let modelId := (Strconv.ParseInt idStr 32).1
      match r.Cookie "user_id" with
      | none => (.error .nilDereference, w)
      | some value =>
        let userId := (Strconv.ParseInt value 32).1
        match r.RequestID with
        | none => (.error .interfaceConversion, w)
        | some requestID =>
          let req : MessagePb.GetMessagesRequest :=
            { ModelId := modelId, UserId := userId, RequestId := requestID }
          match GrpcClients.GetMessages client r.ctx req w with
          | ((_, some _), w1) =>
            (.ok (), w1.emit (.HttpError "Error calling Message-Service" 500))
          | ((resp, none), w1) => (.ok (), w1.emit (.EncodeMessages resp))

end Handlers

namespace Gateway

open Go Env Http

/-- The handler that `Router.authMiddleware` builds around `next`; `sctx` is the
router's own context, under which the token is validated. -/
def authMiddleware {σ : Type} (authClient : GrpcClients.AuthServiceClient σ) (sctx : Context)
    (next : Handler σ) (r : Request) (w : World σ) : Except Abort Unit × World σ :=
  match index (Strings.Split r.Path '/') 1 with
  | .error e => (.error e, w)
  | .ok segment =>
    if segment = "signup" ∨ segment = "login" ∨ segment = "docs" then
      next r (w.emit .NextServeHTTP)
    else
      match r.Cookie "token" with
      | none => (.ok (), w.emit (.HttpRedirect "/login" 401))
      | some value =>
        match GrpcClients.ValidateToken authClient sctx { Jwt := value } w with
        | ((result, _), w1) =>
          if AuthPb.GetValid result = false then
            (.ok (), (w1.emit (.HttpSetCookie "token" "" (-1) true "/")).emit
              (.HttpRedirect "/login" 401))
          else next r (w1.emit .NextServeHTTP)

end Gateway

namespace Sample

open Go

/-- A length-16 vector that contains `0`, `INT32_MAX`, `INT32_MIN` and negative values. -/
def vecA : List Int :=
  [0, 1, -1, 2147483647, -2147483648, 5, 10, -7, 100, 255, 256, 65535, 65536, -65536,
    16777216, -16777216]

/-- A second length-16 vector. -/
def vecB : List Int :=
  [3, 7, 0, -1, 1, -2147483648, 2147483647, 12, -12, 1000, -1000, 42, 0, 0, 99, -99]

/-- A 65-byte buffer without spare capacity: every byte is `1`. -/
def buf65 : ByteBuf := ByteBuf.ofBytes (List.replicate 65 1) []

/-- A 68-byte buffer without spare capacity: every byte is `255`. -/
def buf68 : ByteBuf := ByteBuf.ofBytes (List.replicate 68 255) []

/-- The caller's context of the sample runs. -/
def ctx : Context := { cancelled := false, timeoutSec := none }

/-- A repository whose state counts the calls made on it: model `7` is named
`"simple"`, version `9` has number `1`, and `SaveMessage` answers `saveErr`. -/
def repo (saveErr : Option String) : Service.MessageRepo Nat :=
  { SaveMessage := fun _ _ n => (saveErr, n + 1),
    GetMessages := fun _ _ _ n => (.ok [], n + 1),
    GetModelName := fun _ _ n => (.ok "simple", n + 1),
    GetVersionNumber := fun _ _ n => (.ok 1, n + 1) }

/-- An engine whose readiness answer is `ready`, whose load and unload succeed and
whose infer call answers with the buffers `buf65` and `buf68`. -/
def engine (ready : Bool) : Triton.GRPCInferenceServiceClient Nat :=
  { ModelReady := fun _ _ n => (.ok ready, n + 1),
    RepositoryModelLoad := fun _ _ n => (none, n + 1),
    RepositoryModelUnload := fun _ _ n => (none, n + 1),
    ModelInfer := fun _ _ n => (.ok { RawOutputContents := [buf65, buf68] }, n + 1) }

/-- The sample service: the clock reads the number of calls made so far. -/
def service (ready : Bool) (saveErr : Option String) : Service.MessageService Nat :=
  { Repo := repo saveErr, triton := engine ready, Now := fun n => n }

/-- The sample service with an engine that answers the infer call with two buffers of
exactly 64 bytes, the second one carrying two bytes of spare capacity. -/
def fixedService (ready : Bool) (saveErr : Option String) : Service.MessageService Nat :=
  { Repo := repo saveErr,
    triton :=
      { ModelReady := fun _ _ n => (.ok ready, n + 1),
        RepositoryModelLoad := fun _ _ n => (none, n + 1),
        RepositoryModelUnload := fun _ _ n => (none, n + 1),
        ModelInfer := fun _ _ n =>
          (.ok { RawOutputContents := [ByteBuf.ofBytes (List.replicate 64 7) [],
            ByteBuf.ofBytes (List.replicate 64 255) [1, 2]] }, n + 1) },
    Now := fun n => n }

/-- The sample service with an engine whose infer call fails at the transport level. -/
def inferFailingService : Service.MessageService Nat :=
  { Repo := repo none,
    triton :=
      { ModelReady := fun _ _ n => (.ok true, n + 1),
        RepositoryModelLoad := fun _ _ n => (none, n + 1),
        RepositoryModelUnload := fun _ _ n => (none, n + 1),
        ModelInfer := fun _ _ n =>
          (.error "rpc error: code = Unavailable desc = connection refused", n + 1) },
    Now := fun n => n }

/-- The sample service with an engine whose readiness query answers `ready` and whose
load call fails at the transport level. -/
def loadFailingService (ready : Except String Bool) : Service.MessageService Nat :=
  { Repo := repo none,
    triton :=
      { ModelReady := fun _ _ n => (ready, n + 1),
        RepositoryModelLoad := fun _ _ n => (some "load failed", n + 1),
        RepositoryModelUnload := fun _ _ n => (none, n + 1),
        ModelInfer := fun _ _ n => (.ok { RawOutputContents := [buf65, buf68] }, n + 1) },
    Now := fun n => n }

/-- The sample service with a repository whose lookups answer `name` and `number`. -/
def lookupService (name : Except String String) (number : Except String Int) :
    Service.MessageService Nat :=
  { Repo :=
      { SaveMessage := fun _ _ n => (none, n + 1),
        GetMessages := fun _ _ _ n => (.ok [], n + 1),
        GetModelName := fun _ _ n => (name, n + 1),
        GetVersionNumber := fun _ _ n => (number, n + 1) },
    triton := engine true, Now := fun n => n }

/-- A caller's context that is already cancelled. -/
def cancelledCtx : Context := { cancelled := true, timeoutSec := none }

/-- The error of a call issued under a cancelled context, `nil` otherwise. -/
def ctxErr (c : Context) : Option String :=
  match c.cancelled with
  | true => some "context canceled"
  | false => none

/-- The answer of a context-honouring call: the context's error, or the value `a`. -/
def ctxAnswer {α : Type} (c : Context) (a : α) : Except String α :=
  match c.cancelled with
  | true => .error "context canceled"
  | false => .ok a

/-- A service whose collaborators honour the context they are given, as the real ones
do: an engine call and `SaveMessage` fail under a cancelled context and succeed
otherwise; the two lookups ignore their context (the repository issues them with
`QueryRow()`). -/
def ctxAwareService : Service.MessageService Nat :=
  { Repo :=
      { SaveMessage := fun c _ n => (ctxErr c, n + 1),
        GetMessages := fun _ _ _ n => (.ok [], n + 1),
        GetModelName := fun _ _ n => (.ok "simple", n + 1),
        GetVersionNumber := fun _ _ n => (.ok 1, n + 1) },
    triton :=
      { ModelReady := fun c _ n => (ctxAnswer c false, n + 1),
        RepositoryModelLoad := fun c _ n => (ctxErr c, n + 1),
        RepositoryModelUnload := fun c _ n => (ctxErr c, n + 1),
        ModelInfer := fun c _ n =>
          (ctxAnswer c { RawOutputContents := [buf65, buf68] }, n + 1) },
    Now := fun n => n }

/-- The stored model of the sample runs. -/
def model : Models.Model := { ID := 7, Name := "simple", UserID := 1, Versions := [] }

/-- A model service whose repository finds `model` (or fails with `getErr`) and deletes
it, and whose engine answers the readiness query with `ready` and the unload call
with `unloadErr`. -/
def modelService (getErr : Option String) (ready : Except String Bool)
    (unloadErr : Option String) : Service.ModelService Nat :=
  { Repo :=
      { CreateModel := fun _ m n => (.ok (some m), n + 1),
        GetModel := fun _ _ n =>
          (match getErr with
           | some e => .error e
           | none => .ok (some model), n + 1),
        DeleteModel := fun _ _ n => ((true, none), n + 1),
        CreateVersion := fun _ v n => (.ok (some v), n + 1),
        ListModels := fun _ _ n => (.ok [], n + 1) },
    TritonClient :=
      { ModelReady := fun _ _ n => (ready, n + 1),
        RepositoryModelLoad := fun _ _ n => (none, n + 1),
        RepositoryModelUnload := fun _ _ n => (unloadErr, n + 1),
        ModelInfer := fun _ _ n => (.ok { RawOutputContents := [buf65, buf68] }, n + 1) } }

/-- Two stored messages: the first holds the encodings of `vecA` and `vecB`, the second
those of `vecB` and `vecA` with spare capacity behind the bytes. -/
def dialog : List Models.StoredMessage :=
  [{ ID := 11, UserID := 1, ModelID := 7, VersionID := 9,
     Input1 := ByteBuf.ofBytes (Triton.leBytes vecA) [],
     Input2 := ByteBuf.ofBytes (Triton.leBytes vecB) [],
     Results := ["0 + 3 = 3", "0 - 3 = -3"], CreatedAt := 100 },
   { ID := 12, UserID := 1, ModelID := 7, VersionID := 9,
     Input1 := ByteBuf.ofBytes (Triton.leBytes vecB) [9, 9, 9],
     Input2 := ByteBuf.ofBytes (Triton.leBytes vecA) [9],
     Results := [], CreatedAt := 101 }]

/-- A message service whose repository answers `GetMessages` with `dialog`. -/
def readService : Service.MessageService Nat :=
  { Repo :=
      { SaveMessage := fun _ _ n => (none, n + 1),
        GetMessages := fun _ _ _ n => (.ok dialog, n + 1),
        GetModelName := fun _ _ n => (.ok "simple", n + 1),
        GetVersionNumber := fun _ _ n => (.ok 1, n + 1) },
    triton := engine true, Now := fun n => n }

/-- The stored user of the sample runs; the stored password stands for the hash of `123`. -/
def user : Models.User :=
  { ID := 1, Username := "test user", Password := "hash(123)", Email := "" }

/-- An auth service whose repository finds `user`, whose hash comparison accepts the
password `p` for the hash `hash(p)` only, and whose signing answers a fixed token. -/
def authService : Service.AuthService Nat :=
  { Repo :=
      { CreateUser := fun _ _ n => ((true, none), n + 1),
        GetUser := fun _ _ n => (.ok user, n + 1) },
    JWTSecret := "very-secret-key",
    CompareHashAndPassword := fun hash password =>
      match decide (hash = "hash(" ++ password ++ ")") with
      | true => none
      | false => some "crypto/bcrypt: hashedPassword is not the hash of the given password",
    SignedString := fun _ _ n => (.ok "signed-token", n + 1),
    Now := fun n => n }

/-- The answer of `os.WriteFile` on the sample file system: a path that ends in `/`
names a directory and cannot be opened for writing, every other file is written. -/
def writeAnswer (path : String) : Option String :=
  match decide (path.data.getLast? = some '/') with
  | true => some ("open " ++ path ++ ": is a directory")
  | false => none

/-- A file system on which every directory can be created and every file below it
written. -/
def os : Service.Os Nat :=
  { MkdirAll := fun _ n => (none, n + 1),
    WriteFile := fun path _ n => (writeAnswer path, n + 1) }

/-- The rows that the sample database answers for a model identifier: model `7` is
stored with two versions, no other model is stored. -/
def rowsFor (id : Int) : Repository.Rows :=
  match decide (id = 7) with
  | true =>
    { rows :=
        [.ok { ID := 7, Name := "simple", UserID := 1, versionID := some 21,
               versionNumber := some 1, VersionModelId := some 7 },
         .ok { ID := 7, Name := "simple", UserID := 1, versionID := some 22,
               versionNumber := some 2, VersionModelId := some 7 }],
      err := none }
  | false => { rows := [], err := none }

/-- The sample database. -/
def db : Repository.DB Nat :=
  { QueryContext := fun _ id n => (.ok (rowsFor id), n + 1) }

/-- The answer of the repository's `DeleteModel` on the sample database: only model
`7` can be deleted, otherwise no row is affected. -/
def deleteAnswer (id : Int) : Bool × Option String :=
  match decide (id = 7) with
  | true => (true, none)
  | false =>
    (false, some (Status.Errorf .Internal
      ("repository.DeleteModel: order (id " ++ Sprintd id ++ ") not found")).Error)

/-- A model repository over the sample database: `GetModel` is the repository's own
method, `CreateModel` stores the model under the identifier `8`. -/
def store : Service.ModelRepo Nat :=
  { CreateModel := fun _ m n =>
      (.ok (some { ID := 8, Name := m.Name, UserID := m.UserID, Versions := [] }), n + 1),
    GetModel := Repository.GetModel db,
    DeleteModel := fun _ m n => (deleteAnswer m.ID, n + 1),
    CreateVersion := fun _ v n => (.ok (some v), n + 1),
    ListModels := fun _ _ n => (.ok [], n + 1) }

/-- The model service over the sample database, with an engine on which no model is
ready. -/
def storeService : Service.ModelService Nat :=
  { Repo := store, TritonClient := engine false }

/-- An auth client that reports exactly the token `signed-token` as valid. -/
def authClient : GrpcClients.AuthServiceClient Nat :=
  { ValidateToken := fun _ req n =>
      (.ok { Valid := decide (req.Jwt = "signed-token") }, n + 1) }

/-- An auth client whose every call fails at the transport level. -/
def failingAuthClient : GrpcClients.AuthServiceClient Nat :=
  { ValidateToken := fun _ _ n => (.error "rpc error: code = Unavailable", n + 1) }

/-- A message client whose calls succeed. -/
def messageClient : GrpcClients.MessageServiceClient Nat :=
  { SendMessage := fun _ _ n => (.ok { Results := ["0 + 3 = 3", "0 - 3 = -3"] }, n + 1),
    GetMessages := fun _ _ n => (.ok { Messages := [] }, n + 1) }

/-- A send-message request for model `7`, version `9`, with the given two vectors and
cookies. -/
def request (input1 input2 : List Int) (cookies : List (String × String)) : Http.Request :=
  { Path := "/chat/7/9", Body := .ok { Input1 := input1, Input2 := input2 },
    Vars := [("model_id", "7"), ("version_id", "9")], Cookies := cookies,
    RequestID := some "req-1", ctx := ctx }

/-- The cookies of a logged-in client: the token and the given `user_id`. -/
def cookies (userID : String) : List (String × String) :=
  [("token", "signed-token"), ("user_id", userID)]

/-- A 64-byte buffer without spare capacity: the bytes `0, 1, ..., 63`. -/
def buf64 : ByteBuf := ByteBuf.ofBytes (List.range 64) []

/-- A 64-byte buffer with two bytes of spare capacity: every byte is `255`. -/
def buf64s : ByteBuf := ByteBuf.ofBytes (List.replicate 64 255) [1, 2]

/-- The initial world of the sample runs: nothing has been called. -/
def world : Env.World Nat := { st := 0, trace := [] }

end Sample

namespace Triton

open Go Binary Env

/-! ### Indexing -/

theorem index_ok {α : Type} (l : List α) (i : Nat) (h : i < l.length) :
    index l i = .ok l[i] := by
  simp [index, List.getElem?_eq_getElem h]

theorem index_error {α : Type} (l : List α) (i : Nat) (h : l.length ≤ i) :
    index l i = .error (.indexOutOfRange i l.length) := by
  simp [index, List.getElem?_eq_none h]

/-! ### The encoding loop -/

theorem PreprocessLoop_ok (n : Nat) : ∀ (i : Nat) (d0 d1 : List Int) (b0 b1 : List Nat),
    i + n ≤ d0.length → i + n ≤ d1.length →
    PreprocessLoop n i d0 d1 b0 b1 =
      .ok (b0 ++ leBytes ((d0.drop i).take n), b1 ++ leBytes ((d1.drop i).take n)) := by
  induction n with
  | zero => intro i d0 d1 b0 b1 _ _; simp [PreprocessLoop, leBytes]
  | succ n ih =>
    intro i d0 d1 b0 b1 h0 h1
    have hi0 : i < d0.length := by omega
    have hi1 : i < d1.length := by omega
    have e0 : d0.drop i = d0[i] :: d0.drop (i + 1) := List.drop_eq_getElem_cons hi0
    have e1 : d1.drop i = d1[i] :: d1.drop (i + 1) := List.drop_eq_getElem_cons hi1
    simp only [PreprocessLoop, index_ok _ _ hi0, index_ok _ _ hi1]
    rw [ih (i + 1) d0 d1 _ _ (by omega) (by omega), e0, e1]
    simp only [leBytes, List.take_succ_cons, List.flatMap_cons, List.append_assoc]

theorem PreprocessLoop_short0 (n : Nat) : ∀ (i : Nat) (d0 d1 : List Int) (b0 b1 : List Nat),
    i ≤ d0.length → d0.length < i + n → d0.length ≤ d1.length →
    PreprocessLoop n i d0 d1 b0 b1 = .error (.indexOutOfRange d0.length d0.length) := by
  induction n with
  | zero => intro i d0 d1 b0 b1 _ h _; omega
  | succ n ih =>
    intro i d0 d1 b0 b1 hle h0 h1
    rcases Nat.lt_or_ge i d0.length with hi | hi
    · have hi1 : i < d1.length := by omega
      simp only [PreprocessLoop, index_ok _ _ hi, index_ok _ _ hi1]
      exact ih (i + 1) d0 d1 _ _ (by omega) (by omega) h1
    · have : i = d0.length := by omega
      subst this
      simp [PreprocessLoop, index_error d0 d0.length (Nat.le_refl _)]

theorem Preprocess_ok (v0 v1 : List Int) (rest : List (List Int))
    (h0 : inputSize ≤ v0.length) (h1 : inputSize ≤ v1.length) :
    Preprocess (v0 :: v1 :: rest) =
      .ok [leBytes (v0.take inputSize), leBytes (v1.take inputSize)] := by
  simp [Preprocess, index, PreprocessLoop_ok inputSize 0 v0 v1 [] [] (by omega) (by omega)]

theorem length_PutUint32 (v : Nat) : (PutUint32 v).length = 4 := rfl

theorem length_leBytes (v : List Int) : (leBytes v).length = 4 * v.length := by
  induction v with
  | nil => rfl
  | cons x xs ih =>
    have : leBytes (x :: xs) = PutUint32 (uint32 x) ++ leBytes xs := by simp [leBytes]
    rw [this, List.length_append, ih, length_PutUint32, List.length_cons]; omega

theorem leBytes_drop (v : List Int) : ∀ i, (leBytes v).drop (i * 4) = leBytes (v.drop i) := by
  induction v with
  | nil => intro i; simp [leBytes]
  | cons x xs ih =>
    intro i
    cases i with
    | zero => simp
    | succ i =>
      have : leBytes (x :: xs) = PutUint32 (uint32 x) ++ leBytes xs := by simp [leBytes]
      rw [this, List.drop_succ_cons, ← ih i]
      have h4 : (i + 1) * 4 = (PutUint32 (uint32 x)).length + i * 4 := by
        rw [length_PutUint32]; omega
      rw [h4, List.drop_append]

/-! ### The decoding loop -/

theorem slice_ok (s : ByteBuf) (i : Nat) (h : i * 4 + 4 ≤ s.cap) :
    s.slice (i * 4) (i * 4 + 4) =
      .ok { vis := ((s.vis ++ s.spare).drop (i * 4)).take 4,
            spare := (s.vis ++ s.spare).drop (i * 4 + 4) } := by
  simp [ByteBuf.slice, Nat.not_lt.mpr h]

theorem slice_error (s : ByteBuf) (i : Nat) (h : s.cap < i * 4 + 4) :
    s.slice (i * 4) (i * 4 + 4) = .error (.sliceBoundsOutOfRange (i * 4 + 4) s.cap) := by
  simp [ByteBuf.slice, h]

theorem DecodeLoop_ok (n : Nat) : ∀ (i : Nat) (s0 s1 : ByteBuf) (out0 out1 : List Int),
    (i + n) * 4 ≤ s0.cap → (i + n) * 4 ≤ s1.cap →
    ∃ r0 r1, DecodeLoop n i s0 s1 out0 out1 = .ok (r0, r1) ∧
      (∀ j, r0[j]? = if i ≤ j ∧ j < i + n ∧ j < out0.length
          then some (leWordAt s0 j) else out0[j]?) ∧
      (∀ j, r1[j]? = if i ≤ j ∧ j < i + n ∧ j < out1.length
          then some (leWordAt s1 j) else out1[j]?) := by
  induction n with
  | zero =>
    intro i s0 s1 out0 out1 _ _
    refine ⟨out0, out1, rfl, ?_, ?_⟩ <;> intro j <;> split <;> first | omega | rfl
  | succ n ih =>
    intro i s0 s1 out0 out1 h0 h1
    obtain ⟨r0, r1, hr, hr0, hr1⟩ := ih (i + 1) s0 s1
      (out0.set i (leWordAt s0 i)) (out1.set i (leWordAt s1 i)) (by omega) (by omega)
    refine ⟨r0, r1, ?_, ?_, ?_⟩
    · simp only [DecodeLoop, slice_ok s0 i (by omega), slice_ok s1 i (by omega)]
      exact hr
    · intro j
      rw [hr0 j, List.length_set, List.getElem?_set]
      by_cases hj : i = j
      · subst hj
        by_cases hl : i < out0.length
        · simp [hl]
        · have : out0[i]? = none := List.getElem?_eq_none (by omega)
          simp [hl, this]
      · simp only [hj, if_false]
        have : (i + 1 ≤ j ∧ j < i + 1 + n ∧ j < out0.length) ↔
            (i ≤ j ∧ j < i + (n + 1) ∧ j < out0.length) := by omega
        simp only [this]
    · intro j
      rw [hr1 j, List.length_set, List.getElem?_set]
      by_cases hj : i = j
      · subst hj
        by_cases hl : i < out1.length
        · simp [hl]
        · have : out1[i]? = none := List.getElem?_eq_none (by omega)
          simp [hl, this]
      · simp only [hj, if_false]
        have : (i + 1 ≤ j ∧ j < i + 1 + n ∧ j < out1.length) ↔
            (i ≤ j ∧ j < i + (n + 1) ∧ j < out1.length) := by omega
        simp only [this]

theorem DecodeLoop_full (s0 s1 : ByteBuf) (h0 : 64 ≤ s0.cap) (h1 : 64 ≤ s1.cap) :
    DecodeLoop outputSize 0 s0 s1 (List.replicate outputSize 0) (List.replicate outputSize 0) =
      .ok (leWords s0, leWords s1) := by
  obtain ⟨r0, r1, hr, hr0, hr1⟩ := DecodeLoop_ok outputSize 0 s0 s1
    (List.replicate outputSize 0) (List.replicate outputSize 0)
    (by simp [outputSize]; omega) (by simp [outputSize]; omega)
  have e0 : r0 = leWords s0 := by
    apply List.ext_getElem?
    intro j
    rw [hr0 j]
    by_cases hj : j < outputSize
    · simp [leWords, hj, List.getElem?_range hj]
    · have hj2 : outputSize ≤ j := Nat.le_of_not_lt hj
      have a : (List.replicate outputSize (0 : Int))[j]? = none :=
        List.getElem?_eq_none (by simpa using hj2)
      have b : (leWords s0)[j]? = none :=
        List.getElem?_eq_none (by simpa [leWords] using hj2)
      simp [hj, a, b]
  have e1 : r1 = leWords s1 := by
    apply List.ext_getElem?
    intro j
    rw [hr1 j]
    by_cases hj : j < outputSize
    · simp [leWords, hj, List.getElem?_range hj]
    · have hj2 : outputSize ≤ j := Nat.le_of_not_lt hj
      have a : (List.replicate outputSize (0 : Int))[j]? = none :=
        List.getElem?_eq_none (by simpa using hj2)
      have b : (leWords s1)[j]? = none :=
        List.getElem?_eq_none (by simpa [leWords] using hj2)
      simp [hj, a, b]
  rw [hr, e0, e1]

theorem BytesToInt32_ok (s0 s1 : ByteBuf) (rest : List ByteBuf)
    (h0 : 64 ≤ s0.cap) (h1 : 64 ≤ s1.cap) :
    BytesToInt32 (s0 :: s1 :: rest) = .ok [leWords s0, leWords s1] := by
  simp [BytesToInt32, index, DecodeLoop_full s0 s1 h0 h1]

theorem Postprocess_ok (s0 s1 : ByteBuf) (rest : List ByteBuf)
    (h0 : 64 ≤ s0.cap) (h1 : 64 ≤ s1.cap) :
    Postprocess ⟨s0 :: s1 :: rest⟩ = .ok [leWords s0, leWords s1] := by
  simp [Postprocess, index, DecodeLoop_full s0 s1 h0 h1]

/-! ### Byte arithmetic -/

theorem Uint32_eq_sum (b0 b1 b2 b3 : Nat) (h0 : b0 < 256) (h1 : b1 < 256) (h2 : b2 < 256) :
    Uint32 b0 b1 b2 b3 = b0 + b1 * 256 + b2 * 65536 + b3 * 16777216 := by
  have e1 : b0 ||| (b1 <<< 8) = b0 + b1 * 256 := by
    rw [Nat.shiftLeft_eq, Nat.lor_comm, Nat.mul_comm b1]
    have := Nat.mul_add_lt_is_or (show b0 < 2 ^ 8 by omega) b1
    rw [← this]; omega
  have e2 : (b0 + b1 * 256) ||| (b2 <<< 16) = b0 + b1 * 256 + b2 * 65536 := by
    rw [Nat.shiftLeft_eq, Nat.lor_comm, Nat.mul_comm b2]
    have := Nat.mul_add_lt_is_or (show b0 + b1 * 256 < 2 ^ 16 by omega) b2
    rw [← this]; omega
  have e3 : (b0 + b1 * 256 + b2 * 65536) ||| (b3 <<< 24) =
      b0 + b1 * 256 + b2 * 65536 + b3 * 16777216 := by
    rw [Nat.shiftLeft_eq, Nat.lor_comm, Nat.mul_comm b3]
    have := Nat.mul_add_lt_is_or (show b0 + b1 * 256 + b2 * 65536 < 2 ^ 24 by omega) b3
    rw [← this]; omega
  rw [Uint32, e1, e2, e3]

theorem readInt32_PutUint32 (x : Int) (hx : isInt32 x) (tl sp : List Nat) :
    readInt32 { vis := PutUint32 (uint32 x) ++ tl, spare := sp } = x := by
  have hu : uint32 x < 4294967296 := by unfold uint32; omega
  simp only [readInt32, PutUint32, List.cons_append, List.nil_append, byte]
  rw [Uint32_eq_sum _ _ _ _ (Nat.mod_lt _ (by decide)) (Nat.mod_lt _ (by decide))
    (Nat.mod_lt _ (by decide))]
  simp only [Nat.shiftRight_eq_div_pow]
  have hs : uint32 x % 256 + uint32 x / 2 ^ 8 % 256 * 256 + uint32 x / 2 ^ 16 % 256 * 65536 +
      uint32 x / 2 ^ 24 % 256 * 16777216 = uint32 x := by omega
  rw [hs]
  unfold isInt32 at hx
  unfold int32 uint32
  split <;> omega

theorem leBytes_cons (x : Int) (xs : List Int) :
    leBytes (x :: xs) = PutUint32 (uint32 x) ++ leBytes xs := by
  simp [leBytes]

theorem leBytes_drop_getElem (v : List Int) (i : Nat) (h : i < v.length) :
    (leBytes v).drop (i * 4) = PutUint32 (uint32 v[i]) ++ leBytes (v.drop (i + 1)) := by
  rw [leBytes_drop, List.drop_eq_getElem_cons h, leBytes_cons]

theorem leWordAt_leBytes (v : List Int) (sp : List Nat) (i : Nat) (h : i < v.length)
    (hx : isInt32 v[i]) : leWordAt (ByteBuf.ofBytes (leBytes v) sp) i = v[i] := by
  have hlen : i * 4 ≤ (leBytes v).length := by rw [length_leBytes]; omega
  have e : ((leBytes v ++ sp).drop (i * 4)).take 4 = PutUint32 (uint32 v[i]) := by
    rw [List.drop_append_of_le_length hlen, leBytes_drop_getElem v i h, List.append_assoc,
      List.take_append_of_le_length (by rw [length_PutUint32]),
      List.take_of_length_le (by rw [length_PutUint32])]
  simp only [leWordAt, ByteBuf.ofBytes, e]
  simpa using readInt32_PutUint32 v[i] hx [] _

theorem leWords_leBytes (v : List Int) (sp : List Nat) (h : v.length = 16)
    (hx : ∀ x ∈ v, isInt32 x) : leWords (ByteBuf.ofBytes (leBytes v) sp) = v := by
  apply List.ext_getElem?
  intro j
  by_cases hj : j < 16
  · have hjv : j < v.length := by omega
    have hr : (List.range outputSize)[j]? = some j := List.getElem?_range (by simpa [outputSize])
    simp only [leWords, List.getElem?_map, hr, Option.map_some', List.getElem?_eq_getElem hjv]
    rw [leWordAt_leBytes v sp j hjv (hx _ (List.getElem_mem hjv))]
  · have a : (leWords (ByteBuf.ofBytes (leBytes v) sp))[j]? = none :=
      List.getElem?_eq_none (by simp [leWords, outputSize]; omega)
    have b : v[j]? = none := List.getElem?_eq_none (by omega)
    rw [a, b]

theorem getElem?_leBytes (v : List Int) (i k : Nat) (x : Int) (hk : k < 4)
    (hx : v[i]? = some x) : (leBytes v)[4 * i + k]? = some (uint32 x >>> (8 * k) % 256) := by
  obtain ⟨hi, rfl⟩ := List.getElem?_eq_some.mp hx
  have e : (leBytes v)[4 * i + k]? = ((leBytes v).drop (i * 4))[k]? := by
    rw [List.getElem?_drop]; congr 1; omega
  rw [e, leBytes_drop_getElem v i hi]
  have hk4 : k = 0 ∨ k = 1 ∨ k = 2 ∨ k = 3 := by omega
  rcases hk4 with rfl | rfl | rfl | rfl <;> simp [PutUint32, byte]

theorem leWordAt_eq (s : ByteBuf) (i : Nat) (h : i * 4 + 4 ≤ s.vis.length) :
    leWordAt s i = int32 (Uint32 (s.vis.getD (4 * i) 0) (s.vis.getD (4 * i + 1) 0)
      (s.vis.getD (4 * i + 2) 0) (s.vis.getD (4 * i + 3) 0)) := by
  have hl : i * 4 + 4 ≤ (s.vis ++ s.spare).length := by rw [List.length_append]; omega
  have e : (s.vis ++ s.spare).drop (i * 4) =
      s.vis[i * 4] :: s.vis[i * 4 + 1] :: s.vis[i * 4 + 2] :: s.vis[i * 4 + 3] ::
        (s.vis ++ s.spare).drop (i * 4 + 4) := by
    rw [List.drop_eq_getElem_cons (show i * 4 < _ by omega),
      List.drop_eq_getElem_cons (show i * 4 + 1 < _ by omega),
      List.drop_eq_getElem_cons (show i * 4 + 1 + 1 < _ by omega),
      List.drop_eq_getElem_cons (show i * 4 + 1 + 1 + 1 < _ by omega)]
    simp only [List.getElem_append_left (show i * 4 < s.vis.length by omega),
      List.getElem_append_left (show i * 4 + 1 < s.vis.length by omega),
      List.getElem_append_left (show i * 4 + 1 + 1 < s.vis.length by omega),
      List.getElem_append_left (show i * 4 + 1 + 1 + 1 < s.vis.length by omega)]
  have g : ∀ m (hm : m < s.vis.length), s.vis.getD m 0 = s.vis[m] := by
    intro m hm; simp [List.getD_eq_getElem?_getD, List.getElem?_eq_getElem hm]
  rw [Nat.mul_comm 4 i, leWordAt, e, g _ (by omega), g _ (by omega), g _ (by omega),
    g _ (by omega)]
  simp only [List.take_succ_cons, List.take_zero, readInt32]

theorem getElem?_leWords (s : ByteBuf) (i : Nat) (hi : i < 16) (h : 64 ≤ s.vis.length) :
    (leWords s)[i]? = some (int32 (Uint32 (s.vis.getD (4 * i) 0) (s.vis.getD (4 * i + 1) 0)
      (s.vis.getD (4 * i + 2) 0) (s.vis.getD (4 * i + 3) 0))) := by
  have hr : (List.range outputSize)[i]? = some i := List.getElem?_range (by simpa [outputSize])
  simp only [leWords, List.getElem?_map, hr, Option.map_some']
  rw [leWordAt_eq s i (by omega)]

theorem length_leWords (s : ByteBuf) : (leWords s).length = 16 := by
  simp [leWords, outputSize]

/-! ### The codec's contract -/

/-- C1. Round trip: for two `int32` vectors of length exactly 16, `Preprocess` returns
two buffers, and decoding those buffers (whatever spare capacity they carry) with
`BytesToInt32`, or with `Postprocess` from a response holding them as its two raw
outputs, gives back the two vectors. -/
theorem preprocess_decode_roundtrip (v0 v1 : List Int)
    (h0 : v0.length = 16) (h1 : v1.length = 16)
    (r0 : ∀ x ∈ v0, isInt32 x) (r1 : ∀ x ∈ v1, isInt32 x) :
    ∃ b0 b1, Preprocess [v0, v1] = .ok [b0, b1] ∧
      ∀ sp0 sp1 : List Nat,
        BytesToInt32 [ByteBuf.ofBytes b0 sp0, ByteBuf.ofBytes b1 sp1] = .ok [v0, v1] ∧
        Postprocess { RawOutputContents := [ByteBuf.ofBytes b0 sp0, ByteBuf.ofBytes b1 sp1] }
          = .ok [v0, v1] := by
  have t0 : v0.take inputSize = v0 := List.take_of_length_le (by simp [inputSize, h0])
  have t1 : v1.take inputSize = v1 := List.take_of_length_le (by simp [inputSize, h1])
  refine ⟨leBytes v0, leBytes v1, ?_, ?_⟩
  · rw [Preprocess_ok v0 v1 [] (by simp [inputSize, h0]) (by simp [inputSize, h1]), t0, t1]
  · intro sp0 sp1
    have c0 : 64 ≤ (ByteBuf.ofBytes (leBytes v0) sp0).cap := by
      simp [ByteBuf.cap, ByteBuf.ofBytes, length_leBytes, h0]
    have c1 : 64 ≤ (ByteBuf.ofBytes (leBytes v1) sp1).cap := by
      simp [ByteBuf.cap, ByteBuf.ofBytes, length_leBytes, h1]
    rw [BytesToInt32_ok _ _ [] c0 c1, Postprocess_ok _ _ [] c0 c1,
      leWords_leBytes v0 sp0 h0 r0, leWords_leBytes v1 sp1 h1 r1]
    exact ⟨rfl, rfl⟩

/-- C1 witness: the round trip on two sample vectors containing `0`, `INT32_MAX`,
`INT32_MIN` and negative values. -/
theorem preprocess_decode_roundtrip_witness :
    (Sample.vecA.length = 16 ∧ Sample.vecB.length = 16 ∧
      (∀ x ∈ Sample.vecA, isInt32 x) ∧ (∀ x ∈ Sample.vecB, isInt32 x)) ∧
    ∃ b0 b1, Preprocess [Sample.vecA, Sample.vecB] = .ok [b0, b1] ∧
      ∀ sp0 sp1 : List Nat,
        BytesToInt32 [ByteBuf.ofBytes b0 sp0, ByteBuf.ofBytes b1 sp1]
          = .ok [Sample.vecA, Sample.vecB] ∧
        Postprocess { RawOutputContents := [ByteBuf.ofBytes b0 sp0, ByteBuf.ofBytes b1 sp1] }
          = .ok [Sample.vecA, Sample.vecB] :=
  ⟨by decide, preprocess_decode_roundtrip Sample.vecA Sample.vecB (by decide) (by decide)
    (by decide) (by decide)⟩

/-- C2. For two vectors of length 16, whatever the element values, `Preprocess` returns
two buffers, each of length exactly 64. -/
theorem preprocess_length (v0 v1 : List Int) (h0 : v0.length = 16) (h1 : v1.length = 16) :
    ∃ b0 b1, Preprocess [v0, v1] = .ok [b0, b1] ∧ b0.length = 64 ∧ b1.length = 64 := by
  refine ⟨leBytes (v0.take inputSize), leBytes (v1.take inputSize),
    Preprocess_ok v0 v1 [] (by simp [inputSize, h0]) (by simp [inputSize, h1]), ?_, ?_⟩
  · simp [length_leBytes, inputSize, h0]
  · simp [length_leBytes, inputSize, h1]

/-- C2 witness: the buffer lengths for the two sample vectors. -/
theorem preprocess_length_witness :
    (Sample.vecA.length = 16 ∧ Sample.vecB.length = 16) ∧
    ∃ b0 b1, Preprocess [Sample.vecA, Sample.vecB] = .ok [b0, b1] ∧
      b0.length = 64 ∧ b1.length = 64 :=
  ⟨by decide, preprocess_length Sample.vecA Sample.vecB (by decide) (by decide)⟩

/-- C3. `Preprocess` is a little-endian, index-ordered encoding: for vectors `v0`, `v1` of
length 16 it returns buffers `b0`, `b1` such that byte `4 * i + k` of `bj` is
`(uint32(vj[i]) >> (8 * k)) mod 256` for every `i < 16` and `k < 4`; and `b0` is also the
first buffer for any other second vector, `b1` the second buffer for any other first
vector. -/
theorem preprocess_little_endian (v0 v1 : List Int)
    (h0 : v0.length = 16) (h1 : v1.length = 16) :
    ∃ b0 b1, Preprocess [v0, v1] = .ok [b0, b1] ∧
      (∀ i k x, i < 16 → k < 4 → v0[i]? = some x →
        b0[4 * i + k]? = some (uint32 x >>> (8 * k) % 256)) ∧
      (∀ i k x, i < 16 → k < 4 → v1[i]? = some x →
        b1[4 * i + k]? = some (uint32 x >>> (8 * k) % 256)) ∧
      (∀ w : List Int, w.length = 16 → ∃ c, Preprocess [v0, w] = .ok [b0, c]) ∧
      (∀ w : List Int, w.length = 16 → ∃ c, Preprocess [w, v1] = .ok [c, b1]) := by
  have t0 : v0.take inputSize = v0 := List.take_of_length_le (by simp [inputSize, h0])
  have t1 : v1.take inputSize = v1 := List.take_of_length_le (by simp [inputSize, h1])
  refine ⟨leBytes v0, leBytes v1, ?_, ?_, ?_, ?_, ?_⟩
  · rw [Preprocess_ok v0 v1 [] (by simp [inputSize, h0]) (by simp [inputSize, h1]), t0, t1]
  · intro i k x _ hk hx
    exact getElem?_leBytes v0 i k x hk hx
  · intro i k x _ hk hx
    exact getElem?_leBytes v1 i k x hk hx
  · intro w hw
    refine ⟨leBytes (w.take inputSize), ?_⟩
    rw [Preprocess_ok v0 w [] (by simp [inputSize, h0]) (by simp [inputSize, hw]), t0]
  · intro w hw
    refine ⟨leBytes (w.take inputSize), ?_⟩
    rw [Preprocess_ok w v1 [] (by simp [inputSize, hw]) (by simp [inputSize, h1]), t1]

/-- C3 witness: the byte layout for the two sample vectors. -/
theorem preprocess_little_endian_witness :
    (Sample.vecA.length = 16 ∧ Sample.vecB.length = 16) ∧
    ∃ b0 b1, Preprocess [Sample.vecA, Sample.vecB] = .ok [b0, b1] ∧
      (∀ i k x, i < 16 → k < 4 → Sample.vecA[i]? = some x →
        b0[4 * i + k]? = some (uint32 x >>> (8 * k) % 256)) ∧
      (∀ i k x, i < 16 → k < 4 → Sample.vecB[i]? = some x →
        b1[4 * i + k]? = some (uint32 x >>> (8 * k) % 256)) ∧
      (∀ w : List Int, w.length = 16 → ∃ c, Preprocess [Sample.vecA, w] = .ok [b0, c]) ∧
      (∀ w : List Int, w.length = 16 → ∃ c, Preprocess [w, Sample.vecB] = .ok [c, b1]) :=
  ⟨by decide, preprocess_little_endian Sample.vecA Sample.vecB (by decide) (by decide)⟩

/-- C4, as stated, fails: a 65-byte buffer (length neither a multiple of 4 nor 64) and a
68-byte buffer (length not 64) are both decoded successfully, by `BytesToInt32` and by
`Postprocess`, from their first 64 bytes. -/
theorem decode_accepts_other_lengths :
    Sample.buf65.len = 65 ∧ Sample.buf68.len = 68 ∧
    BytesToInt32 [Sample.buf65, Sample.buf68] =
      .ok [List.replicate 16 16843009, List.replicate 16 (-1)] ∧
    Postprocess { RawOutputContents := [Sample.buf65, Sample.buf68] } =
      .ok [List.replicate 16 16843009, List.replicate 16 (-1)] := by
  decide

/-- C4, amended. Decoding has no error result; for two buffers of at least 64 bytes each,
whatever their lengths, `BytesToInt32` and `Postprocess` return two vectors of 16 values,
value `i` being the little-endian `int32` of bytes `4i .. 4i+3` of the buffer; bytes from
the 64th on are ignored. -/
theorem decode_reads_first_64_bytes (s0 s1 : ByteBuf) (h0 : 64 ≤ s0.len) (h1 : 64 ≤ s1.len) :
    ∃ r0 r1, BytesToInt32 [s0, s1] = .ok [r0, r1] ∧
      Postprocess { RawOutputContents := [s0, s1] } = .ok [r0, r1] ∧
      r0.length = 16 ∧ r1.length = 16 ∧
      (∀ i, i < 16 → r0[i]? = some (int32 (Uint32 (s0.vis.getD (4 * i) 0)
        (s0.vis.getD (4 * i + 1) 0) (s0.vis.getD (4 * i + 2) 0) (s0.vis.getD (4 * i + 3) 0)))) ∧
      (∀ i, i < 16 → r1[i]? = some (int32 (Uint32 (s1.vis.getD (4 * i) 0)
        (s1.vis.getD (4 * i + 1) 0) (s1.vis.getD (4 * i + 2) 0) (s1.vis.getD (4 * i + 3) 0)))) := by
  have c0 : 64 ≤ s0.cap := by unfold ByteBuf.cap; unfold ByteBuf.len at h0; omega
  have c1 : 64 ≤ s1.cap := by unfold ByteBuf.cap; unfold ByteBuf.len at h1; omega
  refine ⟨leWords s0, leWords s1, BytesToInt32_ok s0 s1 [] c0 c1, Postprocess_ok s0 s1 [] c0 c1,
    length_leWords s0, length_leWords s1, ?_, ?_⟩
  · intro i hi; exact getElem?_leWords s0 i hi h0
  · intro i hi; exact getElem?_leWords s1 i hi h1

/-- C4 witness: decoding a 65-byte and a 68-byte buffer. -/
theorem decode_reads_first_64_bytes_witness :
    (64 ≤ Sample.buf65.len ∧ 64 ≤ Sample.buf68.len) ∧
    ∃ r0 r1, BytesToInt32 [Sample.buf65, Sample.buf68] = .ok [r0, r1] ∧
      Postprocess { RawOutputContents := [Sample.buf65, Sample.buf68] } = .ok [r0, r1] ∧
      r0.length = 16 ∧ r1.length = 16 ∧
      (∀ i, i < 16 → r0[i]? = some (int32 (Uint32 (Sample.buf65.vis.getD (4 * i) 0)
        (Sample.buf65.vis.getD (4 * i + 1) 0) (Sample.buf65.vis.getD (4 * i + 2) 0)
        (Sample.buf65.vis.getD (4 * i + 3) 0)))) ∧
      (∀ i, i < 16 → r1[i]? = some (int32 (Uint32 (Sample.buf68.vis.getD (4 * i) 0)
        (Sample.buf68.vis.getD (4 * i + 1) 0) (Sample.buf68.vis.getD (4 * i + 2) 0)
        (Sample.buf68.vis.getD (4 * i + 3) 0)))) :=
  ⟨by decide, decode_reads_first_64_bytes Sample.buf65 Sample.buf68 (by decide) (by decide)⟩

end Triton

namespace Service

open Go Env Status Triton

/-! ### The input copy and the formatting loop -/

theorem foldl_append_singleton (input : List Int) : ∀ row : List Int,
    input.foldl (fun row val => row ++ [val]) row = row ++ input := by
  induction input with
  | nil => intro row; simp
  | cons x xs ih => intro row; simp [List.foldl_cons, ih]

theorem copyInputs_foldl (inputs : List (List Int)) : ∀ acc : List (List Int),
    inputs.foldl (fun inputsInt input =>
      inputsInt ++ [input.foldl (fun row val => row ++ [val]) []]) acc = acc ++ inputs := by
  induction inputs with
  | nil => intro acc; simp
  | cons x xs ih =>
    intro acc
    rw [List.foldl_cons, ih, foldl_append_singleton]
    simp

theorem copyInputs_eq (inputs : List (List Int)) : copyInputs inputs = inputs := by
  simp [copyInputs, copyInputs_foldl]

theorem getD_of_lt (l : List Int) (i : Nat) (h : i < l.length) : l.getD i 0 = l[i] := by
  simp [List.getD_eq_getElem?_getD, List.getElem?_eq_getElem h]

theorem formatLoop_ok (a b s d : List Int) (rest : List (List Int)) (n : Nat) :
    ∀ (i : Nat) (acc : List String),
      i + n ≤ a.length → i + n ≤ b.length → i + n ≤ s.length → i + n ≤ d.length →
      formatLoop n i (a :: b :: rest) s d acc =
        .ok (acc ++ (List.range' i n).flatMap (linesAt a b s d)) := by
  induction n with
  | zero => intro i acc _ _ _ _; simp [formatLoop]
  | succ n ih =>
    intro i acc ha hb hs hd
    have e0 : index (a :: b :: rest) 0 = .ok a := by simp [index]
    have e1 : index (a :: b :: rest) 1 = .ok b := by simp [index]
    simp only [formatLoop, e0, e1, index_ok a i (by omega), index_ok b i (by omega),
      index_ok s i (by omega), index_ok d i (by omega)]
    rw [ih (i + 1) _ (by omega) (by omega) (by omega) (by omega)]
    simp only [List.range'_succ, List.flatMap_cons, linesAt, getD_of_lt a i (by omega),
      getD_of_lt b i (by omega), getD_of_lt s i (by omega), getD_of_lt d i (by omega),
      List.append_assoc, List.singleton_append, List.cons_append, List.nil_append]

theorem formatResults_ok (a b s d : List Int) (rest : List (List Int))
    (ha : s.length ≤ a.length) (hb : s.length ≤ b.length) (hd : s.length ≤ d.length) :
    formatResults (a :: b :: rest) s d =
      .ok ((List.range' 0 s.length).flatMap (linesAt a b s d)) := by
  rw [formatResults, formatLoop_ok a b s d rest s.length 0 [] (by omega) (by omega) (by omega)
    (by omega)]
  simp

theorem length_flatMap_pairs (u v : Nat → String) (n : Nat) : ∀ i,
    ((List.range' i n).flatMap (fun j => [u j, v j])).length = 2 * n := by
  induction n with
  | zero => intro i; simp
  | succ n ih =>
    intro i
    simp only [List.range'_succ, List.flatMap_cons, List.length_append, ih (i + 1)]
    simp; omega

theorem getElem?_flatMap_pairs (u v : Nat → String) (n : Nat) : ∀ i k, k < n →
    ((List.range' i n).flatMap (fun j => [u j, v j]))[2 * k]? = some (u (i + k)) ∧
    ((List.range' i n).flatMap (fun j => [u j, v j]))[2 * k + 1]? = some (v (i + k)) := by
  induction n with
  | zero => intro i k hk; omega
  | succ n ih =>
    intro i k hk
    simp only [List.range'_succ, List.flatMap_cons]
    cases k with
    | zero => simp
    | succ k =>
      obtain ⟨h1, h2⟩ := ih (i + 1) k (by omega)
      have a1 : 2 * (k + 1) = 2 * k + 1 + 1 := by omega
      have a2 : i + (k + 1) = i + 1 + k := by omega
      rw [a1, a2]
      simp only [List.cons_append, List.nil_append, List.getElem?_cons_succ]
      exact ⟨h1, h2⟩

/-! ### The run that reaches `SaveMessage` -/

theorem ProcessMessage_run {σ : Type} (s : MessageService σ) (ctx : Context)
    (userID modelID versionID : Int) (v0 v1 : List Int) (rest : List (List Int))
    (w : World σ) (name : String) (ver : Int) (ready : Bool) (st1 st2 st3 st4 st5 : σ)
    (o0 o1 : ByteBuf) (more : List ByteBuf)
    (h0 : 16 ≤ v0.length) (h1 : 16 ≤ v1.length)
    (hN : s.Repo.GetModelName ctx modelID w.st = (.ok name, st1))
    (hV : s.Repo.GetVersionNumber ctx versionID st1 = (.ok ver, st2))
    (hR : s.triton.ModelReady engineCtx { Name := name, Version := Sprintd ver } st2
      = (.ok ready, st3))
    (hL : (ready = true ∧ st4 = st3) ∨ (ready = false ∧
      s.triton.RepositoryModelLoad engineCtx { ModelName := name } st3 = (none, st4)))
    (hI : s.triton.ModelInfer engineCtx (inferRequestOf name (Sprintd ver)
        (leBytes (v0.take inputSize)) (leBytes (v1.take inputSize))) st4
      = (.ok { RawOutputContents := o0 :: o1 :: more }, st5))
    (c0 : 64 ≤ o0.cap) (c1 : 64 ≤ o1.cap) :
    ProcessMessage s ctx userID modelID versionID (v0 :: v1 :: rest) w =
      ((match (s.Repo.SaveMessage ctx (messageOf userID modelID versionID v0 v1
            (resultsOf v0 v1 o0 o1) (s.Now st5)) st5).1 with
        | some err => .ok ([], some (Errorf .Internal ("SendMessage: " ++ err)))
        | none => .ok (resultsOf v0 v1 o0 o1, none)),
       { st := (s.Repo.SaveMessage ctx (messageOf userID modelID versionID v0 v1
            (resultsOf v0 v1 o0 o1) (s.Now st5)) st5).2,
         trace := w.trace ++ callsOf ctx modelID versionID name ver ready v0 v1
            (messageOf userID modelID versionID v0 v1 (resultsOf v0 v1 o0 o1) (s.Now st5)) }) := by
  have hP := Preprocess_ok v0 v1 rest (by simpa [inputSize] using h0) (by simpa [inputSize] using h1)
  have hPost := Postprocess_ok o0 o1 more c0 c1
  have hF := formatResults_ok v0 v1 (leWords o0) (leWords o1) rest
    (by rw [length_leWords]; exact h0) (by rw [length_leWords]; exact h1)
    (by rw [length_leWords, length_leWords])
  rw [length_leWords] at hF
  unfold engineCtx inferRequestOf at *
  rcases hL with ⟨rfl, rfl⟩ | ⟨rfl, hL⟩
  · simp only [ProcessMessage, inferAndSave, World.call, ModelReadyRequest, ModelInferRequest, hN,
      hV, hR,
      copyInputs_eq, hP, hPost, hF, hI, index, List.getElem?_cons_zero, List.getElem?_cons_succ,
      List.nil_append, List.singleton_append, List.cons_append, Bool.not_true, Bool.false_eq_true,
      if_false]
    cases hS : (s.Repo.SaveMessage ctx (messageOf userID modelID versionID v0 v1
            (resultsOf v0 v1 o0 o1) (s.Now st5)) st5) with
    | mk e st6 =>
      simp only [messageOf, resultsOf, outputSize] at hS
      cases e <;> simp [hS, callsOf, messageOf, resultsOf, outputSize, engineCtx, inferRequestOf]
  · simp only [ProcessMessage, inferAndSave, World.call, ModelReadyRequest, ModelInferRequest,
      LoadModelRequest,
      hN, hV, hR, hL,
      copyInputs_eq, hP, hPost, hF, hI, index, List.getElem?_cons_zero, List.getElem?_cons_succ,
      List.nil_append, List.singleton_append, List.cons_append, Bool.not_false,
      if_true]
    cases hS : (s.Repo.SaveMessage ctx (messageOf userID modelID versionID v0 v1
            (resultsOf v0 v1 o0 o1) (s.Now st5)) st5) with
    | mk e st6 =>
      simp only [messageOf, resultsOf, outputSize] at hS
      cases e <;> simp [hS, callsOf, messageOf, resultsOf, outputSize, engineCtx, inferRequestOf]

/-! ### The calls of an arbitrary run -/

theorem ModelInferRequest_outcome {σ : Type} (client : GRPCInferenceServiceClient σ)
    (rawInput : List (List Nat)) (modelName modelVersion : String) (w : World σ) :
    (∃ e, ModelInferRequest client rawInput modelName modelVersion w = (.error e, w)) ∨
    (∃ req msg st, ModelInferRequest client rawInput modelName modelVersion w =
      (.error (.fatal msg), { st := st, trace := w.trace ++ [.ModelInfer engineCtx req] })) ∨
    (∃ req resp st, ModelInferRequest client rawInput modelName modelVersion w =
      (.ok resp, { st := st, trace := w.trace ++ [.ModelInfer engineCtx req] })) := by
  unfold ModelInferRequest engineCtx
  cases h0 : index rawInput 0 with
  | error e => exact Or.inl ⟨e, rfl⟩
  | ok raw0 =>
    cases h1 : index rawInput 1 with
    | error e => exact Or.inl ⟨e, rfl⟩
    | ok raw1 =>
      simp only [World.call]
      cases hI : client.ModelInfer (Context.WithTimeout Context.Background 10)
          { ModelName := modelName, ModelVersion := modelVersion,
            Inputs := [{ Name := "INPUT0", Datatype := "INT32", Shape := [1, 16] },
                       { Name := "INPUT1", Datatype := "INT32", Shape := [1, 16] }],
            Outputs := [{ Name := "OUTPUT0" }, { Name := "OUTPUT1" }],
            RawInputContents := ([] ++ [raw0]) ++ [raw1] } w.st with
      | mk r st =>
        cases r with
        | error err => exact Or.inr (Or.inl ⟨_, _, st, rfl⟩)
        | ok resp => exact Or.inr (Or.inr ⟨_, resp, st, rfl⟩)

theorem inferAndSave_calls {σ : Type} (s : MessageService σ) (ctx : Context)
    (userID modelID versionID : Int) (inputs : List (List Int))
    (modelName : String) (versionNumber : Int) (w4 : World σ) :
    ∃ rest, (inferAndSave s ctx userID modelID versionID inputs modelName versionNumber w4).2.trace
        = w4.trace ++ rest ∧
      (rest = [] ∨ (∃ req, rest = [.ModelInfer engineCtx req]) ∨
        (∃ req msg, rest = [.ModelInfer engineCtx req, .SaveMessage ctx msg])) := by
  simp only [inferAndSave]
  cases hP : Preprocess (copyInputs inputs) with
  | error e => exact ⟨[], by simp, Or.inl rfl⟩
  | ok rawInput =>
    rcases ModelInferRequest_outcome s.triton rawInput modelName (Sprintd versionNumber) w4 with
      ⟨e, hM⟩ | ⟨req, msg, st, hM⟩ | ⟨req, resp, st, hM⟩
    · simp only [hM]; exact ⟨[], by simp, Or.inl rfl⟩
    · simp only [hM]; exact ⟨[.ModelInfer engineCtx req], rfl, Or.inr (Or.inl ⟨req, rfl⟩)⟩
    · simp only [hM]
      cases hQ : Postprocess resp with
      | error e => exact ⟨[.ModelInfer engineCtx req], rfl, Or.inr (Or.inl ⟨req, rfl⟩)⟩
      | ok outputs =>
        simp only []
        cases hA : index outputs 0 with
        | error e => exact ⟨[.ModelInfer engineCtx req], rfl, Or.inr (Or.inl ⟨req, rfl⟩)⟩
        | ok outputData0 =>
          simp only []
          cases hB : index outputs 1 with
          | error e => exact ⟨[.ModelInfer engineCtx req], rfl, Or.inr (Or.inl ⟨req, rfl⟩)⟩
          | ok outputData1 =>
            simp only []
            cases hF : formatResults (copyInputs inputs) outputData0 outputData1 with
            | error e => exact ⟨[.ModelInfer engineCtx req], rfl, Or.inr (Or.inl ⟨req, rfl⟩)⟩
            | ok resultsStr =>
              simp only []
              cases hC : index rawInput 0 with
              | error e => exact ⟨[.ModelInfer engineCtx req], rfl, Or.inr (Or.inl ⟨req, rfl⟩)⟩
              | ok raw0 =>
                simp only []
                cases hD : index rawInput 1 with
                | error e => exact ⟨[.ModelInfer engineCtx req], rfl, Or.inr (Or.inl ⟨req, rfl⟩)⟩
                | ok raw1 =>
                  simp only [World.call]
                  cases hS : s.Repo.SaveMessage ctx
                      { ID := 0, UserID := userID, ModelID := modelID, VersionID := versionID,
                        Input1 := raw0, Input2 := raw1, Results := resultsStr,
                        CreatedAt := s.Now st } st with
                  | mk r st6 =>
                    cases r with
                    | none =>
                      exact ⟨[.ModelInfer engineCtx req, .SaveMessage ctx
                        { ID := 0, UserID := userID, ModelID := modelID, VersionID := versionID,
                          Input1 := raw0, Input2 := raw1, Results := resultsStr,
                          CreatedAt := s.Now st }], by simp, Or.inr (Or.inr ⟨req, _, rfl⟩)⟩
                    | some err =>
                      exact ⟨[.ModelInfer engineCtx req, .SaveMessage ctx
                        { ID := 0, UserID := userID, ModelID := modelID, VersionID := versionID,
                          Input1 := raw0, Input2 := raw1, Results := resultsStr,
                          CreatedAt := s.Now st }], by simp, Or.inr (Or.inr ⟨req, _, rfl⟩)⟩

theorem ProcessMessage_calls {σ : Type} (s : MessageService σ) (ctx : Context)
    (userID modelID versionID : Int) (inputs : List (List Int)) (w : World σ)
    (name : String) (ver : Int) (ready : Bool) (st1 st2 st3 : σ)
    (hN : s.Repo.GetModelName ctx modelID w.st = (.ok name, st1))
    (hV : s.Repo.GetVersionNumber ctx versionID st1 = (.ok ver, st2))
    (hR : s.triton.ModelReady engineCtx { Name := name, Version := Sprintd ver } st2
      = (.ok ready, st3)) :
    ∃ rest, (ProcessMessage s ctx userID modelID versionID inputs w).2.trace =
        w.trace ++ ([.GetModelName ctx modelID, .GetVersionNumber ctx versionID,
          .ModelReady engineCtx { Name := name, Version := Sprintd ver }] ++
          (if ready then [] else [.RepositoryModelLoad engineCtx { ModelName := name }]) ++ rest) ∧
      (rest = [] ∨ (∃ req, rest = [.ModelInfer engineCtx req]) ∨
        (∃ req msg, rest = [.ModelInfer engineCtx req, .SaveMessage ctx msg])) := by
  unfold engineCtx at hR
  cases ready with
  | true =>
    simp only [ProcessMessage, World.call, ModelReadyRequest, hN, hV, hR, Bool.not_true,
      Bool.false_eq_true, if_false, if_true]
    obtain ⟨rest, h1, h2⟩ := inferAndSave_calls s ctx userID modelID versionID inputs name ver
      { st := st3, trace := w.trace ++ [.GetModelName ctx modelID] ++
          [.GetVersionNumber ctx versionID] ++
          [.ModelReady (Context.WithTimeout Context.Background 10)
            { Name := name, Version := Sprintd ver }] }
    exact ⟨rest, by rw [h1]; simp [engineCtx], h2⟩
  | false =>
    simp only [ProcessMessage, World.call, ModelReadyRequest, LoadModelRequest, hN, hV, hR,
      Bool.not_false, if_true, Bool.false_eq_true, if_false]
    cases hL : s.triton.RepositoryModelLoad (Context.WithTimeout Context.Background 10)
        { ModelName := name } st3 with
    | mk r st4 =>
      cases r with
      | some err => exact ⟨[], by simp [engineCtx], Or.inl rfl⟩
      | none =>
        simp only []
        obtain ⟨rest, h1, h2⟩ := inferAndSave_calls s ctx userID modelID versionID inputs name
          ver { st := st4, trace := w.trace ++ [.GetModelName ctx modelID] ++
              [.GetVersionNumber ctx versionID] ++
              [.ModelReady (Context.WithTimeout Context.Background 10)
                { Name := name, Version := Sprintd ver }] ++
              [.RepositoryModelLoad (Context.WithTimeout Context.Background 10)
                { ModelName := name }] }
        exact ⟨rest, by rw [h1]; simp [engineCtx], h2⟩

/-! ### Vectors longer than the tensor shape -/

theorem DecodeLoop_length (n : Nat) : ∀ (i : Nat) (s0 s1 : ByteBuf) (out0 out1 r0 r1 : List Int),
    DecodeLoop n i s0 s1 out0 out1 = .ok (r0, r1) →
    r0.length = out0.length ∧ r1.length = out1.length := by
  induction n with
  | zero =>
    intro i s0 s1 out0 out1 r0 r1 h
    simp only [DecodeLoop, Except.ok.injEq, Prod.mk.injEq] at h
    exact ⟨by rw [h.1], by rw [h.2]⟩
  | succ n ih =>
    intro i s0 s1 out0 out1 r0 r1 h
    simp only [DecodeLoop] at h
    cases ha : s0.slice (i * 4) (i * 4 + 4) with
    | error e => simp [ha] at h
    | ok a =>
      cases hb : s1.slice (i * 4) (i * 4 + 4) with
      | error e => simp [ha, hb] at h
      | ok b =>
        simp only [ha, hb] at h
        have := ih _ _ _ _ _ _ _ h
        simpa using this

theorem Postprocess_shape (resp : Triton2.ModelInferResponse) (outputs : List (List Int))
    (h : Postprocess resp = .ok outputs) :
    ∃ d0 d1, outputs = [d0, d1] ∧ d0.length = 16 ∧ d1.length = 16 := by
  simp only [Postprocess] at h
  cases ha : index resp.RawOutputContents 0 with
  | error e => simp [ha] at h
  | ok a =>
    cases hb : index resp.RawOutputContents 1 with
    | error e => simp [ha, hb] at h
    | ok b =>
      simp only [ha, hb] at h
      cases hd : DecodeLoop outputSize 0 a b (List.replicate outputSize 0)
          (List.replicate outputSize 0) with
      | error e => simp [hd] at h
      | ok r =>
        obtain ⟨r0, r1⟩ := r
        simp only [hd, Except.ok.injEq] at h
        obtain ⟨l0, l1⟩ := DecodeLoop_length _ _ _ _ _ _ _ _ hd
        exact ⟨r0, r1, h.symm, by simpa [outputSize] using l0, by simpa [outputSize] using l1⟩

theorem linesAt_take (a b s d : List Int) (j : Nat) (hj : j < 16) :
    linesAt (a.take 16) (b.take 16) s d j = linesAt a b s d j := by
  simp [linesAt, List.getD_eq_getElem?_getD, List.getElem?_take_of_lt hj]

theorem formatResults_take (a b d0 d1 : List Int) (rest : List (List Int))
    (ha : 16 ≤ a.length) (hb : 16 ≤ b.length) (h0 : d0.length = 16) (h1 : d1.length = 16) :
    formatResults (a :: b :: rest) d0 d1 = formatResults [a.take 16, b.take 16] d0 d1 := by
  rw [formatResults_ok a b d0 d1 rest (by omega) (by omega) (by omega),
    formatResults_ok (a.take 16) (b.take 16) d0 d1 []
      (by rw [List.length_take]; omega) (by rw [List.length_take]; omega) (by omega)]
  congr 1
  apply List.flatMap_congr
  intro j hj
  rw [linesAt_take a b d0 d1 j (by simp [List.mem_range'_1] at hj; omega)]

theorem inferAndSave_take {σ : Type} (s : MessageService σ) (ctx : Context)
    (userID modelID versionID : Int) (v0 v1 : List Int) (rest : List (List Int))
    (h0 : 16 ≤ v0.length) (h1 : 16 ≤ v1.length)
    (modelName : String) (versionNumber : Int) (w4 : World σ) :
    inferAndSave s ctx userID modelID versionID (v0 :: v1 :: rest) modelName versionNumber w4 =
      inferAndSave s ctx userID modelID versionID [v0.take 16, v1.take 16] modelName
        versionNumber w4 := by
  have hP := Preprocess_ok v0 v1 rest (by simpa [inputSize] using h0) (by simpa [inputSize] using h1)
  have hP2 := Preprocess_ok (v0.take 16) (v1.take 16) []
    (by rw [List.length_take]; simp [inputSize]; omega)
    (by rw [List.length_take]; simp [inputSize]; omega)
  simp only [inputSize, List.take_take, Nat.min_self] at hP hP2
  simp only [inferAndSave, copyInputs_eq, hP, hP2]
  rcases ModelInferRequest_outcome s.triton [leBytes (v0.take 16), leBytes (v1.take 16)]
      modelName (Sprintd versionNumber) w4 with ⟨e, hM⟩ | ⟨req, msg, st, hM⟩ | ⟨req, resp, st, hM⟩
  · simp only [hM]
  · simp only [hM]
  · simp only [hM]
    cases hQ : Postprocess resp with
    | error e => rfl
    | ok outputs =>
      obtain ⟨d0, d1, rfl, l0, l1⟩ := Postprocess_shape resp outputs hQ
      have e0 : index [d0, d1] 0 = .ok d0 := by simp [index]
      have e1 : index [d0, d1] 1 = .ok d1 := by simp [index]
      simp only [e0, e1, formatResults_take v0 v1 d0 d1 rest h0 h1 l0 l1]

theorem ProcessMessage_take {σ : Type} (s : MessageService σ) (ctx : Context)
    (userID modelID versionID : Int) (v0 v1 : List Int) (rest : List (List Int))
    (h0 : 16 ≤ v0.length) (h1 : 16 ≤ v1.length) (w : World σ) :
    ProcessMessage s ctx userID modelID versionID (v0 :: v1 :: rest) w =
      ProcessMessage s ctx userID modelID versionID [v0.take 16, v1.take 16] w := by
  simp only [ProcessMessage, inferAndSave_take s ctx userID modelID versionID v0 v1 rest h0 h1]

/-! ### The orchestrator's contract -/

/-- C5. Result formatting: for inputs `a`, `b` and decoded outputs `s`, `d` of common
length `N`, the formatting block of `ProcessMessage` yields a sequence of length `2N`
whose element `2i` is `"<a[i]> + <b[i]> = <s[i]>"` and whose element `2i+1` is
`"<a[i]> - <b[i]> = <d[i]>"`, integers in signed decimal; on `a=[5,10]`, `b=[3,7]`,
`s=[8,17]`, `d=[2,3]` it yields exactly the four strings of the example. -/
theorem format_results_interleaved (a b s d : List Int) (N : Nat)
    (ha : a.length = N) (hb : b.length = N) (hs : s.length = N) (hd : d.length = N) :
    (∃ r, formatResults [a, b] s d = .ok r ∧ r.length = 2 * N ∧
      ∀ i x y p q, a[i]? = some x → b[i]? = some y → s[i]? = some p → d[i]? = some q →
        r[2 * i]? = some (Sprintd x ++ " + " ++ Sprintd y ++ " = " ++ Sprintd p) ∧
        r[2 * i + 1]? = some (Sprintd x ++ " - " ++ Sprintd y ++ " = " ++ Sprintd q)) ∧
    formatResults [[5, 10], [3, 7]] [8, 17] [2, 3] =
      .ok ["5 + 3 = 8", "5 - 3 = 2", "10 + 7 = 17", "10 - 7 = 3"] ∧
    Sprintd (-2147483648) = "-2147483648" := by
  refine ⟨⟨_, formatResults_ok a b s d [] (by omega) (by omega) (by omega), ?_, ?_⟩,
    by decide, by decide⟩
  · rw [hs]
    exact length_flatMap_pairs
      (fun j => SprintfSum (a.getD j 0) (b.getD j 0) (s.getD j 0))
      (fun j => SprintfDiff (a.getD j 0) (b.getD j 0) (d.getD j 0)) N 0
  · intro i x y p q hx hy hp hq
    obtain ⟨hi, rfl⟩ := List.getElem?_eq_some.mp hx
    obtain ⟨hi2, rfl⟩ := List.getElem?_eq_some.mp hy
    obtain ⟨hi3, rfl⟩ := List.getElem?_eq_some.mp hp
    obtain ⟨hi4, rfl⟩ := List.getElem?_eq_some.mp hq
    have key := getElem?_flatMap_pairs
      (fun j => SprintfSum (a.getD j 0) (b.getD j 0) (s.getD j 0))
      (fun j => SprintfDiff (a.getD j 0) (b.getD j 0) (d.getD j 0)) s.length 0 i hi3
    simp only [Nat.zero_add, getD_of_lt a i hi, getD_of_lt b i hi2, getD_of_lt s i hi3,
      getD_of_lt d i hi4, SprintfSum, SprintfDiff] at key
    exact key

/-- C5 witness: the formatting block on the vectors of the example. -/
theorem format_results_interleaved_witness :
    ([5, 10] : List Int).length = 2 ∧
    ((∃ r, formatResults [[5, 10], [3, 7]] [8, 17] [2, 3] = .ok r ∧ r.length = 2 * 2 ∧
      ∀ i x y p q, ([5, 10] : List Int)[i]? = some x → ([3, 7] : List Int)[i]? = some y →
        ([8, 17] : List Int)[i]? = some p → ([2, 3] : List Int)[i]? = some q →
        r[2 * i]? = some (Sprintd x ++ " + " ++ Sprintd y ++ " = " ++ Sprintd p) ∧
        r[2 * i + 1]? = some (Sprintd x ++ " - " ++ Sprintd y ++ " = " ++ Sprintd q)) ∧
    formatResults [[5, 10], [3, 7]] [8, 17] [2, 3] =
      .ok ["5 + 3 = 8", "5 - 3 = 2", "10 + 7 = 17", "10 - 7 = 3"] ∧
    Sprintd (-2147483648) = "-2147483648") :=
  ⟨by decide, format_results_interleaved [5, 10] [3, 7] [8, 17] [2, 3] 2
    (by decide) (by decide) (by decide) (by decide)⟩

/-- C6. Lazy load: once the model name and the version number are resolved and the
readiness query answers `ready` without error, the calls of `ProcessMessage` are the
two lookups, the readiness query, then the load call for the resolved model name
exactly when `ready` is false, then calls none of which is a load call; an infer
call can only be among the latter, so it comes after the load. -/
theorem lazy_load {σ : Type} (s : MessageService σ) (ctx : Context)
    (userID modelID versionID : Int) (inputs : List (List Int)) (w : World σ)
    (name : String) (ver : Int) (ready : Bool) (st1 st2 st3 : σ)
    (hN : s.Repo.GetModelName ctx modelID w.st = (.ok name, st1))
    (hV : s.Repo.GetVersionNumber ctx versionID st1 = (.ok ver, st2))
    (hR : s.triton.ModelReady engineCtx { Name := name, Version := Sprintd ver } st2
      = (.ok ready, st3)) :
    ∃ rest, (ProcessMessage s ctx userID modelID versionID inputs w).2.trace =
        w.trace ++ ([.GetModelName ctx modelID, .GetVersionNumber ctx versionID,
          .ModelReady engineCtx { Name := name, Version := Sprintd ver }] ++
          (if ready then [] else [.RepositoryModelLoad engineCtx { ModelName := name }]) ++ rest) ∧
      ∀ c ∈ rest, c.isLoad = false := by
  obtain ⟨rest, h1, h2⟩ := ProcessMessage_calls s ctx userID modelID versionID inputs w name ver
    ready st1 st2 st3 hN hV hR
  refine ⟨rest, h1, ?_⟩
  rcases h2 with rfl | ⟨req, rfl⟩ | ⟨req, msg, rfl⟩ <;> simp [Call.isLoad]

/-- C6 witness: a run with a model that is not ready and a run with a ready model. -/
theorem lazy_load_witness :
    (∃ rest, (ProcessMessage (Sample.service false none) Sample.ctx 1 7 9
        [Sample.vecA, Sample.vecB] Sample.world).2.trace =
        Sample.world.trace ++ ([.GetModelName Sample.ctx 7, .GetVersionNumber Sample.ctx 9,
          .ModelReady engineCtx { Name := "simple", Version := Sprintd 1 }] ++
          (if false then [] else [.RepositoryModelLoad engineCtx { ModelName := "simple" }])
          ++ rest) ∧
      ∀ c ∈ rest, c.isLoad = false) ∧
    (∃ rest, (ProcessMessage (Sample.service true none) Sample.ctx 1 7 9
        [Sample.vecA, Sample.vecB] Sample.world).2.trace =
        Sample.world.trace ++ ([.GetModelName Sample.ctx 7, .GetVersionNumber Sample.ctx 9,
          .ModelReady engineCtx { Name := "simple", Version := Sprintd 1 }] ++
          (if true then [] else [.RepositoryModelLoad engineCtx { ModelName := "simple" }])
          ++ rest) ∧
      ∀ c ∈ rest, c.isLoad = false) :=
  ⟨lazy_load (Sample.service false none) Sample.ctx 1 7 9 [Sample.vecA, Sample.vecB]
      Sample.world "simple" 1 false 1 2 3 rfl rfl rfl,
   lazy_load (Sample.service true none) Sample.ctx 1 7 9 [Sample.vecA, Sample.vecB]
      Sample.world "simple" 1 true 1 2 3 rfl rfl rfl⟩

/-- C7, amended. End-to-end success: with a resolvable model and version, a ready model,
two input vectors of length 16 and an engine response carrying two 64-byte raw outputs,
`ProcessMessage` encodes the inputs with `Preprocess`, decodes the outputs with
`Postprocess`, formats them, and calls `SaveMessage` exactly once, as the last of its
five calls, with a `Message` holding the call's `UserID`, `ModelID`, `VersionID`, the two
buffers of `Preprocess` and the formatted strings; when that call succeeds it returns
those strings. -/
theorem process_message_end_to_end {σ : Type} (s : MessageService σ) (ctx : Context)
    (userID modelID versionID : Int) (v0 v1 : List Int) (w : World σ)
    (name : String) (ver : Int) (st1 st2 st3 st4 : σ) (o0 o1 : ByteBuf)
    (h0 : v0.length = 16) (h1 : v1.length = 16)
    (hN : s.Repo.GetModelName ctx modelID w.st = (.ok name, st1))
    (hV : s.Repo.GetVersionNumber ctx versionID st1 = (.ok ver, st2))
    (hR : s.triton.ModelReady engineCtx { Name := name, Version := Sprintd ver } st2
      = (.ok true, st3))
    (hI : s.triton.ModelInfer engineCtx
        (inferRequestOf name (Sprintd ver) (leBytes v0) (leBytes v1)) st3
      = (.ok { RawOutputContents := [o0, o1] }, st4))
    (c0 : o0.len = 64) (c1 : o1.len = 64) :
    ∃ b0 b1 d0 d1 results,
      Preprocess [v0, v1] = .ok [b0, b1] ∧ b0 = leBytes v0 ∧ b1 = leBytes v1 ∧
      Postprocess { RawOutputContents := [o0, o1] } = .ok [d0, d1] ∧
      formatResults [v0, v1] d0 d1 = .ok results ∧
      (ProcessMessage s ctx userID modelID versionID [v0, v1] w).2.trace =
        w.trace ++ [.GetModelName ctx modelID, .GetVersionNumber ctx versionID,
          .ModelReady engineCtx { Name := name, Version := Sprintd ver },
          .ModelInfer engineCtx (inferRequestOf name (Sprintd ver) b0 b1),
          .SaveMessage ctx
            { ID := 0, UserID := userID, ModelID := modelID, VersionID := versionID,
              Input1 := b0, Input2 := b1, Results := results, CreatedAt := s.Now st4 }] ∧
      ((s.Repo.SaveMessage ctx
            { ID := 0, UserID := userID, ModelID := modelID, VersionID := versionID,
              Input1 := b0, Input2 := b1, Results := results, CreatedAt := s.Now st4 }
            st4).1 = none →
        (ProcessMessage s ctx userID modelID versionID [v0, v1] w).1 = .ok (results, none)) := by
  have t0 : v0.take inputSize = v0 := List.take_of_length_le (by simp [inputSize, h0])
  have t1 : v1.take inputSize = v1 := List.take_of_length_le (by simp [inputSize, h1])
  have k0 : 64 ≤ o0.cap := by unfold ByteBuf.cap; unfold ByteBuf.len at c0; omega
  have k1 : 64 ≤ o1.cap := by unfold ByteBuf.cap; unfold ByteBuf.len at c1; omega
  have hrun := ProcessMessage_run s ctx userID modelID versionID v0 v1 [] w name ver true
    st1 st2 st3 st3 st4 o0 o1 [] (by omega) (by omega) hN hV hR (Or.inl ⟨rfl, rfl⟩)
    (by rw [t0, t1]; exact hI) k0 k1
  have hF := formatResults_ok v0 v1 (leWords o0) (leWords o1) []
    (by rw [length_leWords]; omega) (by rw [length_leWords]; omega)
    (by rw [length_leWords, length_leWords])
  rw [length_leWords] at hF
  refine ⟨leBytes v0, leBytes v1, leWords o0, leWords o1, resultsOf v0 v1 o0 o1, ?_, rfl, rfl,
    Postprocess_ok o0 o1 [] k0 k1, ?_, ?_, ?_⟩
  · rw [Preprocess_ok v0 v1 [] (by simp [inputSize, h0]) (by simp [inputSize, h1]), t0, t1]
  · rw [hF]; rfl
  · rw [hrun]
    simp [callsOf, messageOf, t0, t1]
  · intro hS
    rw [hrun]
    simp only [messageOf, t0, t1]
    rw [hS]

/-- C7 witness: a run of the sample service whose engine answers two 64-byte buffers. -/
theorem process_message_end_to_end_witness :
    (Sample.vecA.length = 16 ∧ Sample.vecB.length = 16 ∧
      (ByteBuf.ofBytes (List.replicate 64 7) []).len = 64 ∧
      (ByteBuf.ofBytes (List.replicate 64 255) [1, 2]).len = 64) ∧
    ∃ b0 b1 d0 d1 results,
      Preprocess [Sample.vecA, Sample.vecB] = .ok [b0, b1] ∧
      b0 = leBytes Sample.vecA ∧ b1 = leBytes Sample.vecB ∧
      Postprocess { RawOutputContents := [ByteBuf.ofBytes (List.replicate 64 7) [],
        ByteBuf.ofBytes (List.replicate 64 255) [1, 2]] } = .ok [d0, d1] ∧
      formatResults [Sample.vecA, Sample.vecB] d0 d1 = .ok results ∧
      (ProcessMessage (Sample.fixedService true none) Sample.ctx 1 7 9
          [Sample.vecA, Sample.vecB] Sample.world).2.trace =
        Sample.world.trace ++ [.GetModelName Sample.ctx 7, .GetVersionNumber Sample.ctx 9,
          .ModelReady engineCtx { Name := "simple", Version := Sprintd 1 },
          .ModelInfer engineCtx (inferRequestOf "simple" (Sprintd 1) b0 b1),
          .SaveMessage Sample.ctx
            { ID := 0, UserID := 1, ModelID := 7, VersionID := 9,
              Input1 := b0, Input2 := b1, Results := results,
              CreatedAt := (Sample.fixedService true none).Now 4 }] ∧
      (((Sample.fixedService true none).Repo.SaveMessage Sample.ctx
            { ID := 0, UserID := 1, ModelID := 7, VersionID := 9,
              Input1 := b0, Input2 := b1, Results := results,
              CreatedAt := (Sample.fixedService true none).Now 4 }
            4).1 = none →
        (ProcessMessage (Sample.fixedService true none) Sample.ctx 1 7 9
          [Sample.vecA, Sample.vecB] Sample.world).1 = .ok (results, none)) :=
  ⟨by decide, process_message_end_to_end (Sample.fixedService true none) Sample.ctx 1 7 9
    Sample.vecA Sample.vecB Sample.world "simple" 1 1 2 3 4
    (ByteBuf.ofBytes (List.replicate 64 7) []) (ByteBuf.ofBytes (List.replicate 64 255) [1, 2])
    (by decide) (by decide) rfl rfl rfl rfl (by decide) (by decide)⟩

/-- C8. If `SaveMessage` returns an error after a successful inference (the inputs were
encoded, the engine answered, the answer was decoded and formatted), `ProcessMessage`
returns an empty result list together with an error that carries the persistence
error's message; the formatted results are not returned. -/
theorem save_error_is_returned {σ : Type} (s : MessageService σ) (ctx : Context)
    (userID modelID versionID : Int) (inputs : List (List Int)) (w : World σ)
    (name : String) (ver : Int) (ready : Bool) (st1 st2 st3 st4 st5 st6 : σ)
    (b0 b1 : List Nat) (resp : Triton2.ModelInferResponse) (d0 d1 : List Int)
    (results : List String) (err : String)
    (hN : s.Repo.GetModelName ctx modelID w.st = (.ok name, st1))
    (hV : s.Repo.GetVersionNumber ctx versionID st1 = (.ok ver, st2))
    (hR : s.triton.ModelReady engineCtx { Name := name, Version := Sprintd ver } st2
      = (.ok ready, st3))
    (hL : (ready = true ∧ st4 = st3) ∨ (ready = false ∧
      s.triton.RepositoryModelLoad engineCtx { ModelName := name } st3 = (none, st4)))
    (hP : Preprocess inputs = .ok [b0, b1])
    (hI : s.triton.ModelInfer engineCtx (inferRequestOf name (Sprintd ver) b0 b1) st4
      = (.ok resp, st5))
    (hQ : Postprocess resp = .ok [d0, d1])
    (hF : formatResults inputs d0 d1 = .ok results)
    (hS : s.Repo.SaveMessage ctx
        { ID := 0, UserID := userID, ModelID := modelID, VersionID := versionID,
          Input1 := b0, Input2 := b1, Results := results, CreatedAt := s.Now st5 } st5
      = (some err, st6)) :
    (ProcessMessage s ctx userID modelID versionID inputs w).1 =
      .ok ([], some { code := .Internal, desc := "SendMessage: " ++ err }) := by
  unfold engineCtx inferRequestOf at *
  rcases hL with ⟨rfl, rfl⟩ | ⟨rfl, hL⟩
  · simp [ProcessMessage, inferAndSave, World.call, ModelReadyRequest, ModelInferRequest, hN, hV,
      hR, copyInputs_eq, hP, hI, hQ, hF, hS, index, Errorf]
  · simp [ProcessMessage, inferAndSave, World.call, ModelReadyRequest, ModelInferRequest,
      LoadModelRequest, hN, hV, hR, hL, copyInputs_eq, hP, hI, hQ, hF, hS, index, Errorf]

/-- C8 witness: a run of the sample service whose repository fails to save. -/
theorem save_error_is_returned_witness :
    (ProcessMessage (Sample.service false (some "db down")) Sample.ctx 1 7 9
        [Sample.vecA, Sample.vecB] Sample.world).1 =
      .ok ([], some { code := .Internal, desc := "SendMessage: " ++ "db down" }) :=
  save_error_is_returned (Sample.service false (some "db down")) Sample.ctx 1 7 9
    [Sample.vecA, Sample.vecB] Sample.world "simple" 1 false 1 2 3 4 5 6
    (leBytes Sample.vecA) (leBytes Sample.vecB)
    { RawOutputContents := [Sample.buf65, Sample.buf68] }
    (leWords Sample.buf65) (leWords Sample.buf68)
    (resultsOf Sample.vecA Sample.vecB Sample.buf65 Sample.buf68) "db down"
    rfl rfl rfl (Or.inr ⟨rfl, rfl⟩) (by decide) rfl (by decide) (by decide) rfl

/-- C9, as stated, fails: on a request whose first vector has 17 elements the call
succeeds, returning the strings obtained from the first 16 elements; and on a request
whose first vector has 3 elements it panics with an index out of range. -/
theorem length_mismatch_not_rejected :
    (Sample.vecA ++ [123]).length = 17 ∧
    (ProcessMessage (Sample.service true none) Sample.ctx 1 7 9
        [Sample.vecA ++ [123], Sample.vecB] Sample.world).1 =
      .ok (resultsOf Sample.vecA Sample.vecB Sample.buf65 Sample.buf68, none) ∧
    (Sample.vecA.take 3).length = 3 ∧
    (ProcessMessage (Sample.service true none) Sample.ctx 1 7 9
        [Sample.vecA.take 3, Sample.vecB] Sample.world).1 =
      .error (.indexOutOfRange 3 3) := by
  decide

/-- C9, amended. `ProcessMessage` does not validate the length of its input vectors:
a request whose two vectors have at least 16 elements is processed exactly as the
request made of the first 16 elements of each (same calls, same returned value, same
saved message), whatever the collaborators answer. -/
theorem long_vectors_are_truncated {σ : Type} (s : MessageService σ) (ctx : Context)
    (userID modelID versionID : Int) (v0 v1 : List Int)
    (h0 : 16 ≤ v0.length) (h1 : 16 ≤ v1.length) (w : World σ) :
    ProcessMessage s ctx userID modelID versionID [v0, v1] w =
      ProcessMessage s ctx userID modelID versionID [v0.take 16, v1.take 16] w :=
  ProcessMessage_take s ctx userID modelID versionID v0 v1 [] h0 h1 w

/-- C9 witness: a request with vectors of 17 and 18 elements. -/
theorem long_vectors_are_truncated_witness :
    (16 ≤ (Sample.vecA ++ [123]).length ∧ 16 ≤ (Sample.vecB ++ [4, 5]).length) ∧
    ProcessMessage (Sample.service true none) Sample.ctx 1 7 9
        [Sample.vecA ++ [123], Sample.vecB ++ [4, 5]] Sample.world =
      ProcessMessage (Sample.service true none) Sample.ctx 1 7 9
        [(Sample.vecA ++ [123]).take 16, (Sample.vecB ++ [4, 5]).take 16] Sample.world :=
  ⟨by decide, long_vectors_are_truncated (Sample.service true none) Sample.ctx 1 7 9
    (Sample.vecA ++ [123]) (Sample.vecB ++ [4, 5]) (by decide) (by decide) Sample.world⟩

/-- C10, as stated, fails: on a request whose first vector has 3 elements, with a model
that is not ready, the readiness query and the load call are issued before the call
panics; on a request whose first vector has 17 elements the infer call is issued too. -/
theorem engine_called_on_length_mismatch :
    (ProcessMessage (Sample.service false none) Sample.ctx 1 7 9
        [Sample.vecA.take 3, Sample.vecB] Sample.world).2.trace =
      [.GetModelName Sample.ctx 7, .GetVersionNumber Sample.ctx 9,
        .ModelReady engineCtx { Name := "simple", Version := "1" },
        .RepositoryModelLoad engineCtx { ModelName := "simple" }] ∧
    ((ProcessMessage (Sample.service false none) Sample.ctx 1 7 9
        [Sample.vecA ++ [123], Sample.vecB] Sample.world).2.trace.filter Call.isEngine).map
        Call.isInfer = [false, false, true] := by
  decide

/-- C10, amended. `ProcessMessage` contacts the engine before it looks at the input
vectors: for every request, whatever the lengths of its input vectors, once the model
name and the version number are resolved the next call is the readiness query, and
when that query answers `false` the load call follows it. -/
theorem readiness_query_precedes_inputs {σ : Type} (s : MessageService σ) (ctx : Context)
    (userID modelID versionID : Int) (inputs : List (List Int)) (w : World σ)
    (name : String) (ver : Int) (st1 st2 : σ)
    (hN : s.Repo.GetModelName ctx modelID w.st = (.ok name, st1))
    (hV : s.Repo.GetVersionNumber ctx versionID st1 = (.ok ver, st2)) :
    ∃ rest, (ProcessMessage s ctx userID modelID versionID inputs w).2.trace =
        w.trace ++ ([.GetModelName ctx modelID, .GetVersionNumber ctx versionID,
          .ModelReady engineCtx { Name := name, Version := Sprintd ver }] ++ rest) ∧
      (∀ st3, s.triton.ModelReady engineCtx { Name := name, Version := Sprintd ver } st2
          = (.ok false, st3) →
        ∃ rest2, rest = .RepositoryModelLoad engineCtx { ModelName := name } :: rest2) := by
  cases hR : s.triton.ModelReady engineCtx { Name := name, Version := Sprintd ver } st2 with
  | mk r st3 =>
    cases r with
    | error err =>
      refine ⟨[], ?_, ?_⟩
      · unfold engineCtx at hR
        simp [ProcessMessage, World.call, ModelReadyRequest, hN, hV, hR, engineCtx]
      · intro st3x h; simp at h
    | ok ready =>
      obtain ⟨rest, h1, _⟩ := ProcessMessage_calls s ctx userID modelID versionID inputs w name
        ver ready st1 st2 st3 hN hV hR
      refine ⟨(if ready then [] else [.RepositoryModelLoad engineCtx { ModelName := name }])
        ++ rest, ?_, ?_⟩
      · rw [h1]; simp
      · intro st3x h
        simp only [Prod.mk.injEq, Except.ok.injEq] at h
        obtain ⟨rfl, _⟩ := h
        exact ⟨rest, by simp⟩

/-- C10 witness: a request whose first vector has 3 elements, model not ready. -/
theorem readiness_query_precedes_inputs_witness :
    ∃ rest, (ProcessMessage (Sample.service false none) Sample.ctx 1 7 9
        [Sample.vecA.take 3, Sample.vecB] Sample.world).2.trace =
        Sample.world.trace ++ ([.GetModelName Sample.ctx 7, .GetVersionNumber Sample.ctx 9,
          .ModelReady engineCtx { Name := "simple", Version := Sprintd 1 }] ++ rest) ∧
      (∀ st3, (Sample.service false none).triton.ModelReady engineCtx
          { Name := "simple", Version := Sprintd 1 } 2 = (.ok false, st3) →
        ∃ rest2, rest = .RepositoryModelLoad engineCtx { ModelName := "simple" } :: rest2) :=
  readiness_query_precedes_inputs (Sample.service false none) Sample.ctx 1 7 9
    [Sample.vecA.take 3, Sample.vecB] Sample.world "simple" 1 1 2 rfl rfl

end Service

namespace Service

open Go Env Status Triton

/-! ### Failures of the engine and of the lookups -/

theorem ModelInferRequest_two {σ : Type} (client : GRPCInferenceServiceClient σ)
    (b0 b1 : List Nat) (modelName modelVersion : String) (w : World σ) :
    ModelInferRequest client [b0, b1] modelName modelVersion w =
      match client.ModelInfer engineCtx (inferRequestOf modelName modelVersion b0 b1) w.st with
      | (.error err, st) =>
        (.error (.fatal ("Error processing InferRequest: " ++ err)),
          { st := st, trace := w.trace ++
            [.ModelInfer engineCtx (inferRequestOf modelName modelVersion b0 b1)] })
      | (.ok resp, st) =>
        (.ok resp, { st := st, trace := w.trace ++
            [.ModelInfer engineCtx (inferRequestOf modelName modelVersion b0 b1)] }) := by
  simp only [ModelInferRequest, index, List.getElem?_cons_zero, List.getElem?_cons_succ,
    World.call, engineCtx, inferRequestOf, List.nil_append, List.singleton_append]
  cases client.ModelInfer (Context.WithTimeout Context.Background 10)
      { ModelName := modelName, ModelVersion := modelVersion,
        Inputs := [{ Name := "INPUT0", Datatype := "INT32", Shape := [1, 16] },
                   { Name := "INPUT1", Datatype := "INT32", Shape := [1, 16] }],
        Outputs := [{ Name := "OUTPUT0" }, { Name := "OUTPUT1" }],
        RawInputContents := [b0, b1] } w.st with
  | mk r st => cases r <;> rfl

theorem inferAndSave_infer_call {σ : Type} (s : MessageService σ) (ctx : Context)
    (userID modelID versionID : Int) (inputs : List (List Int))
    (modelName : String) (versionNumber : Int) (w4 : World σ) (b0 b1 : List Nat)
    (hP : Preprocess inputs = .ok [b0, b1]) :
    ∃ rest, (inferAndSave s ctx userID modelID versionID inputs modelName versionNumber w4).2.trace
        = w4.trace ++ (.ModelInfer engineCtx
            (inferRequestOf modelName (Sprintd versionNumber) b0 b1) :: rest) ∧
      (rest = [] ∨ ∃ msg, rest = [.SaveMessage ctx msg]) := by
  simp only [inferAndSave, copyInputs_eq, hP, ModelInferRequest_two]
  cases hI : s.triton.ModelInfer engineCtx
      (inferRequestOf modelName (Sprintd versionNumber) b0 b1) w4.st with
  | mk r st =>
    cases r with
    | error err => exact ⟨[], rfl, Or.inl rfl⟩
    | ok resp =>
      simp only []
      cases hQ : Postprocess resp with
      | error e => exact ⟨[], rfl, Or.inl rfl⟩
      | ok outputs =>
        simp only []
        cases hA : index outputs 0 with
        | error e => exact ⟨[], rfl, Or.inl rfl⟩
        | ok outputData0 =>
          simp only []
          cases hB : index outputs 1 with
          | error e => exact ⟨[], rfl, Or.inl rfl⟩
          | ok outputData1 =>
            simp only []
            cases hF : formatResults inputs outputData0 outputData1 with
            | error e => exact ⟨[], rfl, Or.inl rfl⟩
            | ok resultsStr =>
              have e0 : index [b0, b1] 0 = .ok b0 := by simp [index]
              have e1 : index [b0, b1] 1 = .ok b1 := by simp [index]
              simp only [e0, e1, World.call]
              cases hS : s.Repo.SaveMessage ctx
                  { ID := 0, UserID := userID, ModelID := modelID, VersionID := versionID,
                    Input1 := b0, Input2 := b1, Results := resultsStr,
                    CreatedAt := s.Now st } st with
              | mk r st6 =>
                cases r with
                | none =>
                  exact ⟨[.SaveMessage ctx
                    { ID := 0, UserID := userID, ModelID := modelID, VersionID := versionID,
                      Input1 := b0, Input2 := b1, Results := resultsStr,
                      CreatedAt := s.Now st }], by simp, Or.inr ⟨_, rfl⟩⟩
                | some err =>
                  exact ⟨[.SaveMessage ctx
                    { ID := 0, UserID := userID, ModelID := modelID, VersionID := versionID,
                      Input1 := b0, Input2 := b1, Results := resultsStr,
                      CreatedAt := s.Now st }], by simp, Or.inr ⟨_, rfl⟩⟩

theorem ProcessMessage_infer_fatal {σ : Type} (s : MessageService σ) (ctx : Context)
    (userID modelID versionID : Int) (inputs : List (List Int)) (w : World σ)
    (name : String) (ver : Int) (ready : Bool) (st1 st2 st3 st4 st5 : σ)
    (b0 b1 : List Nat) (err : String)
    (hN : s.Repo.GetModelName ctx modelID w.st = (.ok name, st1))
    (hV : s.Repo.GetVersionNumber ctx versionID st1 = (.ok ver, st2))
    (hR : s.triton.ModelReady engineCtx { Name := name, Version := Sprintd ver } st2
      = (.ok ready, st3))
    (hL : (ready = true ∧ st4 = st3) ∨ (ready = false ∧
      s.triton.RepositoryModelLoad engineCtx { ModelName := name } st3 = (none, st4)))
    (hP : Preprocess inputs = .ok [b0, b1])
    (hI : s.triton.ModelInfer engineCtx (inferRequestOf name (Sprintd ver) b0 b1) st4
      = (.error err, st5)) :
    ProcessMessage s ctx userID modelID versionID inputs w =
      (.error (.fatal ("Error processing InferRequest: " ++ err)),
        { st := st5,
          trace := w.trace ++ ([.GetModelName ctx modelID, .GetVersionNumber ctx versionID,
            .ModelReady engineCtx { Name := name, Version := Sprintd ver }] ++
            (if ready then [] else [.RepositoryModelLoad engineCtx { ModelName := name }]) ++
            [.ModelInfer engineCtx (inferRequestOf name (Sprintd ver) b0 b1)]) }) := by
  rcases hL with ⟨rfl, rfl⟩ | ⟨rfl, hL⟩
  · unfold engineCtx at hR
    simp [ProcessMessage, inferAndSave, World.call, ModelReadyRequest, hN, hV, hR,
      copyInputs_eq, hP, ModelInferRequest_two, hI]
    simp [engineCtx]
  · unfold engineCtx at hR hL
    simp [ProcessMessage, inferAndSave, World.call, ModelReadyRequest, LoadModelRequest, hN, hV,
      hR, hL, copyInputs_eq, hP, ModelInferRequest_two, hI]
    simp [engineCtx]

/-- C11, on the code: when the engine's infer call fails at the transport level,
`ProcessMessage` does not return to its caller: `ModelInferRequest` ends the process
with `log.Fatalf`. No `SaveMessage` call is made (the infer call is the last call). -/
theorem infer_failure_exits_process {σ : Type} (s : MessageService σ) (ctx : Context)
    (userID modelID versionID : Int) (inputs : List (List Int)) (w : World σ)
    (name : String) (ver : Int) (ready : Bool) (st1 st2 st3 st4 st5 : σ)
    (b0 b1 : List Nat) (err : String)
    (hN : s.Repo.GetModelName ctx modelID w.st = (.ok name, st1))
    (hV : s.Repo.GetVersionNumber ctx versionID st1 = (.ok ver, st2))
    (hR : s.triton.ModelReady engineCtx { Name := name, Version := Sprintd ver } st2
      = (.ok ready, st3))
    (hL : (ready = true ∧ st4 = st3) ∨ (ready = false ∧
      s.triton.RepositoryModelLoad engineCtx { ModelName := name } st3 = (none, st4)))
    (hP : Preprocess inputs = .ok [b0, b1])
    (hI : s.triton.ModelInfer engineCtx (inferRequestOf name (Sprintd ver) b0 b1) st4
      = (.error err, st5)) :
    (ProcessMessage s ctx userID modelID versionID inputs w).1 =
      .error (.fatal ("Error processing InferRequest: " ++ err)) ∧
    (∀ r, (ProcessMessage s ctx userID modelID versionID inputs w).1 ≠ .ok r) ∧
    (ProcessMessage s ctx userID modelID versionID inputs w).2.trace =
      w.trace ++ ([.GetModelName ctx modelID, .GetVersionNumber ctx versionID,
        .ModelReady engineCtx { Name := name, Version := Sprintd ver }] ++
        (if ready then [] else [.RepositoryModelLoad engineCtx { ModelName := name }]) ++
        [.ModelInfer engineCtx (inferRequestOf name (Sprintd ver) b0 b1)]) := by
  rw [ProcessMessage_infer_fatal s ctx userID modelID versionID inputs w name ver ready
    st1 st2 st3 st4 st5 b0 b1 err hN hV hR hL hP hI]
  exact ⟨rfl, fun r h => by simp at h, rfl⟩

/-- C11 evaluation: a run of the sample service whose infer call fails. -/
theorem infer_failure_exits_process_witness :
    (ProcessMessage Sample.inferFailingService Sample.ctx 1 7 9
        [Sample.vecA, Sample.vecB] Sample.world).1 =
      .error (.fatal ("Error processing InferRequest: " ++
        "rpc error: code = Unavailable desc = connection refused")) ∧
    (∀ r, (ProcessMessage Sample.inferFailingService Sample.ctx 1 7 9
        [Sample.vecA, Sample.vecB] Sample.world).1 ≠ .ok r) ∧
    (ProcessMessage Sample.inferFailingService Sample.ctx 1 7 9
        [Sample.vecA, Sample.vecB] Sample.world).2.trace =
      Sample.world.trace ++ ([.GetModelName Sample.ctx 7, .GetVersionNumber Sample.ctx 9,
        .ModelReady engineCtx { Name := "simple", Version := Sprintd 1 }] ++
        (if true then [] else [.RepositoryModelLoad engineCtx { ModelName := "simple" }]) ++
        [.ModelInfer engineCtx (inferRequestOf "simple" (Sprintd 1)
          (leBytes Sample.vecA) (leBytes Sample.vecB))]) :=
  infer_failure_exits_process Sample.inferFailingService Sample.ctx 1 7 9
    [Sample.vecA, Sample.vecB] Sample.world "simple" 1 true 1 2 3 3 4
    (leBytes Sample.vecA) (leBytes Sample.vecB)
    "rpc error: code = Unavailable desc = connection refused"
    rfl rfl rfl (Or.inl ⟨rfl, rfl⟩) (by decide) rfl

/-- C12. If the readiness query errors, or it answers `false` and the load call errors,
`ProcessMessage` returns an empty result list and an error carrying that error's
message; its calls are the two lookups, the readiness query and, in the second case,
the one load call: no infer call, no `SaveMessage` call, no repeated call. -/
theorem lifecycle_error_is_returned {σ : Type} (s : MessageService σ) (ctx : Context)
    (userID modelID versionID : Int) (inputs : List (List Int)) (w : World σ)
    (name : String) (ver : Int) (st1 st2 st3 st4 : σ) (err : String)
    (hN : s.Repo.GetModelName ctx modelID w.st = (.ok name, st1))
    (hV : s.Repo.GetVersionNumber ctx versionID st1 = (.ok ver, st2))
    (h : s.triton.ModelReady engineCtx { Name := name, Version := Sprintd ver } st2
          = (.error err, st3) ∨
        (s.triton.ModelReady engineCtx { Name := name, Version := Sprintd ver } st2
          = (.ok false, st3) ∧
         s.triton.RepositoryModelLoad engineCtx { ModelName := name } st3 = (some err, st4))) :
    (ProcessMessage s ctx userID modelID versionID inputs w).1 =
      .ok ([], some { code := .Internal, desc := "SendMessage: " ++ err }) ∧
    ((s.triton.ModelReady engineCtx { Name := name, Version := Sprintd ver } st2
          = (.error err, st3) ∧
      (ProcessMessage s ctx userID modelID versionID inputs w).2.trace =
        w.trace ++ [.GetModelName ctx modelID, .GetVersionNumber ctx versionID,
          .ModelReady engineCtx { Name := name, Version := Sprintd ver }]) ∨
     (s.triton.ModelReady engineCtx { Name := name, Version := Sprintd ver } st2
          = (.ok false, st3) ∧
      (ProcessMessage s ctx userID modelID versionID inputs w).2.trace =
        w.trace ++ [.GetModelName ctx modelID, .GetVersionNumber ctx versionID,
          .ModelReady engineCtx { Name := name, Version := Sprintd ver },
          .RepositoryModelLoad engineCtx { ModelName := name }])) := by
  rcases h with hR | ⟨hR, hL⟩
  · refine ⟨?_, Or.inl ⟨hR, ?_⟩⟩
    · unfold engineCtx at hR
      simp [ProcessMessage, World.call, ModelReadyRequest, hN, hV, hR, Errorf]
    · unfold engineCtx at hR
      simp [ProcessMessage, World.call, ModelReadyRequest, hN, hV, hR, engineCtx]
  · refine ⟨?_, Or.inr ⟨hR, ?_⟩⟩
    · unfold engineCtx at hR hL
      simp [ProcessMessage, World.call, ModelReadyRequest, LoadModelRequest, hN, hV, hR, hL,
        Errorf]
    · unfold engineCtx at hR hL
      simp [ProcessMessage, World.call, ModelReadyRequest, LoadModelRequest, hN, hV, hR, hL,
        engineCtx]

/-- C12 witness: a run whose readiness query answers `false` and whose load call fails. -/
theorem lifecycle_error_is_returned_witness :
    (ProcessMessage (Sample.loadFailingService (.ok false)) Sample.ctx 1 7 9
        [Sample.vecA, Sample.vecB] Sample.world).1 =
      .ok ([], some { code := .Internal, desc := "SendMessage: " ++ "load failed" }) ∧
    (((Sample.loadFailingService (.ok false)).triton.ModelReady engineCtx
          { Name := "simple", Version := Sprintd 1 } 2 = (.error "load failed", 3) ∧
      (ProcessMessage (Sample.loadFailingService (.ok false)) Sample.ctx 1 7 9
          [Sample.vecA, Sample.vecB] Sample.world).2.trace =
        Sample.world.trace ++ [.GetModelName Sample.ctx 7, .GetVersionNumber Sample.ctx 9,
          .ModelReady engineCtx { Name := "simple", Version := Sprintd 1 }]) ∨
     ((Sample.loadFailingService (.ok false)).triton.ModelReady engineCtx
          { Name := "simple", Version := Sprintd 1 } 2 = (.ok false, 3) ∧
      (ProcessMessage (Sample.loadFailingService (.ok false)) Sample.ctx 1 7 9
          [Sample.vecA, Sample.vecB] Sample.world).2.trace =
        Sample.world.trace ++ [.GetModelName Sample.ctx 7, .GetVersionNumber Sample.ctx 9,
          .ModelReady engineCtx { Name := "simple", Version := Sprintd 1 },
          .RepositoryModelLoad engineCtx { ModelName := "simple" }])) :=
  lifecycle_error_is_returned (Sample.loadFailingService (.ok false)) Sample.ctx 1 7 9
    [Sample.vecA, Sample.vecB] Sample.world "simple" 1 1 2 3 4 "load failed" rfl rfl
    (Or.inr ⟨rfl, rfl⟩)

/-- C13. If resolving the model name fails, or the model name is resolved and resolving
the version number fails, `ProcessMessage` returns an empty result list and an error
carrying the store's error message; its only calls are `GetModelName` and, in the second
case, `GetVersionNumber`: no engine call, no `SaveMessage` call, and the version number
is not looked up when the model name lookup fails. -/
theorem lookup_error_is_returned {σ : Type} (s : MessageService σ) (ctx : Context)
    (userID modelID versionID : Int) (inputs : List (List Int)) (w : World σ)
    (name : String) (st1 st2 : σ) (err : String)
    (h : s.Repo.GetModelName ctx modelID w.st = (.error err, st1) ∨
        (s.Repo.GetModelName ctx modelID w.st = (.ok name, st1) ∧
         s.Repo.GetVersionNumber ctx versionID st1 = (.error err, st2))) :
    (ProcessMessage s ctx userID modelID versionID inputs w).1 =
      .ok ([], some { code := .Internal, desc := "SendMessage: " ++ err }) ∧
    ((s.Repo.GetModelName ctx modelID w.st = (.error err, st1) ∧
      (ProcessMessage s ctx userID modelID versionID inputs w).2.trace =
        w.trace ++ [.GetModelName ctx modelID]) ∨
     (s.Repo.GetModelName ctx modelID w.st = (.ok name, st1) ∧
      (ProcessMessage s ctx userID modelID versionID inputs w).2.trace =
        w.trace ++ [.GetModelName ctx modelID, .GetVersionNumber ctx versionID])) := by
  rcases h with hN | ⟨hN, hV⟩
  · refine ⟨?_, Or.inl ⟨hN, ?_⟩⟩
    · simp [ProcessMessage, World.call, hN, Errorf]
    · simp [ProcessMessage, World.call, hN]
  · refine ⟨?_, Or.inr ⟨hN, ?_⟩⟩
    · simp [ProcessMessage, World.call, hN, hV, Errorf]
    · simp [ProcessMessage, World.call, hN, hV]

/-- C13 witness: a run whose model name lookup fails, and a run whose version number
lookup fails. -/
theorem lookup_error_is_returned_witness :
    ((ProcessMessage (Sample.lookupService (.error "no rows") (.ok 1)) Sample.ctx 1 7 9
        [Sample.vecA, Sample.vecB] Sample.world).1 =
      .ok ([], some { code := .Internal, desc := "SendMessage: " ++ "no rows" }) ∧
     (ProcessMessage (Sample.lookupService (.error "no rows") (.ok 1)) Sample.ctx 1 7 9
        [Sample.vecA, Sample.vecB] Sample.world).2.trace = [.GetModelName Sample.ctx 7]) ∧
    ((ProcessMessage (Sample.lookupService (.ok "simple") (.error "no rows")) Sample.ctx 1 7 9
        [Sample.vecA, Sample.vecB] Sample.world).1 =
      .ok ([], some { code := .Internal, desc := "SendMessage: " ++ "no rows" }) ∧
     (ProcessMessage (Sample.lookupService (.ok "simple") (.error "no rows")) Sample.ctx 1 7 9
        [Sample.vecA, Sample.vecB] Sample.world).2.trace =
      [.GetModelName Sample.ctx 7, .GetVersionNumber Sample.ctx 9]) := by
  have a := lookup_error_is_returned (Sample.lookupService (.error "no rows") (.ok 1))
    Sample.ctx 1 7 9 [Sample.vecA, Sample.vecB] Sample.world "simple" 1 2 "no rows"
    (Or.inl rfl)
  have b := lookup_error_is_returned (Sample.lookupService (.ok "simple") (.error "no rows"))
    Sample.ctx 1 7 9 [Sample.vecA, Sample.vecB] Sample.world "simple" 1 2 "no rows"
    (Or.inr ⟨rfl, rfl⟩)
  exact ⟨⟨a.1, by decide⟩, ⟨b.1, by decide⟩⟩

/-! ### The infer request and the contexts of the calls -/

theorem ProcessMessage_calls_ctx {σ : Type} (s : MessageService σ) (ctx : Context)
    (userID modelID versionID : Int) (inputs : List (List Int)) (w : World σ) :
    ∃ calls, (ProcessMessage s ctx userID modelID versionID inputs w).2.trace =
        w.trace ++ calls ∧
      ∀ c ∈ calls, (c.isEngine = true → c.ctx = engineCtx) ∧
        (c.isEngine = false → c.ctx = ctx) := by
  cases hN : s.Repo.GetModelName ctx modelID w.st with
  | mk rN st1 =>
    cases rN with
    | error err =>
      refine ⟨[.GetModelName ctx modelID], by simp [ProcessMessage, World.call, hN], ?_⟩
      intro c hc; simp at hc; subst hc; simp [Call.isEngine, Call.ctx]
    | ok name =>
      cases hV : s.Repo.GetVersionNumber ctx versionID st1 with
      | mk rV st2 =>
        cases rV with
        | error err =>
          refine ⟨[.GetModelName ctx modelID, .GetVersionNumber ctx versionID],
            by simp [ProcessMessage, World.call, hN, hV], ?_⟩
          intro c hc; simp at hc
          rcases hc with rfl | rfl <;> simp [Call.isEngine, Call.ctx]
        | ok ver =>
          cases hR : s.triton.ModelReady engineCtx
              { Name := name, Version := Sprintd ver } st2 with
          | mk rR st3 =>
            cases rR with
            | error err =>
              refine ⟨[.GetModelName ctx modelID, .GetVersionNumber ctx versionID,
                .ModelReady engineCtx { Name := name, Version := Sprintd ver }], ?_, ?_⟩
              · unfold engineCtx at hR
                simp [ProcessMessage, World.call, ModelReadyRequest, hN, hV, hR, engineCtx]
              · intro c hc; simp at hc
                rcases hc with rfl | rfl | rfl <;> simp [Call.isEngine, Call.ctx]
            | ok ready =>
              obtain ⟨rest, h1, h2⟩ := ProcessMessage_calls s ctx userID modelID versionID
                inputs w name ver ready st1 st2 st3 hN hV hR
              refine ⟨_, h1, ?_⟩
              intro c hc
              simp only [List.mem_append, List.mem_cons, List.mem_singleton,
                List.not_mem_nil, or_false] at hc
              rcases hc with (((rfl | rfl | rfl) | hc) | hc)
              · simp [Call.isEngine, Call.ctx]
              · simp [Call.isEngine, Call.ctx]
              · simp [Call.isEngine, Call.ctx]
              · cases ready with
                | true => simp at hc
                | false =>
                  simp at hc; subst hc; simp [Call.isEngine, Call.ctx]
              · rcases h2 with rfl | ⟨req, rfl⟩ | ⟨req, msg, rfl⟩
                · simp at hc
                · simp at hc; subst hc; simp [Call.isEngine, Call.ctx]
                · simp at hc
                  rcases hc with rfl | rfl <;> simp [Call.isEngine, Call.ctx]

/-- C17. In a run of `ProcessMessage` that reaches the infer call (lookups resolved,
readiness answered, load succeeded when it was needed, inputs encoded as `[b0, b1]`), the
infer request names the resolved model and the decimal rendering of the resolved
version number, the same name and version string as the readiness query; it declares
the two inputs `INPUT0`, `INPUT1` (datatype `INT32`, shape `[1, 16]`), requests the two
outputs `OUTPUT0`, `OUTPUT1`, and carries the raw contents `[b0, b1]`, all in that order. -/
theorem infer_request_contract {σ : Type} (s : MessageService σ) (ctx : Context)
    (userID modelID versionID : Int) (inputs : List (List Int)) (w : World σ)
    (name : String) (ver : Int) (ready : Bool) (st1 st2 st3 st4 : σ) (b0 b1 : List Nat)
    (hN : s.Repo.GetModelName ctx modelID w.st = (.ok name, st1))
    (hV : s.Repo.GetVersionNumber ctx versionID st1 = (.ok ver, st2))
    (hR : s.triton.ModelReady engineCtx { Name := name, Version := Sprintd ver } st2
      = (.ok ready, st3))
    (hL : (ready = true ∧ st4 = st3) ∨ (ready = false ∧
      s.triton.RepositoryModelLoad engineCtx { ModelName := name } st3 = (none, st4)))
    (hP : Preprocess inputs = .ok [b0, b1]) :
    ∃ rest, (ProcessMessage s ctx userID modelID versionID inputs w).2.trace =
        w.trace ++ ([.GetModelName ctx modelID, .GetVersionNumber ctx versionID,
          .ModelReady engineCtx { Name := name, Version := Sprintd ver }] ++
          (if ready then [] else [.RepositoryModelLoad engineCtx { ModelName := name }]) ++
          [.ModelInfer engineCtx
            { ModelName := name, ModelVersion := Sprintd ver,
              Inputs := [{ Name := "INPUT0", Datatype := "INT32", Shape := [1, 16] },
                         { Name := "INPUT1", Datatype := "INT32", Shape := [1, 16] }],
              Outputs := [{ Name := "OUTPUT0" }, { Name := "OUTPUT1" }],
              RawInputContents := [b0, b1] }] ++ rest) ∧
      ∀ c ∈ rest, c.isInfer = false := by
  rcases hL with ⟨rfl, rfl⟩ | ⟨rfl, hL⟩
  · obtain ⟨rest, h1, h2⟩ := inferAndSave_infer_call s ctx userID modelID versionID inputs
      name ver
      { st := st4, trace := w.trace ++ [.GetModelName ctx modelID] ++
          [.GetVersionNumber ctx versionID] ++
          [.ModelReady engineCtx { Name := name, Version := Sprintd ver }] } b0 b1 hP
    refine ⟨rest, ?_, ?_⟩
    · unfold engineCtx at hR
      simp only [ProcessMessage, World.call, ModelReadyRequest, hN, hV, hR, Bool.not_true,
        Bool.false_eq_true, if_false, if_true]
      unfold engineCtx at h1
      rw [h1]; simp [engineCtx, inferRequestOf]
    · rcases h2 with rfl | ⟨msg, rfl⟩ <;> simp [Call.isInfer]
  · obtain ⟨rest, h1, h2⟩ := inferAndSave_infer_call s ctx userID modelID versionID inputs
      name ver
      { st := st4, trace := w.trace ++ [.GetModelName ctx modelID] ++
          [.GetVersionNumber ctx versionID] ++
          [.ModelReady engineCtx { Name := name, Version := Sprintd ver }] ++
          [.RepositoryModelLoad engineCtx { ModelName := name }] } b0 b1 hP
    refine ⟨rest, ?_, ?_⟩
    · unfold engineCtx at hR hL
      simp only [ProcessMessage, World.call, ModelReadyRequest, LoadModelRequest, hN, hV, hR, hL,
        Bool.not_false, if_true, Bool.false_eq_true, if_false]
      unfold engineCtx at h1
      rw [h1]; simp [engineCtx, inferRequestOf]
    · rcases h2 with rfl | ⟨msg, rfl⟩ <;> simp [Call.isInfer]

/-- C17 witness: a run of the sample service with a model that is not ready. -/
theorem infer_request_contract_witness :
    ∃ rest, (ProcessMessage (Sample.service false none) Sample.ctx 1 7 9
        [Sample.vecA, Sample.vecB] Sample.world).2.trace =
        Sample.world.trace ++ ([.GetModelName Sample.ctx 7, .GetVersionNumber Sample.ctx 9,
          .ModelReady engineCtx { Name := "simple", Version := Sprintd 1 }] ++
          (if false then [] else [.RepositoryModelLoad engineCtx { ModelName := "simple" }]) ++
          [.ModelInfer engineCtx
            { ModelName := "simple", ModelVersion := Sprintd 1,
              Inputs := [{ Name := "INPUT0", Datatype := "INT32", Shape := [1, 16] },
                         { Name := "INPUT1", Datatype := "INT32", Shape := [1, 16] }],
              Outputs := [{ Name := "OUTPUT0" }, { Name := "OUTPUT1" }],
              RawInputContents := [leBytes Sample.vecA, leBytes Sample.vecB] }] ++ rest) ∧
      ∀ c ∈ rest, c.isInfer = false :=
  infer_request_contract (Sample.service false none) Sample.ctx 1 7 9
    [Sample.vecA, Sample.vecB] Sample.world "simple" 1 false 1 2 3 4
    (leBytes Sample.vecA) (leBytes Sample.vecB) rfl rfl rfl (Or.inr ⟨rfl, rfl⟩) (by decide)

/-- C18, as stated, fails: with a caller context that is already cancelled and
collaborators that honour the context they are given, the readiness query, the load
call and the infer call are issued under contexts that are not cancelled, they succeed,
and the `SaveMessage` call is made (under the cancelled context, so it fails). -/
theorem engine_calls_ignore_cancelled_caller :
    Sample.cancelledCtx.cancelled = true ∧
    (ProcessMessage Sample.ctxAwareService Sample.cancelledCtx 1 7 9
        [Sample.vecA, Sample.vecB] Sample.world).2.trace.map
        (fun c => (c.isEngine, c.isSave, c.ctx.cancelled)) =
      [(false, false, true), (false, false, true), (true, false, false), (true, false, false),
        (true, false, false), (false, true, true)] ∧
    (ProcessMessage Sample.ctxAwareService Sample.cancelledCtx 1 7 9
        [Sample.vecA, Sample.vecB] Sample.world).1 =
      .ok ([], some { code := .Internal, desc := "SendMessage: context canceled" }) := by
  decide

/-- C18, amended. Every engine-facing call made by `ProcessMessage` (readiness query,
load, infer) runs under `context.WithTimeout(context.Background(), 10*time.Second)`,
which is not cancelled whatever the caller's context is; the caller's context is
passed to the repository calls only. -/
theorem engine_calls_use_background_context {σ : Type} (s : MessageService σ) (ctx : Context)
    (userID modelID versionID : Int) (inputs : List (List Int)) (w : World σ) :
    ∃ calls, (ProcessMessage s ctx userID modelID versionID inputs w).2.trace =
        w.trace ++ calls ∧
      ∀ c ∈ calls,
        (c.isEngine = true →
          c.ctx = Context.WithTimeout Context.Background 10 ∧ c.ctx.cancelled = false) ∧
        (c.isEngine = false → c.ctx = ctx) := by
  obtain ⟨calls, h1, h2⟩ := ProcessMessage_calls_ctx s ctx userID modelID versionID inputs w
  refine ⟨calls, h1, ?_⟩
  intro c hc
  refine ⟨fun he => ?_, (h2 c hc).2⟩
  have := (h2 c hc).1 he
  rw [this]
  exact ⟨rfl, rfl⟩

/-! ### Deleting a model -/

theorem DeleteModel_ready {σ : Type} (s : ModelService σ) (ctx : Context)
    (model m : Models.Model) (w : World σ) (ready : Bool) (st1 st2 : σ)
    (hG : s.Repo.GetModel ctx model w.st = (.ok (some m), st1))
    (hR : s.TritonClient.ModelReady engineCtx { Name := m.Name, Version := "" } st1
      = (.ok ready, st2)) :
    DeleteModel s ctx model w =
      match (if ready then UnloadModelRequest s.TritonClient m.Name
          { st := st2, trace := w.trace ++ [.GetModel ctx model,
              .ModelReady engineCtx { Name := m.Name, Version := "" }] }
        else (none, { st := st2, trace := w.trace ++ [.GetModel ctx model,
              .ModelReady engineCtx { Name := m.Name, Version := "" }] })) with
      | (some err, w3) => (.ok (false, some err), w3)
      | (none, w3) =>
        (.ok (s.Repo.DeleteModel ctx model w3.st).1,
          { st := (s.Repo.DeleteModel ctx model w3.st).2,
            trace := w3.trace ++ [.DeleteModel ctx model] }) := by
  unfold engineCtx at hR
  simp [DeleteModel, World.call, ModelReadyRequest, hG, hR, engineCtx]

/-- C14. Once the model is found and the readiness query for its name has answered
`ready`, `ModelService.DeleteModel` issues the unload call for that name exactly when
`ready` is true, and the repository's `DeleteModel`, when it is called, comes after it;
it is called whenever `ready` is false, and whenever the unload call succeeds. -/
theorem delete_model_unloads_when_ready {σ : Type} (s : ModelService σ) (ctx : Context)
    (model m : Models.Model) (w : World σ) (ready : Bool) (st1 st2 : σ)
    (hG : s.Repo.GetModel ctx model w.st = (.ok (some m), st1))
    (hR : s.TritonClient.ModelReady engineCtx { Name := m.Name, Version := "" } st1
      = (.ok ready, st2)) :
    ∃ rest, (DeleteModel s ctx model w).2.trace =
        w.trace ++ ([.GetModel ctx model,
          .ModelReady engineCtx { Name := m.Name, Version := "" }] ++
          (if ready then [.RepositoryModelUnload engineCtx { ModelName := m.Name }] else [])
          ++ rest) ∧
      (rest = [] ∨ rest = [.DeleteModel ctx model]) ∧
      (ready = false → rest = [.DeleteModel ctx model]) ∧
      (∀ st3, s.TritonClient.RepositoryModelUnload engineCtx { ModelName := m.Name } st2
          = (none, st3) → rest = [.DeleteModel ctx model]) := by
  rw [DeleteModel_ready s ctx model m w ready st1 st2 hG hR]
  cases ready with
  | false =>
    refine ⟨[.DeleteModel ctx model], by simp, Or.inr rfl, fun _ => rfl, fun _ _ => rfl⟩
  | true =>
    simp only [if_true, UnloadModelRequest, World.call]
    cases hU : s.TritonClient.RepositoryModelUnload (Context.WithTimeout Context.Background 10)
        { ModelName := m.Name } st2 with
    | mk r st3 =>
      cases r with
      | none =>
        refine ⟨[.DeleteModel ctx model], by simp [engineCtx], Or.inr rfl,
          fun _ => rfl, fun _ _ => rfl⟩
      | some err =>
        refine ⟨[], by simp [engineCtx], Or.inl rfl, fun h => by simp at h, ?_⟩
        intro st3x h
        unfold engineCtx at h
        rw [hU] at h
        simp at h

/-- C14 witness: deleting a model that is ready, and a model that is not ready. -/
theorem delete_model_unloads_when_ready_witness :
    (DeleteModel (Sample.modelService none (.ok true) none) Sample.ctx Sample.model
        Sample.world).2.trace =
      [.GetModel Sample.ctx Sample.model, .ModelReady engineCtx { Name := "simple", Version := "" },
        .RepositoryModelUnload engineCtx { ModelName := "simple" },
        .DeleteModel Sample.ctx Sample.model] ∧
    (DeleteModel (Sample.modelService none (.ok false) none) Sample.ctx Sample.model
        Sample.world).2.trace =
      [.GetModel Sample.ctx Sample.model, .ModelReady engineCtx { Name := "simple", Version := "" },
        .DeleteModel Sample.ctx Sample.model] := by
  obtain ⟨r1, a1, _, _, a4⟩ := delete_model_unloads_when_ready
    (Sample.modelService none (.ok true) none) Sample.ctx Sample.model Sample.model
    Sample.world true 1 2 rfl rfl
  obtain ⟨r2, b1, _, b3, _⟩ := delete_model_unloads_when_ready
    (Sample.modelService none (.ok false) none) Sample.ctx Sample.model Sample.model
    Sample.world false 1 2 rfl rfl
  rw [a1, b1, a4 3 rfl, b3 rfl]
  exact ⟨rfl, rfl⟩

/-- C15. If the model lookup, the readiness query or the unload call returns an error,
`ModelService.DeleteModel` returns `(false, that error)` and the repository's
`DeleteModel` is not among its calls. -/
theorem delete_model_stops_on_error {σ : Type} (s : ModelService σ) (ctx : Context)
    (model m : Models.Model) (w : World σ) (st1 st2 st3 : σ) (err : String)
    (h : s.Repo.GetModel ctx model w.st = (.error err, st1) ∨
      (s.Repo.GetModel ctx model w.st = (.ok (some m), st1) ∧
        s.TritonClient.ModelReady engineCtx { Name := m.Name, Version := "" } st1
          = (.error err, st2)) ∨
      (s.Repo.GetModel ctx model w.st = (.ok (some m), st1) ∧
        s.TritonClient.ModelReady engineCtx { Name := m.Name, Version := "" } st1
          = (.ok true, st2) ∧
        s.TritonClient.RepositoryModelUnload engineCtx { ModelName := m.Name } st2
          = (some err, st3))) :
    (DeleteModel s ctx model w).1 = .ok (false, some err) ∧
    ∃ calls, (DeleteModel s ctx model w).2.trace = w.trace ++ calls ∧
      ∀ c ∈ calls, c.isDeleteModel = false := by
  rcases h with hG | ⟨hG, hR⟩ | ⟨hG, hR, hU⟩
  · refine ⟨by simp [DeleteModel, World.call, hG], [.GetModel ctx model],
      by simp [DeleteModel, World.call, hG], ?_⟩
    intro c hc; simp at hc; subst hc; rfl
  · unfold engineCtx at hR
    refine ⟨by simp [DeleteModel, World.call, ModelReadyRequest, hG, hR],
      [.GetModel ctx model, .ModelReady engineCtx { Name := m.Name, Version := "" }],
      by simp [DeleteModel, World.call, ModelReadyRequest, hG, hR, engineCtx], ?_⟩
    intro c hc; simp at hc
    rcases hc with rfl | rfl <;> rfl
  · unfold engineCtx at hR hU
    refine ⟨by simp [DeleteModel, World.call, ModelReadyRequest, UnloadModelRequest, hG, hR, hU],
      [.GetModel ctx model, .ModelReady engineCtx { Name := m.Name, Version := "" },
        .RepositoryModelUnload engineCtx { ModelName := m.Name }],
      by simp [DeleteModel, World.call, ModelReadyRequest, UnloadModelRequest, hG, hR, hU,
        engineCtx], ?_⟩
    intro c hc; simp at hc
    rcases hc with rfl | rfl | rfl <;> rfl

/-- C15 witness: a failing lookup, a failing readiness query and a failing unload call. -/
theorem delete_model_stops_on_error_witness :
    ((DeleteModel (Sample.modelService (some "no rows") (.ok true) none) Sample.ctx
        Sample.model Sample.world).1 = .ok (false, some "no rows") ∧
      ∃ calls, (DeleteModel (Sample.modelService (some "no rows") (.ok true) none) Sample.ctx
          Sample.model Sample.world).2.trace = Sample.world.trace ++ calls ∧
        ∀ c ∈ calls, c.isDeleteModel = false) ∧
    ((DeleteModel (Sample.modelService none (.error "unavailable") none) Sample.ctx
        Sample.model Sample.world).1 = .ok (false, some "unavailable") ∧
      ∃ calls, (DeleteModel (Sample.modelService none (.error "unavailable") none) Sample.ctx
          Sample.model Sample.world).2.trace = Sample.world.trace ++ calls ∧
        ∀ c ∈ calls, c.isDeleteModel = false) ∧
    ((DeleteModel (Sample.modelService none (.ok true) (some "busy")) Sample.ctx
        Sample.model Sample.world).1 = .ok (false, some "busy") ∧
      ∃ calls, (DeleteModel (Sample.modelService none (.ok true) (some "busy")) Sample.ctx
          Sample.model Sample.world).2.trace = Sample.world.trace ++ calls ∧
        ∀ c ∈ calls, c.isDeleteModel = false) :=
  ⟨delete_model_stops_on_error (Sample.modelService (some "no rows") (.ok true) none)
      Sample.ctx Sample.model Sample.model Sample.world 1 2 3 "no rows" (Or.inl rfl),
   delete_model_stops_on_error (Sample.modelService none (.error "unavailable") none)
      Sample.ctx Sample.model Sample.model Sample.world 1 2 3 "unavailable"
      (Or.inr (Or.inl ⟨rfl, rfl⟩)),
   delete_model_stops_on_error (Sample.modelService none (.ok true) (some "busy"))
      Sample.ctx Sample.model Sample.model Sample.world 1 2 3 "busy"
      (Or.inr (Or.inr ⟨rfl, rfl, rfl⟩))⟩

/-! ### Reading messages back -/

theorem GetMessagesLoop_ok (dialog : List Models.StoredMessage) :
    ∀ messages : List MessagePb.Message,
      (∀ m ∈ dialog, 64 ≤ m.Input1.cap ∧ 64 ≤ m.Input2.cap) →
      GetMessagesLoop dialog messages =
        .ok (messages ++ dialog.map
          (fun m => toPbMessage m (leWords m.Input1) (leWords m.Input2))) := by
  induction dialog with
  | nil => intro messages _; simp [GetMessagesLoop]
  | cons m rest ih =>
    intro messages h
    have hm := h m (List.mem_cons_self _ _)
    have e0 : index [leWords m.Input1, leWords m.Input2] 0 = .ok (leWords m.Input1) := by
      simp [index]
    have e1 : index [leWords m.Input1, leWords m.Input2] 1 = .ok (leWords m.Input2) := by
      simp [index]
    simp only [GetMessagesLoop, BytesToInt32_ok m.Input1 m.Input2 [] hm.1 hm.2, e0, e1]
    rw [ih _ (fun x hx => h x (List.mem_cons_of_mem _ hx))]
    simp

/-- C16. When the repository returns stored messages whose two buffers have 64 bytes
each, `MessageService.GetMessages` returns one entry per stored message, in the same
order, entry `k` carrying the stored `ID`, `UserID`, `ModelID`, `VersionID`, `Results`
(and `CreatedAt`) of message `k` and, as its two input vectors, the result of
`BytesToInt32` on the two buffers, which is their little-endian decoding; a buffer that
holds the `Preprocess` encoding of a length-16 `int32` vector decodes to that vector. The
only call made is the repository's `GetMessages`. -/
theorem get_messages_decodes {σ : Type} (s : MessageService σ) (ctx : Context)
    (userID modelID : Int) (w : World σ) (dialog : List Models.StoredMessage) (st1 : σ)
    (hG : s.Repo.GetMessages ctx userID modelID w.st = (.ok dialog, st1))
    (hlen : ∀ m ∈ dialog, m.Input1.len = 64 ∧ m.Input2.len = 64) :
    ∃ messages, GetMessages s ctx userID modelID w =
        (.ok (messages, none),
          { st := st1, trace := w.trace ++ [.GetMessages ctx userID modelID] }) ∧
      messages.length = dialog.length ∧
      ∀ (k : Nat) (m : Models.StoredMessage), dialog[k]? = some m →
        ∃ in0 in1, BytesToInt32 [m.Input1, m.Input2] = .ok [in0, in1] ∧
          messages[k]? = some
            ({ Id := m.ID, UserId := m.UserID, ModelId := m.ModelID, VersionId := m.VersionID,
               Inputs := [{ Values := in0 }, { Values := in1 }],
               Results := m.Results, CreatedAt := m.CreatedAt } : MessagePb.Message) ∧
          (∀ i, i < 16 → in0[i]? = some (int32 (Binary.Uint32 (m.Input1.vis.getD (4 * i) 0)
            (m.Input1.vis.getD (4 * i + 1) 0) (m.Input1.vis.getD (4 * i + 2) 0)
            (m.Input1.vis.getD (4 * i + 3) 0)))) ∧
          (∀ i, i < 16 → in1[i]? = some (int32 (Binary.Uint32 (m.Input2.vis.getD (4 * i) 0)
            (m.Input2.vis.getD (4 * i + 1) 0) (m.Input2.vis.getD (4 * i + 2) 0)
            (m.Input2.vis.getD (4 * i + 3) 0)))) ∧
          (∀ v : List Int, v.length = 16 → (∀ x ∈ v, isInt32 x) →
            m.Input1.vis = leBytes v → in0 = v) ∧
          (∀ v : List Int, v.length = 16 → (∀ x ∈ v, isInt32 x) →
            m.Input2.vis = leBytes v → in1 = v) := by
  have hcap : ∀ m ∈ dialog, 64 ≤ m.Input1.cap ∧ 64 ≤ m.Input2.cap := by
    intro m hm
    have := hlen m hm
    unfold ByteBuf.len at this
    unfold ByteBuf.cap
    omega
  refine ⟨dialog.map (fun m => toPbMessage m (leWords m.Input1) (leWords m.Input2)), ?_, ?_, ?_⟩
  · simp [GetMessages, World.call, hG, GetMessagesLoop_ok dialog [] hcap]
  · simp
  · intro k m hk
    have hm : m ∈ dialog := by
      obtain ⟨hk1, hk2⟩ := List.getElem?_eq_some.mp hk
      rw [← hk2]; exact List.getElem_mem hk1
    have hl := hlen m hm
    unfold ByteBuf.len at hl
    refine ⟨leWords m.Input1, leWords m.Input2,
      BytesToInt32_ok m.Input1 m.Input2 [] (hcap m hm).1 (hcap m hm).2, ?_, ?_, ?_, ?_, ?_⟩
    · simp [List.getElem?_map, hk, toPbMessage]
    · intro i hi; exact getElem?_leWords m.Input1 i hi (by omega)
    · intro i hi; exact getElem?_leWords m.Input2 i hi (by omega)
    · intro v hv hx hvis
      have : m.Input1 = ByteBuf.ofBytes (leBytes v) m.Input1.spare := by
        cases hb : m.Input1 with
        | mk vis spare => rw [hb] at hvis; simp [ByteBuf.ofBytes] at *; exact hvis
      rw [this]; exact leWords_leBytes v _ hv hx
    · intro v hv hx hvis
      have : m.Input2 = ByteBuf.ofBytes (leBytes v) m.Input2.spare := by
        cases hb : m.Input2 with
        | mk vis spare => rw [hb] at hvis; simp [ByteBuf.ofBytes] at *; exact hvis
      rw [this]; exact leWords_leBytes v _ hv hx

/-- C16 witness: reading back the two stored sample messages. -/
theorem get_messages_decodes_witness :
    (∀ m ∈ Sample.dialog, m.Input1.len = 64 ∧ m.Input2.len = 64) ∧
    (GetMessages Sample.readService Sample.ctx 1 7 Sample.world).1 =
      .ok ([{ Id := 11, UserId := 1, ModelId := 7, VersionId := 9,
              Inputs := [{ Values := Sample.vecA }, { Values := Sample.vecB }],
              Results := ["0 + 3 = 3", "0 - 3 = -3"], CreatedAt := 100 },
            { Id := 12, UserId := 1, ModelId := 7, VersionId := 9,
              Inputs := [{ Values := Sample.vecB }, { Values := Sample.vecA }],
              Results := [], CreatedAt := 101 }], none) ∧
    (GetMessages Sample.readService Sample.ctx 1 7 Sample.world).2.trace =
      [.GetMessages Sample.ctx 1 7] := by
  have hl : ∀ m ∈ Sample.dialog, m.Input1.len = 64 ∧ m.Input2.len = 64 := by decide
  obtain ⟨messages, h1, _, _⟩ := get_messages_decodes Sample.readService Sample.ctx 1 7
    Sample.world Sample.dialog 1 rfl hl
  refine ⟨hl, ?_, ?_⟩
  · decide
  · rw [h1]; rfl

end Service

namespace GrpcAuth

open Go Env Status

/-! ### Logging in -/

/-- C19. For a login request whose username or password is empty, the service layer's
`LogIn` returns an empty token, user ID 0 and the error `InvalidArgument`
"username or password is empty"; the transport's `LogIn` returns no response and an
error whose message contains "username or password is empty"; no call is made on the
repository (the world is left as it was). -/
theorem login_rejects_empty_credentials {σ : Type} (s : Service.AuthService σ)
    (ctx : Context) (req : AuthPb.LogInRequest) (w : World σ)
    (h : req.Username = "" ∨ req.Password = "") :
    Service.LogIn s ctx
        { ID := 0, Username := req.Username, Password := req.Password, Email := "" } w =
      (("", 0, some { code := .InvalidArgument, desc := "username or password is empty" }), w) ∧
    ∃ msg, LogIn s ctx req w = ((none, some msg), w) ∧
      Contains msg "username or password is empty" := by
  have hc : req.Password = "" ∨ req.Username = "" := h.symm
  have e : Service.LogIn s ctx
        { ID := 0, Username := req.Username, Password := req.Password, Email := "" } w =
      (("", 0, some { code := .InvalidArgument, desc := "username or password is empty" }), w) := by
    simp [Service.LogIn, hc, Errorf]
  refine ⟨e, "ValidateUser: rpc error: code = InvalidArgument desc = username or password is empty",
    ?_, ⟨"ValidateUser: rpc error: code = InvalidArgument desc = ", "", by decide⟩⟩
  simp only [LogIn, e]
  have : ("ValidateUser: " ++ StatusError.Error
      { code := .InvalidArgument, desc := "username or password is empty" }) =
      "ValidateUser: rpc error: code = InvalidArgument desc = username or password is empty" := by
    decide
  rw [this]

/-- C19 witness: the request of `TestLogIn_IncorrectData`, and a request with an empty
password only. -/
theorem login_rejects_empty_credentials_witness :
    (Service.LogIn Sample.authService Sample.ctx
        { ID := 0, Username := "", Password := "", Email := "" } Sample.world =
      (("", 0, some { code := .InvalidArgument, desc := "username or password is empty" }),
        Sample.world) ∧
    ∃ msg, LogIn Sample.authService Sample.ctx { Username := "", Password := "" } Sample.world
        = ((none, some msg), Sample.world) ∧
      Contains msg "username or password is empty") ∧
    (Service.LogIn Sample.authService Sample.ctx
        { ID := 0, Username := "test user", Password := "", Email := "" } Sample.world =
      (("", 0, some { code := .InvalidArgument, desc := "username or password is empty" }),
        Sample.world) ∧
    ∃ msg, LogIn Sample.authService Sample.ctx { Username := "test user", Password := "" }
        Sample.world = ((none, some msg), Sample.world) ∧
      Contains msg "username or password is empty") :=
  ⟨login_rejects_empty_credentials Sample.authService Sample.ctx
      { Username := "", Password := "" } Sample.world (Or.inl rfl),
   login_rejects_empty_credentials Sample.authService Sample.ctx
      { Username := "test user", Password := "" } Sample.world (Or.inr rfl)⟩

/-- C20. For a login request with non-empty credentials, when the user is found and the
password does not match the stored hash, the service layer's `LogIn` returns an empty
token, user ID 0 and the error `Unauthenticated` "password does not match"; the
transport's `LogIn` returns no response and an error whose message contains
"password does not match"; the only call made is the repository's `GetUser`, so no
token is signed. -/
theorem login_rejects_wrong_password {σ : Type} (s : Service.AuthService σ)
    (ctx : Context) (req : AuthPb.LogInRequest) (w : World σ)
    (result : Models.User) (st1 : σ) (cmpErr : String)
    (hU : req.Username ≠ "") (hP : req.Password ≠ "")
    (hG : s.Repo.GetUser ctx
        { ID := 0, Username := req.Username, Password := req.Password, Email := "" } w.st
      = (.ok result, st1))
    (hC : s.CompareHashAndPassword result.Password req.Password = some cmpErr) :
    Service.LogIn s ctx
        { ID := 0, Username := req.Username, Password := req.Password, Email := "" } w =
      (("", 0, some { code := .Unauthenticated, desc := "password does not match" }),
        { st := st1, trace := w.trace ++ [.GetUser ctx
            { ID := 0, Username := req.Username, Password := req.Password, Email := "" }] }) ∧
    ∃ msg, LogIn s ctx req w =
        ((none, some msg),
          { st := st1, trace := w.trace ++ [.GetUser ctx
            { ID := 0, Username := req.Username, Password := req.Password, Email := "" }] }) ∧
      Contains msg "password does not match" := by
  have e : Service.LogIn s ctx
        { ID := 0, Username := req.Username, Password := req.Password, Email := "" } w =
      (("", 0, some { code := .Unauthenticated, desc := "password does not match" }),
        { st := st1, trace := w.trace ++ [.GetUser ctx
            { ID := 0, Username := req.Username, Password := req.Password, Email := "" }] }) := by
    simp [Service.LogIn, hU, hP, World.call, hG, hC, Errorf]
  refine ⟨e, "ValidateUser: rpc error: code = Unauthenticated desc = password does not match",
    ?_, ⟨"ValidateUser: rpc error: code = Unauthenticated desc = ", "", by decide⟩⟩
  simp only [LogIn, e]
  have : ("ValidateUser: " ++ StatusError.Error
      { code := .Unauthenticated, desc := "password does not match" }) =
      "ValidateUser: rpc error: code = Unauthenticated desc = password does not match" := by
    decide
  rw [this]

/-- C20 witness: the request of `TestLogIn_PasswordDoesNotMatch`. -/
theorem login_rejects_wrong_password_witness :
    Service.LogIn Sample.authService Sample.ctx
        { ID := 0, Username := "test user", Password := "wrong_password", Email := "" }
        Sample.world =
      (("", 0, some { code := .Unauthenticated, desc := "password does not match" }),
        { st := 1, trace := Sample.world.trace ++ [.GetUser Sample.ctx
            { ID := 0, Username := "test user", Password := "wrong_password", Email := "" }] }) ∧
    ∃ msg, LogIn Sample.authService Sample.ctx
        { Username := "test user", Password := "wrong_password" } Sample.world =
        ((none, some msg),
          { st := 1, trace := Sample.world.trace ++ [.GetUser Sample.ctx
            { ID := 0, Username := "test user", Password := "wrong_password", Email := "" }] }) ∧
      Contains msg "password does not match" :=
  login_rejects_wrong_password Sample.authService Sample.ctx
    { Username := "test user", Password := "wrong_password" } Sample.world Sample.user 1
    "crypto/bcrypt: hashedPassword is not the hash of the given password"
    (by decide) (by decide) rfl (by decide)

end GrpcAuth

namespace Triton

open Go Binary Env

/-! ### Decoding, then encoding -/

theorem uint32_int32 (u : Nat) (h : u < 4294967296) : uint32 (int32 u) = u := by
  unfold uint32 int32
  split <;> omega

theorem PutUint32_Uint32 (b0 b1 b2 b3 : Nat) (h0 : b0 < 256) (h1 : b1 < 256) (h2 : b2 < 256)
    (h3 : b3 < 256) : PutUint32 (uint32 (int32 (Uint32 b0 b1 b2 b3))) = [b0, b1, b2, b3] := by
  rw [Uint32_eq_sum b0 b1 b2 b3 h0 h1 h2, uint32_int32 _ (by omega)]
  simp only [PutUint32, byte, Nat.shiftRight_eq_div_pow]
  have e0 : (b0 + b1 * 256 + b2 * 65536 + b3 * 16777216) % 256 = b0 := by omega
  have e1 : (b0 + b1 * 256 + b2 * 65536 + b3 * 16777216) / 2 ^ 8 % 256 = b1 := by omega
  have e2 : (b0 + b1 * 256 + b2 * 65536 + b3 * 16777216) / 2 ^ 16 % 256 = b2 := by omega
  have e3 : (b0 + b1 * 256 + b2 * 65536 + b3 * 16777216) / 2 ^ 24 % 256 = b3 := by omega
  rw [e0, e1, e2, e3]

theorem getD_lt_256 (l : List Nat) (h : ∀ b ∈ l, b < 256) (i : Nat) : l.getD i 0 < 256 := by
  rw [List.getD_eq_getElem?_getD]
  cases hi : l[i]? with
  | none => simp
  | some b =>
    obtain ⟨hl, rfl⟩ := List.getElem?_eq_some.mp hi
    simpa using h _ (List.getElem_mem hl)

theorem leBytes_leWords (s : ByteBuf) (hlen : s.vis.length = 64) (hb : ∀ b ∈ s.vis, b < 256) :
    leBytes (leWords s) = s.vis := by
  apply List.ext_getElem?
  intro j
  by_cases hj : j < 64
  · have hq : j / 4 < 16 := by omega
    have hr : j % 4 < 4 := Nat.mod_lt _ (by decide)
    have hjj : j = 4 * (j / 4) + j % 4 := by omega
    have hw := getElem?_leWords s (j / 4) hq (by omega)
    have key := getElem?_leBytes (leWords s) (j / 4) (j % 4) _ hr hw
    rw [← hjj] at key
    rw [key, List.getElem?_eq_getElem (by omega)]
    congr 1
    have hP := PutUint32_Uint32 (s.vis.getD (4 * (j / 4)) 0) (s.vis.getD (4 * (j / 4) + 1) 0)
      (s.vis.getD (4 * (j / 4) + 2) 0) (s.vis.getD (4 * (j / 4) + 3) 0)
      (getD_lt_256 _ hb _) (getD_lt_256 _ hb _) (getD_lt_256 _ hb _) (getD_lt_256 _ hb _)
    have g : ∀ m (hm : m < s.vis.length), s.vis.getD m 0 = s.vis[m] := by
      intro m hm; simp [List.getD_eq_getElem?_getD, List.getElem?_eq_getElem hm]
    simp only [PutUint32, byte, List.cons.injEq, and_true] at hP
    obtain ⟨p0, p1, p2, p3⟩ := hP
    have hk : j % 4 = 0 ∨ j % 4 = 1 ∨ j % 4 = 2 ∨ j % 4 = 3 := by omega
    rcases hk with hk | hk | hk | hk
    · rw [hk]; simp only [Nat.mul_zero, Nat.shiftRight_zero]
      rw [p0, g _ (by omega)]; congr 1; omega
    · rw [hk]; simp only [Nat.mul_one]
      rw [p1, g _ (by omega)]; congr 1; omega
    · rw [hk]; rw [p2, g _ (by omega)]; congr 1; omega
    · rw [hk]; rw [p3, g _ (by omega)]; congr 1; omega
  · have a : (leBytes (leWords s))[j]? = none :=
      List.getElem?_eq_none (by rw [length_leBytes, length_leWords]; omega)
    have b : s.vis[j]? = none := List.getElem?_eq_none (by omega)
    rw [a, b]

/-- C29. For two byte buffers of length exactly 64, `BytesToInt32` returns two vectors
whose `Preprocess` encoding is the two buffers again; and two pairs of length-16 `int32`
vectors with the same `Preprocess` result are equal. -/
theorem decode_encode_roundtrip (s0 s1 : ByteBuf) (h0 : s0.len = 64) (h1 : s1.len = 64)
    (hb0 : ∀ b ∈ s0.vis, b < 256) (hb1 : ∀ b ∈ s1.vis, b < 256) :
    (∃ v0 v1, BytesToInt32 [s0, s1] = .ok [v0, v1] ∧
      Preprocess [v0, v1] = .ok [s0.vis, s1.vis]) ∧
    (∀ a0 a1 c0 c1 : List Int, a0.length = 16 → a1.length = 16 → c0.length = 16 →
      c1.length = 16 → (∀ x ∈ a0, isInt32 x) → (∀ x ∈ a1, isInt32 x) →
      (∀ x ∈ c0, isInt32 x) → (∀ x ∈ c1, isInt32 x) →
      Preprocess [a0, a1] = Preprocess [c0, c1] → a0 = c0 ∧ a1 = c1) := by
  unfold ByteBuf.len at h0 h1
  have k0 : 64 ≤ s0.cap := by unfold ByteBuf.cap; omega
  have k1 : 64 ≤ s1.cap := by unfold ByteBuf.cap; omega
  have t : ∀ v : List Int, v.length = 16 → v.take inputSize = v := fun v hv =>
    List.take_of_length_le (by simp [inputSize, hv])
  refine ⟨⟨leWords s0, leWords s1, BytesToInt32_ok s0 s1 [] k0 k1, ?_⟩, ?_⟩
  · rw [Preprocess_ok _ _ [] (by simp [inputSize, length_leWords])
      (by simp [inputSize, length_leWords]), t _ (length_leWords s0), t _ (length_leWords s1),
      leBytes_leWords s0 h0 hb0, leBytes_leWords s1 h1 hb1]
  · intro a0 a1 c0 c1 la0 la1 lc0 lc1 ra0 ra1 rc0 rc1 h
    rw [Preprocess_ok a0 a1 [] (by simp [inputSize, la0]) (by simp [inputSize, la1]),
      Preprocess_ok c0 c1 [] (by simp [inputSize, lc0]) (by simp [inputSize, lc1]),
      t a0 la0, t a1 la1, t c0 lc0, t c1 lc1] at h
    simp only [Except.ok.injEq, List.cons.injEq, and_true] at h
    constructor
    · rw [← leWords_leBytes a0 [] la0 ra0, h.1, leWords_leBytes c0 [] lc0 rc0]
    · rw [← leWords_leBytes a1 [] la1 ra1, h.2, leWords_leBytes c1 [] lc1 rc1]

/-- C29 witness: two sample buffers of 64 bytes. -/
theorem decode_encode_roundtrip_witness :
    (Sample.buf64.len = 64 ∧ Sample.buf64s.len = 64 ∧ (∀ b ∈ Sample.buf64.vis, b < 256) ∧
      (∀ b ∈ Sample.buf64s.vis, b < 256)) ∧
    (∃ v0 v1, BytesToInt32 [Sample.buf64, Sample.buf64s] = .ok [v0, v1] ∧
      Preprocess [v0, v1] = .ok [Sample.buf64.vis, Sample.buf64s.vis]) ∧
    (∀ a0 a1 c0 c1 : List Int, a0.length = 16 → a1.length = 16 → c0.length = 16 →
      c1.length = 16 → (∀ x ∈ a0, isInt32 x) → (∀ x ∈ a1, isInt32 x) →
      (∀ x ∈ c0, isInt32 x) → (∀ x ∈ c1, isInt32 x) →
      Preprocess [a0, a1] = Preprocess [c0, c1] → a0 = c0 ∧ a1 = c1) :=
  ⟨by decide, decode_encode_roundtrip Sample.buf64 Sample.buf64s (by decide) (by decide)
    (by decide) (by decide)⟩

end Triton

namespace Service

open Go Env Status Triton

/-! ### The intended precondition -/

/-- C30, as stated, fails: with two input vectors of length 16, resolvable identifiers,
successful engine calls and two raw output buffers of at least 64 bytes, the call
returns no result string when `SaveMessage` fails. -/
theorem no_strings_when_save_fails :
    Sample.vecA.length = 16 ∧ Sample.vecB.length = 16 ∧
    64 ≤ Sample.buf65.len ∧ 64 ≤ Sample.buf68.len ∧
    (ProcessMessage (Sample.service true (some "db down")) Sample.ctx 1 7 9
        [Sample.vecA, Sample.vecB] Sample.world).1 =
      .ok ([], some { code := Status.Code.Internal, desc := "SendMessage: db down" }) ∧
    (ProcessMessage (Sample.service true (some "db down")) Sample.ctx 1 7 9
        [Sample.vecA, Sample.vecB] Sample.world).2.trace.map
        (fun c => (c.isEngine, c.isSave)) =
      [(false, false), (false, false), (true, false), (true, false), (false, true)] :=
  ⟨by decide, by decide, by decide, by decide, by decide, by decide⟩

/-- C30, amended. For a request with exactly two input vectors of length exactly 16,
resolvable identifiers, successful engine calls and an engine response with at least two
raw output buffers of at least 64 bytes each, no index or slice expression of the input
copy, of `Preprocess`, of `Postprocess` or of the formatting loop is out of range: each
of them yields its value, exactly 32 strings are formatted, and the call does not
panic; it returns the 32 strings when `SaveMessage` succeeds. -/
theorem process_message_in_bounds {σ : Type} (s : MessageService σ) (ctx : Context)
    (userID modelID versionID : Int) (v0 v1 : List Int) (w : World σ)
    (name : String) (ver : Int) (ready : Bool) (st1 st2 st3 st4 st5 : σ)
    (o0 o1 : ByteBuf) (more : List ByteBuf)
    (h0 : v0.length = 16) (h1 : v1.length = 16)
    (hN : s.Repo.GetModelName ctx modelID w.st = (.ok name, st1))
    (hV : s.Repo.GetVersionNumber ctx versionID st1 = (.ok ver, st2))
    (hR : s.triton.ModelReady engineCtx { Name := name, Version := Sprintd ver } st2
      = (.ok ready, st3))
    (hL : (ready = true ∧ st4 = st3) ∨ (ready = false ∧
      s.triton.RepositoryModelLoad engineCtx { ModelName := name } st3 = (none, st4)))
    (hI : s.triton.ModelInfer engineCtx
        (inferRequestOf name (Sprintd ver) (leBytes v0) (leBytes v1)) st4
      = (.ok { RawOutputContents := o0 :: o1 :: more }, st5))
    (c0 : 64 ≤ o0.len) (c1 : 64 ≤ o1.len) :
    copyInputs [v0, v1] = [v0, v1] ∧
    Preprocess (copyInputs [v0, v1]) = .ok [leBytes v0, leBytes v1] ∧
    ∃ d0 d1 results,
      Postprocess { RawOutputContents := o0 :: o1 :: more } = .ok [d0, d1] ∧
      formatResults (copyInputs [v0, v1]) d0 d1 = .ok results ∧
      results.length = 32 ∧
      (∀ e, (ProcessMessage s ctx userID modelID versionID [v0, v1] w).1 ≠ .error e) ∧
      ((s.Repo.SaveMessage ctx
            { ID := 0, UserID := userID, ModelID := modelID, VersionID := versionID,
              Input1 := leBytes v0, Input2 := leBytes v1, Results := results,
              CreatedAt := s.Now st5 }
            st5).1 = none →
        (ProcessMessage s ctx userID modelID versionID [v0, v1] w).1 = .ok (results, none)) := by
  have t0 : v0.take inputSize = v0 := List.take_of_length_le (by simp [inputSize, h0])
  have t1 : v1.take inputSize = v1 := List.take_of_length_le (by simp [inputSize, h1])
  have k0 : 64 ≤ o0.cap := by unfold ByteBuf.cap; unfold ByteBuf.len at c0; omega
  have k1 : 64 ≤ o1.cap := by unfold ByteBuf.cap; unfold ByteBuf.len at c1; omega
  have hrun := ProcessMessage_run s ctx userID modelID versionID v0 v1 [] w name ver ready
    st1 st2 st3 st4 st5 o0 o1 more (by omega) (by omega) hN hV hR hL
    (by rw [t0, t1]; exact hI) k0 k1
  have hF := formatResults_ok v0 v1 (leWords o0) (leWords o1) []
    (by rw [length_leWords]; omega) (by rw [length_leWords]; omega)
    (by rw [length_leWords, length_leWords])
  rw [length_leWords] at hF
  have hlen : (resultsOf v0 v1 o0 o1).length = 32 :=
    length_flatMap_pairs
      (fun j => SprintfSum (v0.getD j 0) (v1.getD j 0) ((leWords o0).getD j 0))
      (fun j => SprintfDiff (v0.getD j 0) (v1.getD j 0) ((leWords o1).getD j 0)) 16 0
  refine ⟨copyInputs_eq _, ?_, leWords o0, leWords o1, resultsOf v0 v1 o0 o1,
    Postprocess_ok o0 o1 more k0 k1, ?_, hlen, ?_, ?_⟩
  · rw [copyInputs_eq, Preprocess_ok v0 v1 [] (by simp [inputSize, h0])
      (by simp [inputSize, h1]), t0, t1]
  · rw [copyInputs_eq, hF]; rfl
  · intro e
    rw [hrun]
    simp only [messageOf, t0, t1]
    cases (s.Repo.SaveMessage ctx
            { ID := 0, UserID := userID, ModelID := modelID, VersionID := versionID,
              Input1 := leBytes v0, Input2 := leBytes v1,
              Results := resultsOf v0 v1 o0 o1, CreatedAt := s.Now st5 } st5).1 <;> simp
  · intro hS
    rw [hrun]
    simp only [messageOf, t0, t1]
    rw [hS]

/-- C30 witness: a run of the sample service with a model that is not ready. -/
theorem process_message_in_bounds_witness :
    (Sample.vecA.length = 16 ∧ Sample.vecB.length = 16 ∧
      64 ≤ Sample.buf65.len ∧ 64 ≤ Sample.buf68.len) ∧
    copyInputs [Sample.vecA, Sample.vecB] = [Sample.vecA, Sample.vecB] ∧
    Preprocess (copyInputs [Sample.vecA, Sample.vecB]) =
      .ok [leBytes Sample.vecA, leBytes Sample.vecB] ∧
    ∃ d0 d1 results,
      Postprocess { RawOutputContents := Sample.buf65 :: Sample.buf68 :: [] } = .ok [d0, d1] ∧
      formatResults (copyInputs [Sample.vecA, Sample.vecB]) d0 d1 = .ok results ∧
      results.length = 32 ∧
      (∀ e, (ProcessMessage (Sample.service false none) Sample.ctx 1 7 9
        [Sample.vecA, Sample.vecB] Sample.world).1 ≠ .error e) ∧
      (((Sample.service false none).Repo.SaveMessage Sample.ctx
            { ID := 0, UserID := 1, ModelID := 7, VersionID := 9,
              Input1 := leBytes Sample.vecA, Input2 := leBytes Sample.vecB,
              Results := results, CreatedAt := (Sample.service false none).Now 5 }
            5).1 = none →
        (ProcessMessage (Sample.service false none) Sample.ctx 1 7 9
          [Sample.vecA, Sample.vecB] Sample.world).1 = .ok (results, none)) :=
  ⟨by decide, process_message_in_bounds (Sample.service false none) Sample.ctx 1 7 9
    Sample.vecA Sample.vecB Sample.world "simple" 1 false 1 2 3 4 5 Sample.buf65 Sample.buf68 []
    (by decide) (by decide) rfl rfl rfl (Or.inr ⟨rfl, rfl⟩) rfl (by decide) (by decide)⟩

end Service

namespace GrpcModel

open Go Env Status

/-! ### The model service's transport -/

theorem versionsLoop_eq (vs : List Models.Version) : ∀ acc : List ModelPb.Version,
    versionsLoop vs acc =
      acc ++ vs.map (fun v => ({ Id := v.ID, Number := v.Number, ModelId := v.ModelID } :
        ModelPb.Version)) := by
  induction vs with
  | nil => intro acc; simp [versionsLoop]
  | cons v rest ih => intro acc; simp [versionsLoop, ih]

theorem scanRows_ok (rows : List Repository.ModelRow) : ∀ result : Models.Model,
    ∃ r, Repository.scanRows (rows.map Except.ok) result = .ok r ∧
      r.Versions = result.Versions ++ rows.filterMap Repository.versionOf ∧
      (rows = [] → r = result) ∧
      (∀ row, rows.getLast? = some row →
        r.ID = row.ID ∧ r.Name = row.Name ∧ r.UserID = row.UserID) := by
  induction rows with
  | nil => intro result; exact ⟨result, by simp [Repository.scanRows]⟩
  | cons row rest ih =>
    intro result
    have step : ∃ mid : Models.Model,
        Repository.scanRows ((row :: rest).map Except.ok) result =
          Repository.scanRows (rest.map Except.ok) mid ∧
        mid.Versions = result.Versions ++ (Repository.versionOf row).toList ∧
        mid.ID = row.ID ∧ mid.Name = row.Name ∧ mid.UserID = row.UserID := by
      refine ⟨{ ID := row.ID, Name := row.Name, UserID := row.UserID,
                Versions := result.Versions ++ (Repository.versionOf row).toList },
        ?_, rfl, rfl, rfl, rfl⟩
      rcases hv : row.versionID with _ | a <;> rcases hn : row.versionNumber with _ | b <;>
        rcases hm : row.VersionModelId with _ | c <;>
        simp [Repository.scanRows, Repository.versionOf, hv, hn, hm]
    obtain ⟨mid, hstep, hV, hI, hN, hU⟩ := step
    obtain ⟨r, hr, hrV, hrE, hrL⟩ := ih mid
    refine ⟨r, by rw [hstep, hr], ?_, by simp, ?_⟩
    · rw [hrV, hV, List.filterMap_cons]
      cases Repository.versionOf row <;> simp
    · intro last hlast
      cases rest with
      | nil =>
        simp only [List.getLast?_singleton, Option.some.injEq] at hlast
        rw [hrE rfl, ← hlast]; exact ⟨hI, hN, hU⟩
      | cons r2 rest2 =>
        rw [List.getLast?_cons_cons] at hlast
        exact hrL last hlast

theorem UploadModel_first_call {σ : Type} (s : Service.ModelService σ) (os : Service.Os σ)
    (ctx : Context) (req : ModelPb.UploadModelRequest) (w : World σ) :
    ∃ rest, (UploadModel s os ctx req w).2.trace =
      w.trace ++
        .CreateModel ctx { ID := 0, Name := req.Name, UserID := req.UserId, Versions := [] } ::
          rest := by
  unfold UploadModel Service.CreateModel World.call
  rcases h : s.Repo.CreateModel ctx
      { ID := 0, Name := req.Name, UserID := req.UserId, Versions := [] } w.st with ⟨r, st1⟩
  rcases r with err | _ | res
  · exact ⟨[], by simp⟩
  · exact ⟨[], by simp⟩
  · simp only []
    rcases h2 : os.MkdirAll ("/models/" ++ res.Name) st1 with ⟨e2, st2⟩
    rcases e2 with _ | err2
    · simp only []
      rcases h3 : os.WriteFile ("/models/" ++ res.Name ++ "/" ++ ModelPb.GetFilename req.Config)
        (ModelPb.GetContent req.Config) st2 with ⟨e3, st3⟩
      rcases e3 with _ | err3
      · exact ⟨_, by simp [h2, h3]; rfl⟩
      · exact ⟨_, by simp [h2, h3]; rfl⟩
    · exact ⟨_, by simp [h2]; rfl⟩

theorem UnloadModel_first_call {σ : Type} (s : Service.ModelService σ)
    (ctx : Context) (req : ModelPb.UnloadModelRequest) (w : World σ) :
    ∃ rest, (UnloadModel s ctx req w).2.trace =
      w.trace ++
        .GetModel ctx { ID := req.Id, Name := "", UserID := 0, Versions := [] } :: rest := by
  unfold UnloadModel Service.DeleteModel Triton.ModelReadyRequest Triton.UnloadModelRequest
    World.call
  rcases h : s.Repo.GetModel ctx { ID := req.Id, Name := "", UserID := 0, Versions := [] }
    w.st with ⟨r, st1⟩
  rcases r with err | _ | resp
  · exact ⟨[], by simp⟩
  · exact ⟨[], by simp⟩
  · simp only []
    rcases h2 : s.TritonClient.ModelReady (Context.WithTimeout Context.Background 10)
      { Name := resp.Name, Version := "" } st1 with ⟨r2, st2⟩
    rcases r2 with err2 | ready
    · exact ⟨_, by simp [h2]; rfl⟩
    · cases ready
      · simp only [h2]
        rcases h4 : s.Repo.DeleteModel ctx
          { ID := req.Id, Name := "", UserID := 0, Versions := [] } st2 with ⟨⟨b, e4⟩, st4⟩
        cases e4 <;> exact ⟨_, by simp [h4]; rfl⟩
      · simp only [h2]
        rcases h3 : s.TritonClient.RepositoryModelUnload
          (Context.WithTimeout Context.Background 10) { ModelName := resp.Name } st2
          with ⟨e3, st3⟩
        rcases e3 with _ | err3
        · simp only [h3, if_true]
          rcases h4 : s.Repo.DeleteModel ctx
            { ID := req.Id, Name := "", UserID := 0, Versions := [] } st3 with ⟨⟨b, e4⟩, st4⟩
          cases e4 <;> exact ⟨_, by simp [h4]; rfl⟩
        · exact ⟨_, by simp [h3]; rfl⟩
/-- C21 (diverging code). `UploadModel` validates nothing: for every request its first
action is the repository call `CreateModel` with the request's name and user. On the
sample store the empty request (empty name, user `0`, no config) reaches the
repository and the file system and is answered with the error of writing to the
directory `/models//`; the same request with a config file is answered with a response
and no error, after the model with the empty name is stored and the file written. -/
theorem upload_model_accepts_empty_request :
    (∀ (σ : Type) (s : Service.ModelService σ) (os : Service.Os σ) (ctx : Context)
        (req : ModelPb.UploadModelRequest) (w : World σ),
      ∃ rest, (UploadModel s os ctx req w).2.trace =
        w.trace ++
          .CreateModel ctx { ID := 0, Name := req.Name, UserID := req.UserId, Versions := [] } ::
            rest) ∧
    (UploadModel Sample.storeService Sample.os Sample.ctx
        { Name := "", UserId := 0, Config := none } Sample.world).1 =
      .ok (none, some { code := .Internal, desc := "UploadModel: rpc error: code = Internal " ++
        "desc = service.UploadModel: failed to save config : open /models//: is a directory" }) ∧
    (UploadModel Sample.storeService Sample.os Sample.ctx
        { Name := "", UserId := 0, Config := none } Sample.world).2.trace =
      [.CreateModel Sample.ctx { ID := 0, Name := "", UserID := 0, Versions := [] },
       .MkdirAll "/models/", .WriteFile "/models//" []] ∧
    (UploadModel Sample.storeService Sample.os Sample.ctx
        { Name := "", UserId := 0, Config := some { Filename := "config.pbtxt", Content := [1, 2] } }
        Sample.world).1 = .ok (some { Id := 8 }, none) ∧
    (UploadModel Sample.storeService Sample.os Sample.ctx
        { Name := "", UserId := 0, Config := some { Filename := "config.pbtxt", Content := [1, 2] } }
        Sample.world).2.trace =
      [.CreateModel Sample.ctx { ID := 0, Name := "", UserID := 0, Versions := [] },
       .MkdirAll "/models/", .WriteFile "/models//config.pbtxt" [1, 2]] :=
  ⟨fun _ s os ctx req w => UploadModel_first_call s os ctx req w, by decide, by decide,
    by decide, by decide⟩

/-- C22 (diverging code). `UnloadModel` validates nothing: for every request its first
action is the repository call `GetModel` with the request's identifier; on the sample
store the request with the identifier `0` issues two repository calls and one engine
call, and the error it returns is the repository's `not found`. -/
theorem unload_model_accepts_zero_id :
    (∀ (σ : Type) (s : Service.ModelService σ) (ctx : Context)
        (req : ModelPb.UnloadModelRequest) (w : World σ),
      ∃ rest, (UnloadModel s ctx req w).2.trace =
        w.trace ++
          .GetModel ctx { ID := req.Id, Name := "", UserID := 0, Versions := [] } :: rest) ∧
    (UnloadModel Sample.storeService Sample.ctx { Id := 0 } Sample.world).1 =
      .ok (none, some { code := .NotFound, desc := "UnloadModel: rpc error: code = Internal " ++
        "desc = repository.DeleteModel: order (id 0) not found" }) ∧
    (UnloadModel Sample.storeService Sample.ctx { Id := 0 } Sample.world).2.trace =
      [.GetModel Sample.ctx { ID := 0, Name := "", UserID := 0, Versions := [] },
       .ModelReady Service.engineCtx { Name := "", Version := "" },
       .DeleteModel Sample.ctx { ID := 0, Name := "", UserID := 0, Versions := [] }] :=
  ⟨fun _ s ctx req w => UnloadModel_first_call s ctx req w, by decide, by decide⟩

/-- C23 (diverging code). When the query of the repository's `GetModel` yields no row
and no error, the repository returns the zero-valued model with a `nil` error, and the
transport's `GetModel` answers with a response that describes a model with the
identifier `0` and an empty name, and with no error. -/
theorem get_model_without_row_succeeds {σ : Type} (db : Repository.DB σ)
    (s : Service.ModelService σ) (ctx : Context) (req : ModelPb.GetModelRequest)
    (w : World σ) (st1 : σ)
    (hRepo : s.Repo.GetModel = Repository.GetModel db)
    (hQuery : db.QueryContext ctx req.Id w.st = (.ok { rows := [], err := none }, st1)) :
    Repository.GetModel db ctx { ID := req.Id, Name := "", UserID := 0, Versions := [] } w.st =
      (.ok (some { ID := 0, Name := "", UserID := 0, Versions := [] }), st1) ∧
    (GetModel s ctx req w).1 =
      .ok (some { Model := { Id := 0, Name := "", UserId := 0, Versions := [] } }, none) := by
  have hR : Repository.GetModel db ctx
      { ID := req.Id, Name := "", UserID := 0, Versions := [] } w.st =
      (.ok (some { ID := 0, Name := "", UserID := 0, Versions := [] }), st1) := by
    simp [Repository.GetModel, hQuery, Repository.scanRows, Repository.zeroModel]
  refine ⟨hR, ?_⟩
  simp [GetModel, Service.GetModel, World.call, hRepo, hR, versionsLoop]

/-- C23 witness: the sample store holds no model with the identifier `5`. -/
theorem get_model_without_row_succeeds_witness :
    Repository.GetModel Sample.db Sample.ctx
        { ID := 5, Name := "", UserID := 0, Versions := [] } Sample.world.st =
      (.ok (some { ID := 0, Name := "", UserID := 0, Versions := [] }), 1) ∧
    (GetModel Sample.storeService Sample.ctx { Id := 5 } Sample.world).1 =
      .ok (some { Model := { Id := 0, Name := "", UserId := 0, Versions := [] } }, none) :=
  get_model_without_row_succeeds Sample.db Sample.storeService Sample.ctx { Id := 5 }
    Sample.world 1 rfl rfl

/-- C24. When the lookup returns a stored model, the response of the transport's
`GetModel` carries its identifier, name and user unchanged, and one version entry per
stored version, in the same order, with the stored identifier, number and model
identifier; and when every row of the repository's query is scanned, the model that the
repository returns holds exactly one version for each row whose three version columns
are non-null, in row order, and the model columns of the last row. -/
theorem get_model_response_shape {σ : Type} (s : Service.ModelService σ) (ctx : Context)
    (req : ModelPb.GetModelRequest) (w : World σ) (m : Models.Model) (st1 : σ)
    (hGet : s.Repo.GetModel ctx { ID := req.Id, Name := "", UserID := 0, Versions := [] } w.st =
      (.ok (some m), st1)) :
    (GetModel s ctx req w).1 =
      .ok (some { Model := { Id := m.ID, Name := m.Name, UserId := m.UserID,
                             Versions := m.Versions.map (fun v =>
                               { Id := v.ID, Number := v.Number, ModelId := v.ModelID }) } },
        none) ∧
    (∀ (db : Repository.DB σ) (rows : List Repository.ModelRow) (st st2 : σ),
      db.QueryContext ctx req.Id st = (.ok { rows := rows.map Except.ok, err := none }, st2) →
      ∃ result,
        Repository.GetModel db ctx { ID := req.Id, Name := "", UserID := 0, Versions := [] } st =
          (.ok (some result), st2) ∧
        result.Versions = rows.filterMap Repository.versionOf ∧
        (∀ row, rows.getLast? = some row →
          result.ID = row.ID ∧ result.Name = row.Name ∧ result.UserID = row.UserID)) := by
  constructor
  · simp [GetModel, Service.GetModel, World.call, hGet, versionsLoop_eq]
  · intro db rows st st2 hQ
    obtain ⟨r, hr, hV, _, hL⟩ := scanRows_ok rows Repository.zeroModel
    refine ⟨r, ?_, by simpa [Repository.zeroModel] using hV, hL⟩
    simp [Repository.GetModel, hQ, hr]

/-- C24 witness: the model `7` of the sample store, stored with two versions. -/
theorem get_model_response_shape_witness :
    (GetModel Sample.storeService Sample.ctx { Id := 7 } Sample.world).1 =
      .ok (some { Model := { Id := 7, Name := "simple", UserId := 1,
                             Versions := [{ Id := 21, Number := 1, ModelId := 7 },
                                          { Id := 22, Number := 2, ModelId := 7 }] } },
        none) ∧
    (∀ (db : Repository.DB Nat) (rows : List Repository.ModelRow) (st st2 : Nat),
      db.QueryContext Sample.ctx 7 st = (.ok { rows := rows.map Except.ok, err := none }, st2) →
      ∃ result,
        Repository.GetModel db Sample.ctx { ID := 7, Name := "", UserID := 0, Versions := [] } st =
          (.ok (some result), st2) ∧
        result.Versions = rows.filterMap Repository.versionOf ∧
        (∀ row, rows.getLast? = some row →
          result.ID = row.ID ∧ result.Name = row.Name ∧ result.UserID = row.UserID)) :=
  get_model_response_shape Sample.storeService Sample.ctx { Id := 7 } Sample.world
    { ID := 7, Name := "simple", UserID := 1,
      Versions := [{ ID := 21, Number := 1, ModelID := 7 }, { ID := 22, Number := 2, ModelID := 7 }] }
    1 (by decide)

end GrpcModel

namespace Handlers
open Go Env Http

/-! ### The gateway -/

theorem newCalls_of_append {σ : Type} (w w2 : World σ) (l : List Call)
    (h : w2.trace = w.trace ++ l) : newCalls w w2 = l := by
  simp [newCalls, h]

theorem newCalls_emit {σ : Type} (w : World σ) (c : Call) : newCalls w (w.emit c) = [c] :=
  newCalls_of_append w _ [c] rfl

theorem forwardMessage_calls {σ : Type} (client : GrpcClients.MessageServiceClient σ)
    (r : Request) (reqJson : Models.SendMessageRequest) (modelId versionId : Int)
    (w : World σ) (value : String) (hCookie : r.Cookie "user_id" = some value) :
    ∀ u ∈ (newCalls w (forwardMessage client r reqJson modelId versionId w).2).filterMap
      Call.forwardedUser, u = (Strconv.ParseInt value 32).1 := by
  unfold forwardMessage
  simp only [hCookie]
  rcases hR : r.RequestID with _ | requestID
  · simp [newCalls]
  · simp only [GrpcClients.SendMessage, World.call]
    rcases hS : client.SendMessage r.ctx
      { UserId := (Strconv.ParseInt value 32).1, VersionId := versionId, ModelId := modelId,
        RequestId := requestID,
        Inputs := [{ Values := reqJson.Input1 }, { Values := reqJson.Input2 }] } w.st
      with ⟨a, st1⟩
    rcases a with err | resp <;>
      simp [newCalls, World.emit, Call.forwardedUser]

theorem parseRoute_calls {σ : Type} (client : GrpcClients.MessageServiceClient σ)
    (r : Request) (reqJson : Models.SendMessageRequest) (w : World σ) (value : String)
    (hCookie : r.Cookie "user_id" = some value) :
    ∀ u ∈ (newCalls w (parseRoute client r reqJson w).2).filterMap Call.forwardedUser,
      u = (Strconv.ParseInt value 32).1 := by
  unfold parseRoute
  rcases r.Vars.lookup "model_id" with _ | modelIdStr
  · simp [newCalls_emit, Call.forwardedUser]
  · simp only []
    split
    · simp [newCalls_emit, Call.forwardedUser]
    · rcases r.Vars.lookup "version_id" with _ | versionIdStr
      · simp [newCalls_emit, Call.forwardedUser]
      · simp only []
        split
        · simp [newCalls_emit, Call.forwardedUser]
        · rcases Strconv.ParseInt modelIdStr 64 with ⟨modelId, _ | e1⟩
          · rcases Strconv.ParseInt versionIdStr 64 with ⟨versionId, _ | e2⟩
            · exact forwardMessage_calls client r reqJson modelId versionId w value hCookie
            · simp [newCalls_emit, Call.forwardedUser]
          · simp [newCalls_emit, Call.forwardedUser]

theorem SendMessage_calls {σ : Type} (client : GrpcClients.MessageServiceClient σ)
    (r : Request) (w : World σ) (value : String)
    (hCookie : r.Cookie "user_id" = some value) :
    ∀ u ∈ (newCalls w (SendMessage client r w).2).filterMap Call.forwardedUser,
      u = (Strconv.ParseInt value 32).1 := by
  unfold SendMessage
  rcases r.Body with e | reqJson
  · simp [newCalls_emit, Call.forwardedUser]
  · simp only []
    split
    · simp [newCalls_emit, Call.forwardedUser]
    · split
      · simp [newCalls_emit, Call.forwardedUser]
      · exact parseRoute_calls client r reqJson w value hCookie

theorem GetMessages_calls {σ : Type} (client : GrpcClients.MessageServiceClient σ)
    (r : Request) (w : World σ) (value : String)
    (hCookie : r.Cookie "user_id" = some value) :
    ∀ u ∈ (newCalls w (GetMessages client r w).2).filterMap Call.forwardedUser,
      u = (Strconv.ParseInt value 32).1 := by
  unfold GetMessages
  rcases r.Vars.lookup "model_id" with _ | idStr
  · simp [newCalls_emit, Call.forwardedUser]
  · simp only []
    split
    · simp [newCalls_emit, Call.forwardedUser]
    · simp only [hCookie]
      rcases hR : r.RequestID with _ | requestID
      · simp [newCalls]
      · simp only [GrpcClients.GetMessages, World.call]
        rcases hS : client.GetMessages r.ctx
          { ModelId := (Strconv.ParseInt idStr 32).1, UserId := (Strconv.ParseInt value 32).1,
            RequestId := requestID } w.st with ⟨a, st1⟩
        rcases a with err | resp <;>
          simp [newCalls, World.emit, Call.forwardedUser]

theorem SendMessage_short {σ : Type} (client : GrpcClients.MessageServiceClient σ)
    (r : Request) (w : World σ) (reqJson : Models.SendMessageRequest)
    (hBody : r.Body = .ok reqJson)
    (hLen : reqJson.Input1.length ≠ 16 ∨ reqJson.Input2.length ≠ 16) :
    SendMessage client r w =
      (.ok (), w.emit (.HttpError "The number of values in Input1 is not equal to 16" 400)) := by
  unfold SendMessage
  simp only [hBody]
  by_cases h1 : reqJson.Input1.length = 16
  · have h2 : reqJson.Input2.length ≠ 16 := by
      rcases hLen with h | h
      · exact absurd h1 h
      · exact h
    simp [h1, h2]
  · simp [h1]

/-- C25. When the decoded body has an `input1` or an `input2` that does not contain
exactly 16 values, the handler `SendMessage` answers with one HTTP error of status 400
and forwards nothing; and whenever it forwards a request to the message service, both
vectors of the body have length exactly 16. -/
theorem send_message_checks_lengths {σ : Type} (client : GrpcClients.MessageServiceClient σ)
    (r : Request) (w : World σ) :
    (∀ reqJson, r.Body = .ok reqJson →
      (reqJson.Input1.length ≠ 16 ∨ reqJson.Input2.length ≠ 16) →
      SendMessage client r w =
        (.ok (), w.emit (.HttpError "The number of values in Input1 is not equal to 16" 400)) ∧
      ∀ c ∈ newCalls w (SendMessage client r w).2, c.isForward = false) ∧
    (∀ c ∈ newCalls w (SendMessage client r w).2, c.isForward = true →
      ∃ reqJson, r.Body = .ok reqJson ∧
        reqJson.Input1.length = 16 ∧ reqJson.Input2.length = 16) := by
  have short : ∀ reqJson, r.Body = .ok reqJson →
      (reqJson.Input1.length ≠ 16 ∨ reqJson.Input2.length ≠ 16) →
      ∀ c ∈ newCalls w (SendMessage client r w).2, c.isForward = false := by
    intro reqJson hBody hLen c hc
    rw [SendMessage_short client r w reqJson hBody hLen, newCalls_emit] at hc
    simp only [List.mem_singleton] at hc
    rw [hc]; rfl
  refine ⟨fun reqJson hBody hLen =>
    ⟨SendMessage_short client r w reqJson hBody hLen, short reqJson hBody hLen⟩, ?_⟩
  intro c hc hF
  rcases hBody : r.Body with e | reqJson
  · exfalso
    unfold SendMessage at hc
    simp only [hBody, newCalls_emit, List.mem_singleton] at hc
    rw [hc] at hF
    exact Bool.noConfusion hF
  · by_cases hLen : reqJson.Input1.length ≠ 16 ∨ reqJson.Input2.length ≠ 16
    · rw [short reqJson hBody hLen c hc] at hF
      exact Bool.noConfusion hF
    · exact ⟨reqJson, rfl, by omega, by omega⟩

/-- C25 witness: a body whose second vector has two values is rejected, and the sample
request with two vectors of 16 values is forwarded. -/
theorem send_message_checks_lengths_witness :
    ((Sample.request Sample.vecA [1, 2] (Sample.cookies "1")).Body =
        .ok { Input1 := Sample.vecA, Input2 := [1, 2] } ∧
      (Sample.vecA.length ≠ 16 ∨ [(1 : Int), 2].length ≠ 16)) ∧
    (SendMessage Sample.messageClient (Sample.request Sample.vecA [1, 2] (Sample.cookies "1"))
        Sample.world =
      (.ok (), Sample.world.emit
        (.HttpError "The number of values in Input1 is not equal to 16" 400)) ∧
      ∀ c ∈ newCalls Sample.world (SendMessage Sample.messageClient
        (Sample.request Sample.vecA [1, 2] (Sample.cookies "1")) Sample.world).2,
        c.isForward = false) ∧
    ((newCalls Sample.world (SendMessage Sample.messageClient
        (Sample.request Sample.vecA Sample.vecB (Sample.cookies "1")) Sample.world).2).map
      Call.isForward = [true, false]) :=
  ⟨⟨rfl, Or.inr (by decide)⟩,
    (send_message_checks_lengths Sample.messageClient
      (Sample.request Sample.vecA [1, 2] (Sample.cookies "1")) Sample.world).1
      { Input1 := Sample.vecA, Input2 := [1, 2] } rfl (Or.inr (by decide)),
    by decide⟩

/-- C28, as stated, fails: two requests that carry the same valid token and pass the
authentication gate are forwarded with the user identifiers `1` and `2`, those of their
`user_id` cookies, by `SendMessage` as well as by `GetMessages`; and a request with the
valid token and no `user_id` cookie ends in a nil dereference. -/
theorem forwarded_user_follows_cookie :
    ((Gateway.authMiddleware Sample.authClient Sample.ctx (SendMessage Sample.messageClient)
        (Sample.request Sample.vecA Sample.vecB (Sample.cookies "1"))
        Sample.world).2.trace.filterMap Call.forwardedUser = [1] ∧
      (Gateway.authMiddleware Sample.authClient Sample.ctx (SendMessage Sample.messageClient)
        (Sample.request Sample.vecA Sample.vecB (Sample.cookies "2"))
        Sample.world).2.trace.filterMap Call.forwardedUser = [2]) ∧
    ((Gateway.authMiddleware Sample.authClient Sample.ctx (GetMessages Sample.messageClient)
        (Sample.request Sample.vecA Sample.vecB (Sample.cookies "1"))
        Sample.world).2.trace.filterMap Call.forwardedUser = [1] ∧
      (Gateway.authMiddleware Sample.authClient Sample.ctx (GetMessages Sample.messageClient)
        (Sample.request Sample.vecA Sample.vecB (Sample.cookies "2"))
        Sample.world).2.trace.filterMap Call.forwardedUser = [2]) ∧
    (Gateway.authMiddleware Sample.authClient Sample.ctx (SendMessage Sample.messageClient)
        (Sample.request Sample.vecA Sample.vecB [("token", "signed-token")])
        Sample.world).1 = .error .nilDereference :=
  ⟨⟨by decide, by decide⟩, ⟨by decide, by decide⟩, by decide⟩

/-- C28, amended. The user identifier that the gateway forwards to the message service
is determined by the `user_id` cookie: for a request that carries a `user_id` cookie,
every request that `SendMessage` or `GetMessages` forwards has as its `UserId` the
integer that `strconv.ParseInt` yields for the cookie's value with base 10 and 32 bits,
whatever the token is. -/
theorem forwarded_user_is_cookie_value {σ : Type}
    (client : GrpcClients.MessageServiceClient σ) (r : Request) (w : World σ) (value : String)
    (hCookie : r.Cookie "user_id" = some value) :
    (∀ u ∈ (newCalls w (SendMessage client r w).2).filterMap Call.forwardedUser,
      u = (Strconv.ParseInt value 32).1) ∧
    (∀ u ∈ (newCalls w (GetMessages client r w).2).filterMap Call.forwardedUser,
      u = (Strconv.ParseInt value 32).1) :=
  ⟨SendMessage_calls client r w value hCookie, GetMessages_calls client r w value hCookie⟩

/-- C28 witness: the sample request with the `user_id` cookie `2`. -/
theorem forwarded_user_is_cookie_value_witness :
    (Sample.request Sample.vecA Sample.vecB (Sample.cookies "2")).Cookie "user_id" = some "2" ∧
    (∀ u ∈ (newCalls Sample.world (SendMessage Sample.messageClient
        (Sample.request Sample.vecA Sample.vecB (Sample.cookies "2")) Sample.world).2).filterMap
        Call.forwardedUser, u = (Strconv.ParseInt "2" 32).1) ∧
    (∀ u ∈ (newCalls Sample.world (GetMessages Sample.messageClient
        (Sample.request Sample.vecA Sample.vecB (Sample.cookies "2")) Sample.world).2).filterMap
        Call.forwardedUser, u = (Strconv.ParseInt "2" 32).1) :=
  ⟨by decide, forwarded_user_is_cookie_value Sample.messageClient
    (Sample.request Sample.vecA Sample.vecB (Sample.cookies "2")) Sample.world "2" (by decide)⟩

end Handlers

namespace Gateway

open Go Env Http

/-! ### The authentication gate -/

/-- C27. For a request whose first path segment is none of `signup`, `login` and `docs`:
without a `token` cookie the middleware redirects to the login page; when the validation
call fails or reports the token as not valid, it clears the cookie and redirects; in
these three cases the outcome is the same for every next handler, which is not invoked.
When the validation call reports the token as valid, the next handler is invoked; and
with a next handler that does nothing, the hand-over to it is recorded exactly when the
request carries a `token` cookie that the validation call reports as valid. -/
theorem auth_gate {σ : Type} (authClient : GrpcClients.AuthServiceClient σ) (sctx : Context)
    (r : Request) (w : World σ) (segment : String)
    (hSeg : index (Strings.Split r.Path '/') 1 = .ok segment)
    (hGated : segment ≠ "signup" ∧ segment ≠ "login" ∧ segment ≠ "docs") :
    (r.Cookie "token" = none → ∀ next : Handler σ,
      authMiddleware authClient sctx next r w =
        (.ok (), w.emit (.HttpRedirect "/login" 401))) ∧
    (∀ value err st1, r.Cookie "token" = some value →
      authClient.ValidateToken sctx { Jwt := value } w.st = (.error err, st1) →
      ∀ next : Handler σ, authMiddleware authClient sctx next r w =
        (.ok (), { st := st1, trace := w.trace ++ [.ValidateToken sctx { Jwt := value },
          .HttpSetCookie "token" "" (-1) true "/", .HttpRedirect "/login" 401] })) ∧
    (∀ value st1, r.Cookie "token" = some value →
      authClient.ValidateToken sctx { Jwt := value } w.st = (.ok { Valid := false }, st1) →
      ∀ next : Handler σ, authMiddleware authClient sctx next r w =
        (.ok (), { st := st1, trace := w.trace ++ [.ValidateToken sctx { Jwt := value },
          .HttpSetCookie "token" "" (-1) true "/", .HttpRedirect "/login" 401] })) ∧
    (∀ value st1, r.Cookie "token" = some value →
      authClient.ValidateToken sctx { Jwt := value } w.st = (.ok { Valid := true }, st1) →
      ∀ next : Handler σ, authMiddleware authClient sctx next r w =
        next r { st := st1, trace := w.trace ++ [.ValidateToken sctx { Jwt := value },
          .NextServeHTTP] }) ∧
    (Call.NextServeHTTP ∈ newCalls w (authMiddleware authClient sctx idle r w).2 ↔
      ∃ value st1, r.Cookie "token" = some value ∧
        authClient.ValidateToken sctx { Jwt := value } w.st = (.ok { Valid := true }, st1)) := by
  obtain ⟨g1, g2, g3⟩ := hGated
  have hA : r.Cookie "token" = none → ∀ next : Handler σ,
      authMiddleware authClient sctx next r w =
        (.ok (), w.emit (.HttpRedirect "/login" 401)) := by
    intro hC next
    simp [authMiddleware, hSeg, g1, g2, g3, hC]
  have hB : ∀ value err st1, r.Cookie "token" = some value →
      authClient.ValidateToken sctx { Jwt := value } w.st = (.error err, st1) →
      ∀ next : Handler σ, authMiddleware authClient sctx next r w =
        (.ok (), { st := st1, trace := w.trace ++ [.ValidateToken sctx { Jwt := value },
          .HttpSetCookie "token" "" (-1) true "/", .HttpRedirect "/login" 401] }) := by
    intro value err st1 hC hV next
    simp [authMiddleware, hSeg, g1, g2, g3, hC, GrpcClients.ValidateToken, World.call, hV,
      AuthPb.GetValid, World.emit]
  have hC : ∀ value st1, r.Cookie "token" = some value →
      authClient.ValidateToken sctx { Jwt := value } w.st = (.ok { Valid := false }, st1) →
      ∀ next : Handler σ, authMiddleware authClient sctx next r w =
        (.ok (), { st := st1, trace := w.trace ++ [.ValidateToken sctx { Jwt := value },
          .HttpSetCookie "token" "" (-1) true "/", .HttpRedirect "/login" 401] }) := by
    intro value st1 hC hV next
    simp [authMiddleware, hSeg, g1, g2, g3, hC, GrpcClients.ValidateToken, World.call, hV,
      AuthPb.GetValid, World.emit]
  have hD : ∀ value st1, r.Cookie "token" = some value →
      authClient.ValidateToken sctx { Jwt := value } w.st = (.ok { Valid := true }, st1) →
      ∀ next : Handler σ, authMiddleware authClient sctx next r w =
        next r { st := st1, trace := w.trace ++ [.ValidateToken sctx { Jwt := value },
          .NextServeHTTP] } := by
    intro value st1 hC hV next
    simp [authMiddleware, hSeg, g1, g2, g3, hC, GrpcClients.ValidateToken, World.call, hV,
      AuthPb.GetValid, World.emit]
  refine ⟨hA, hB, hC, hD, ?_⟩
  rcases hCk : r.Cookie "token" with _ | value
  · rw [hA hCk idle, Handlers.newCalls_emit]
    simp
  · rcases hV : authClient.ValidateToken sctx { Jwt := value } w.st with ⟨a, st1⟩
    rcases a with err | ⟨_ | _⟩
    · rw [hB value err st1 hCk hV idle]
      simp [newCalls, hV]
    · rw [hC value st1 hCk hV idle]
      simp [newCalls, hV]
    · rw [hD value st1 hCk hV idle]
      simp [newCalls, hV, idle]

/-- C27 witness: the sample request to `/chat/7/9` with the valid token; with a token
that is not valid, and with a failing validation call, the next handler is not reached. -/
theorem auth_gate_witness :
    (index (Strings.Split (Sample.request Sample.vecA Sample.vecB (Sample.cookies "1")).Path
        '/') 1 = .ok "chat" ∧
      ("chat" ≠ "signup" ∧ "chat" ≠ "login" ∧ "chat" ≠ "docs")) ∧
    (Call.NextServeHTTP ∈ newCalls Sample.world (authMiddleware Sample.authClient Sample.ctx
        idle (Sample.request Sample.vecA Sample.vecB (Sample.cookies "1")) Sample.world).2 ↔
      ∃ value st1,
        (Sample.request Sample.vecA Sample.vecB (Sample.cookies "1")).Cookie "token" =
          some value ∧
        Sample.authClient.ValidateToken Sample.ctx { Jwt := value } Sample.world.st =
          (.ok { Valid := true }, st1)) ∧
    ((authMiddleware Sample.authClient Sample.ctx idle
        (Sample.request Sample.vecA Sample.vecB [("token", "forged")]) Sample.world).2.trace.map
        Call.isNext = [false, false, false] ∧
      (authMiddleware Sample.failingAuthClient Sample.ctx idle
        (Sample.request Sample.vecA Sample.vecB (Sample.cookies "1")) Sample.world).2.trace.map
        Call.isNext = [false, false, false] ∧
      (authMiddleware Sample.authClient Sample.ctx idle
        (Sample.request Sample.vecA Sample.vecB (Sample.cookies "1")) Sample.world).2.trace.map
        Call.isNext = [false, true]) :=
  ⟨⟨by decide, by decide⟩,
    (auth_gate Sample.authClient Sample.ctx
      (Sample.request Sample.vecA Sample.vecB (Sample.cookies "1")) Sample.world "chat"
      (by decide) (by decide)).2.2.2.2,
    by decide, by decide, by decide⟩

end Gateway

namespace Service

open Go Env Status Triton

/-! ### End-to-end success and the save -/

/-- C7, as stated, fails: with a resolvable model and version, a ready model, two input
vectors of length 16 and an engine response carrying two 64-byte raw outputs, a run whose
`SaveMessage` fails calls `SaveMessage` once with the 32 formatted strings and returns
an empty list with the error, not the formatted strings. -/
theorem end_to_end_returns_nothing_when_save_fails :
    (Sample.vecA.length = 16 ∧ Sample.vecB.length = 16) ∧
    ((Sample.fixedService true (some "db down")).triton.ModelReady engineCtx
        { Name := "simple", Version := Sprintd 1 } 2 = (.ok true, 3) ∧
      (Sample.fixedService true (some "db down")).triton.ModelInfer engineCtx
        (inferRequestOf "simple" (Sprintd 1) (leBytes Sample.vecA) (leBytes Sample.vecB)) 3 =
        (.ok { RawOutputContents := [ByteBuf.ofBytes (List.replicate 64 7) [],
          ByteBuf.ofBytes (List.replicate 64 255) [1, 2]] }, 4)) ∧
    (ProcessMessage (Sample.fixedService true (some "db down")) Sample.ctx 1 7 9
        [Sample.vecA, Sample.vecB] Sample.world).1 =
      .ok ([], some { code := .Internal, desc := "SendMessage: db down" }) ∧
    (ProcessMessage (Sample.fixedService true (some "db down")) Sample.ctx 1 7 9
        [Sample.vecA, Sample.vecB] Sample.world).2.trace =
      [.GetModelName Sample.ctx 7, .GetVersionNumber Sample.ctx 9,
        .ModelReady engineCtx { Name := "simple", Version := Sprintd 1 },
        .ModelInfer engineCtx
          (inferRequestOf "simple" (Sprintd 1) (leBytes Sample.vecA) (leBytes Sample.vecB)),
        .SaveMessage Sample.ctx
          (messageOf 1 7 9 Sample.vecA Sample.vecB
            (resultsOf Sample.vecA Sample.vecB (ByteBuf.ofBytes (List.replicate 64 7) [])
              (ByteBuf.ofBytes (List.replicate 64 255) [1, 2])) 4)] ∧
    (resultsOf Sample.vecA Sample.vecB (ByteBuf.ofBytes (List.replicate 64 7) [])
      (ByteBuf.ofBytes (List.replicate 64 255) [1, 2])).length = 32 :=
  ⟨⟨by decide, by decide⟩, ⟨by decide, by decide⟩, by decide, by decide, by decide⟩

end Service
